import Mathlib

/-!
# Server descriptor of the FileZilla engine (`src/engine/server.cpp`)

A shallow embedding of `CServer`: the protocol registry, the credential
accessors, `ParseUrl`, the three comparison operations, the setters and the
formatter, followed by theorems about them.

Conventions of the embedding:
* `wxString` is a list of characters; reading one position past the end
  yields the terminating NUL, as `operator[]` does on the C++ side;
* `int` positions are `Int`, with `-1` for `wxNOT_FOUND`;
* the option store and the cipher (`COptions`, `CCrypto`) are not part of
  `server.cpp`, nor is the C locale that number parsing consults; they are
  the fields of `Env`, passed explicitly;
* the `unsigned int` port is a `Nat`; where its 32 bits matter (`%d` in
  `FormatHost`) the value is reduced modulo `2^32`;
* `bool` results with reference parameters become a result record.
-/

namespace FileZilla

/-! ## wxString primitives -/

abbrev wxString := List Char

/-- The terminating NUL character. -/
def NUL : Char := Char.ofNat 0

/-- Embedding of `wxString::Find(wxChar)`: index of the first occurrence, `-1` when absent. -/
def Find : wxString → Char → Int
  | [], _ => -1
  | x :: xs, c =>
    if x = c then 0
    else
      let r := Find xs c
      if r = -1 then -1 else r + 1

/-- Embedding of `wxString::Find(const wxChar*)`: index of the first occurrence of a
substring, `-1` when absent. -/
def FindStr : wxString → wxString → Int
  | [], sub => if sub = [] then 0 else -1
  | x :: xs, sub =>
    if sub.isPrefixOf (x :: xs) then 0
    else
      let r := FindStr xs sub
      if r = -1 then -1 else r + 1

/-- Embedding of `wxString::Mid(nFirst)`: the suffix starting at `nFirst`. -/
def Mid (s : wxString) (nFirst : Int) : wxString := s.drop nFirst.toNat

/-- Embedding of `wxString::Left(nCount)`: the first `nCount` characters. -/
def Left (s : wxString) (nCount : Int) : wxString := s.take nCount.toNat

/-- Embedding of `wxString::operator[]`: the character at `i`, NUL at the end of the string. -/
def charAt (s : wxString) (i : Int) : Char := s.getD i.toNat NUL

/-- Embedding of `wxString::Lower()`. -/
def Lower (s : wxString) : wxString := s.map Char.toLower

/-- Embedding of `wxSafeIsspace`: the `isspace` characters of the C locale below 127. -/
def wxSafeIsspace (c : Char) : Bool :=
  decide (c.toNat < 127) && (c.toNat == 32 || (decide (9 ≤ c.toNat) && decide (c.toNat ≤ 13)))

/-- Embedding of `wxString::Trim(bFromRight)`. -/
def Trim (s : wxString) (bFromRight : Bool) : wxString :=
  if bFromRight then s.rdropWhile wxSafeIsspace else s.dropWhile wxSafeIsspace

/-- Embedding of `wxString::RemoveLast()`. -/
def RemoveLast (s : wxString) : wxString := s.dropLast

/-- Embedding of `wxString::Cmp`: sign of the lexicographic comparison by character code. -/
def Cmp : wxString → wxString → Int
  | [], [] => 0
  | [], _ :: _ => -1
  | _ :: _, [] => 1
  | x :: xs, y :: ys =>
    if x.toNat < y.toNat then -1
    else if y.toNat < x.toNat then 1
    else Cmp xs ys

/-- Embedding of `wxString::CmpNoCase`. -/
def CmpNoCase (a b : wxString) : Int := Cmp (Lower a) (Lower b)

/-- Value of a run of decimal digits, most significant first. -/
def digitsVal (s : wxString) : Nat :=
  s.foldl (fun v c => 10 * v + (c.toNat - 48)) 0

/-- The optional sign in front of a number: `true` for `-`, and the text
after the sign. -/
def splitSign : wxString → Bool × wxString
  | [] => (false, [])
  | c :: t =>
    if c = '-' then (true, t)
    else if c = '+' then (false, t)
    else (false, c :: t)

/-- Embedding of `iswspace`, the class of characters `wcstol` and `wcstoul`
skip in front of a number: the six white-space characters of the basic
character set in every locale, and beyond ASCII the characters the current
locale classifies as white space (`localeSpace`; U+2003 under a UTF-8 locale,
none under the "C" locale). -/
def iswspace (localeSpace : Char → Bool) (c : Char) : Bool :=
  wxSafeIsspace c || (decide (127 < c.toNat) && localeSpace c)

/-- The conversion shared by `wcstol` and `wcstoul` in base 10 as
`wxString::ToLong` and `ToULong` use it: the C string (up to the first NUL)
is read as optional white space of the current locale, an optional sign and
a non-empty run of digits; the wx wrappers accept only when nothing is left
over. The result is the sign (`true` for `-`) and the magnitude. -/
def strtolCore (localeSpace : Char → Bool) (s : wxString) : Option (Bool × Nat) :=
  let cstr := s.takeWhile (fun c => c != NUL)
  let signed := splitSign (cstr.dropWhile (iswspace localeSpace))
  if signed.2 ≠ [] ∧ signed.2.all Char.isDigit then some (signed.1, digitsVal signed.2)
  else none

/-- Embedding of `wxString::ToLong`. A magnitude beyond `LONG_MAX` is kept exact here; the
library saturates or refuses it, and every caller in `server.cpp` rejects
all three readings by its range test. -/
def ToLong (localeSpace : Char → Bool) (s : wxString) : Option Int :=
  match strtolCore localeSpace s with
  | some (true, v) => some (-(v : Int))
  | some (false, v) => some (v : Int)
  | none => none

/-- Embedding of `wxString::ToULong` for a 64-bit `unsigned long`: a leading `-` negates
modulo `2^64`. -/
def ToULong (localeSpace : Char → Bool) (s : wxString) : Option Nat :=
  match strtolCore localeSpace s with
  | some (true, v) => some ((2 ^ 64 - v % 2 ^ 64) % 2 ^ 64)
  | some (false, v) => some v
  | none => none

/-- Embedding of `wxString::Format(_T("%d"), n)` for an `unsigned int` argument
`n`, as `FormatHost` calls it with `m_port`: `%d` reads the 32 bits as a
signed `int`, so a value below `2^31` is printed in decimal and a value from
`2^31` on as the negative number `n - 2^32`. -/
def FormatD (n : Nat) : wxString :=
  if n % 2 ^ 32 < 2 ^ 31 then Nat.toDigits 10 (n % 2 ^ 32)
  else '-' :: Nat.toDigits 10 (2 ^ 32 - n % 2 ^ 32)

/-! ## Enumerations of `server.h` -/

/-- Modelled from the spec: `server.h`, which declares the enumerations, is
not among the sources; the enumerators are those `server.cpp` and the
registry table name. -/
inductive ServerProtocol where
  | UNKNOWN | FTP | SFTP | HTTP | FTPS | FTPES | HTTPS | INSECURE_FTP
  deriving DecidableEq, Repr

/-- Modelled from the spec: the remote filesystem dialects, one per entry of
`typeNames`. -/
inductive ServerType where
  | DEFAULT | UNIX | VMS | DOS | MVS | VXWORKS | ZVM | HPNONSTOP | DOS_VIRTUAL | CYGWIN
  deriving DecidableEq, Repr

/-- Modelled from the spec: logon types Anonymous, Normal, Ask, Interactive,
Account. -/
inductive LogonType where
  | ANONYMOUS | NORMAL | ASK | INTERACTIVE | ACCOUNT
  deriving DecidableEq, Repr

/-- Modelled from the spec: the transfer mode enumeration. -/
inductive PasvMode where
  | MODE_DEFAULT | MODE_ACTIVE | MODE_PASSIVE
  deriving DecidableEq, Repr

/-- Modelled from the spec: the charset encoding enumeration. -/
inductive CharsetEncoding where
  | ENCODING_AUTO | ENCODING_UTF8 | ENCODING_CUSTOM
  deriving DecidableEq, Repr

/-- Modelled from the spec: the integer values of the enumerators are set in
`server.h`; they are taken in declaration order from zero, `UNKNOWN` being
`-1`. Integer value of a protocol enumerator. -/
def ServerProtocol.code : ServerProtocol → Int
  | .UNKNOWN => -1 | .FTP => 0 | .SFTP => 1 | .HTTP => 2 | .FTPS => 3
  | .FTPES => 4 | .HTTPS => 5 | .INSECURE_FTP => 6

/-- Integer value of a server type enumerator. -/
def ServerType.code : ServerType → Int
  | .DEFAULT => 0 | .UNIX => 1 | .VMS => 2 | .DOS => 3 | .MVS => 4 | .VXWORKS => 5
  | .ZVM => 6 | .HPNONSTOP => 7 | .DOS_VIRTUAL => 8 | .CYGWIN => 9

/-- Integer value of a logon type enumerator. -/
def LogonType.code : LogonType → Int
  | .ANONYMOUS => 0 | .NORMAL => 1 | .ASK => 2 | .INTERACTIVE => 3 | .ACCOUNT => 4

/-- Integer value of a transfer mode enumerator. -/
def PasvMode.code : PasvMode → Int
  | .MODE_DEFAULT => 0 | .MODE_ACTIVE => 1 | .MODE_PASSIVE => 2

/-- Integer value of an encoding enumerator. -/
def CharsetEncoding.code : CharsetEncoding → Int
  | .ENCODING_AUTO => 0 | .ENCODING_UTF8 => 1 | .ENCODING_CUSTOM => 2

/-! ## Protocol registry -/

/-- One record of the registry; `pfx` is the C++ member `prefix`. -/
structure t_protocolInfo where
  protocol : ServerProtocol
  pfx : wxString
  alwaysShowPrefix : Bool
  defaultPort : Nat
  translateable : Bool
  name : wxString
  supportsPostlogin : Bool
  deriving DecidableEq

open ServerProtocol in
/-- The table `protocolInfos`, sentinel included. The sentinel has no
initialiser for `supportsPostlogin`, hence `false`. -/
def protocolInfos : List t_protocolInfo :=
  [ ⟨FTP, "ftp".toList, false, 21, true,
      "FTP - File Transfer Protocol with optional encryption".toList, true⟩,
    ⟨SFTP, "sftp".toList, true, 22, false, "SFTP - SSH File Transfer Protocol".toList, false⟩,
    ⟨HTTP, "http".toList, true, 80, false, "HTTP - Hypertext Transfer Protocol".toList, true⟩,
    ⟨HTTPS, "https".toList, true, 443, true, "HTTPS - HTTP over TLS".toList, true⟩,
    ⟨FTPS, "ftps".toList, true, 990, true, "FTPS - FTP over implicit TLS/SSL".toList, true⟩,
    ⟨FTPES, "ftpes".toList, true, 21, true, "FTPES - FTP over explicit TLS/SSL".toList, true⟩,
    ⟨INSECURE_FTP, "ftp".toList, false, 21, true,
      "FTP - Insecure File Transfer Protocol".toList, true⟩,
    ⟨UNKNOWN, [], false, 21, false, [], false⟩ ]

/-- The sentinel entry that terminates `protocolInfos`. -/
def unknownInfo : t_protocolInfo := ⟨.UNKNOWN, [], false, 21, false, [], false⟩

/-- The scan of `GetProtocolInfo` from a given table position: stop at the
sentinel or at the entry of `protocol`. -/
def GetProtocolInfoFrom : List t_protocolInfo → ServerProtocol → t_protocolInfo
  | [], _ => unknownInfo
  | i :: rest, protocol =>
    if i.protocol = .UNKNOWN then i
    else if i.protocol = protocol then i
    else GetProtocolInfoFrom rest protocol

/-- Embedding of `GetProtocolInfo`. -/
def GetProtocolInfo (protocol : ServerProtocol) : t_protocolInfo :=
  GetProtocolInfoFrom protocolInfos protocol

/-- Embedding of `CServer::GetDefaultPort`. -/
def GetDefaultPort (protocol : ServerProtocol) : Nat :=
  (GetProtocolInfo protocol).defaultPort

/-- The scan of `GetProtocolFromPort` from a given table position. -/
def GetProtocolFromPortFrom : List t_protocolInfo → Nat → Bool → ServerProtocol
  | [], _, defaultOnly => if defaultOnly then .UNKNOWN else .FTP
  | i :: rest, port, defaultOnly =>
    if i.protocol = .UNKNOWN then (if defaultOnly then .UNKNOWN else .FTP)
    else if i.defaultPort = port then i.protocol
    else GetProtocolFromPortFrom rest port defaultOnly

/-- Embedding of `CServer::GetProtocolFromPort`. -/
def GetProtocolFromPort (port : Nat) (defaultOnly : Bool) : ServerProtocol :=
  GetProtocolFromPortFrom protocolInfos port defaultOnly

/-- The scan of `GetProtocolFromPrefix` from a given table position. -/
def GetProtocolFromPrefixFrom : List t_protocolInfo → wxString → ServerProtocol
  | [], _ => .UNKNOWN
  | i :: rest, p =>
    if i.protocol = .UNKNOWN then .UNKNOWN
    else if CmpNoCase i.pfx p = 0 then i.protocol
    else GetProtocolFromPrefixFrom rest p

/-- Embedding of `CServer::GetProtocolFromPrefix`. -/
def GetProtocolFromPrefix (p : wxString) : ServerProtocol :=
  GetProtocolFromPrefixFrom protocolInfos p

/-- Embedding of `CServer::GetPrefixFromProtocol`. -/
def GetPrefixFromProtocol (protocol : ServerProtocol) : wxString :=
  (GetProtocolInfo protocol).pfx

/-! ## The descriptor -/

/-- The collaborators `server.cpp` reaches through globals: the option
`OPTION_ENCRYPT_PASSWORDS` of `COptions`, the two operations of `CCrypto`,
with the string conversions around them folded in, and the white-space class
of the current C locale beyond ASCII, which `wcstol` and `wcstoul` consult
behind `wxString::ToLong` and `ToULong`. -/
structure Env where
  encryptPasswords : Bool
  Encrypt : wxString → wxString
  Decrypt : wxString → wxString
  localeSpace : Char → Bool

/-- A `CServerPath`, kept as the string it is constructed from; its grammar
lives outside `server.cpp`. -/
structure CServerPath where
  raw : wxString
  deriving DecidableEq

/-- The data members of `CServer`. -/
structure CServer where
  m_protocol : ServerProtocol
  m_type : ServerType
  m_host : wxString
  m_port : Nat
  m_logonType : LogonType
  m_user : wxString
  m_pass : wxString
  m_account : wxString
  m_timezoneOffset : Int
  m_pasvMode : PasvMode
  m_maximumMultipleConnections : Int
  m_encodingType : CharsetEncoding
  m_customEncoding : wxString
  m_postLoginCommands : List wxString
  m_bypassProxy : Bool
  m_name : wxString
  deriving DecidableEq

/-- Embedding of `CServer::SetPass`; the C++ function always returns `true`. -/
def SetPass (env : Env) (self : CServer) (pass : wxString) (alreadyEncrypted : Bool) : CServer :=
  { self with
    m_pass := if env.encryptPasswords ∧ ¬ alreadyEncrypted then env.Encrypt pass else pass }

/-- The user name of an anonymous logon, `_T("anonymous")`. -/
def anonymousUser : wxString := "anonymous".toList

/-- The password `ParseUrl` pairs with the anonymous user,
`_T("anonymous@example.com")`. -/
def anonymousPass : wxString := "anonymous@example.com".toList

/-- The password `GetPass` reports for an anonymous logon,
`_T("anon@localhost")`. -/
def anonLocalPass : wxString := "anon@localhost".toList

/-- Embedding of `CServer::GetUser`. -/
def GetUser (self : CServer) : wxString :=
  if self.m_logonType = .ANONYMOUS then anonymousUser else self.m_user

/-- Embedding of `CServer::GetPass`. -/
def GetPass (env : Env) (self : CServer) (decrypt : Bool) : wxString :=
  if self.m_logonType = .ANONYMOUS then anonLocalPass
  else if env.encryptPasswords ∧ decrypt then env.Decrypt self.m_pass
  else self.m_pass

/-- Embedding of `CServer::GetAccount`. -/
def GetAccount (self : CServer) : wxString :=
  if self.m_logonType ≠ .ACCOUNT then [] else self.m_account

/-- Embedding of `CServer::Initialize`: every member except the post-login commands and
the name is reset. -/
def Initialize (env : Env) (self : CServer) : CServer :=
  let self := { self with
    m_protocol := .UNKNOWN, m_type := .DEFAULT, m_host := [], m_port := 21,
    m_logonType := .ANONYMOUS, m_user := [] }
  let self := SetPass env self [] false
  { self with
    m_account := [], m_timezoneOffset := 0, m_pasvMode := .MODE_DEFAULT,
    m_maximumMultipleConnections := 0, m_encodingType := .ENCODING_AUTO,
    m_customEncoding := [], m_bypassProxy := false }

/-- The default constructor `CServer::CServer()`: default-initialised members
followed by `Initialize`. -/
def defaultCServer (env : Env) : CServer :=
  Initialize env
    { m_protocol := .UNKNOWN, m_type := .DEFAULT, m_host := [], m_port := 0,
      m_logonType := .ANONYMOUS, m_user := [], m_pass := [], m_account := [],
      m_timezoneOffset := 0, m_pasvMode := .MODE_DEFAULT, m_maximumMultipleConnections := 0,
      m_encodingType := .ENCODING_AUTO, m_customEncoding := [], m_postLoginCommands := [],
      m_bypassProxy := false, m_name := [] }

/-! ## ParseUrl -/

/-- What a call of `ParseUrl` leaves behind: the returned flag, the
descriptor, and the two reference parameters. -/
structure ParseUrlResult where
  ret : Bool
  self : CServer
  error : wxString
  path : CServerPath

def errNoHost : wxString := "No host given, please enter a host.".toList

def errInvalidProtocol : wxString :=
  ("Invalid protocol specified. Valid protocols are:\nftp:// for normal FTP,\n" ++
   "sftp:// for SSH file transfer protocol,\nftps:// for FTP over SSL (implicit) and\n" ++
   "ftpes:// for FTP over SSL (explicit).").toList

def errInvalidUsername : wxString := "Invalid username given.".toList

def errNoClosingBracket : wxString :=
  "Host starts with '[' but no closing bracket found.".toList

def errAfterBracket : wxString :=
  "Invalid host, after closing bracket only colon and port may follow.".toList

def errInvalidPort : wxString :=
  "Invalid port given. The port has to be a value from 1 to 65535.".toList

def errInvalidPortField : wxString :=
  errInvalidPort ++ "\n".toList ++
    "You can leave the port field empty to use the default port.".toList

/-- Lines 240-253 of `ParseUrl`: the logon type the parse settles on; a
caller's Ask or Interactive stays. -/
def parsedLogonType (env : Env) (self : CServer) : LogonType :=
  if self.m_logonType ≠ .ASK ∧ self.m_logonType ≠ .INTERACTIVE then
    if self.m_user = [] then .ANONYMOUS
    else if self.m_user = anonymousUser then
      let pwd := GetPass env self true
      if pwd = [] ∨ pwd = anonymousPass then .ANONYMOUS else .NORMAL
    else .NORMAL
  else self.m_logonType

/-- Lines 226-256 of `ParseUrl`: store the trimmed host without its
brackets, the port, the user and the password, clear the account, settle
the logon type and, if still unknown, the protocol. -/
def ParseUrlAssign (env : Env) (self : CServer) (host : wxString) (port : Nat)
    (user pass : wxString) : CServer :=
  let m_host := if charAt host 0 = '[' then Mid (RemoveLast host) 1 else host
  let self := { self with m_host := m_host, m_port := port, m_user := user }
  let self := SetPass env self pass false
  let self := { self with m_account := [] }
  let self := { self with m_logonType := parsedLogonType env self }
  { self with
    m_protocol :=
      if self.m_protocol = .UNKNOWN then GetProtocolFromPort port false else self.m_protocol }

/-- Lines 217-258 of `ParseUrl`: trim the host, refuse an empty one, store
the results. -/
def ParseUrlStore (env : Env) (self : CServer) (host : wxString) (port : Nat)
    (user pass error : wxString) (path : CServerPath) : ParseUrlResult :=
  let host := Trim (Trim host true) false
  if host = [] then ⟨false, self, errNoHost, path⟩
  else ⟨true, ParseUrlAssign env self host port user pass, error, path⟩

/-- Lines 189-215 of `ParseUrl`: `pos` is the position of the port delimiter
or `-1`. -/
def ParseUrlPort (env : Env) (self : CServer) (host : wxString) (pos : Int) (port : Nat)
    (user pass error : wxString) (path : CServerPath) : ParseUrlResult :=
  if pos ≠ -1 then
    if pos = 0 then ⟨false, self, errNoHost, path⟩
    else
      match ToLong env.localeSpace (Mid host (pos + 1)) with
      | none => ⟨false, self, errInvalidPort, path⟩
      | some tmp =>
        if tmp < 1 ∨ tmp > 65535 then ⟨false, self, errInvalidPort, path⟩
        else ParseUrlStore env self (Left host pos) tmp.toNat user pass error path
  else
    if port = 0 then
      ParseUrlStore env self host (GetDefaultPort self.m_protocol) user pass error path
    else if port > 65535 then ⟨false, self, errInvalidPort, path⟩
    else ParseUrlStore env self host port user pass error path

/-- Lines 166-188 of `ParseUrl`: find the port delimiter, after the closing
bracket when the host starts with `[`. -/
def ParseUrlHost (env : Env) (self : CServer) (host : wxString) (port : Nat)
    (user pass error : wxString) (path : CServerPath) : ParseUrlResult :=
  if charAt host 0 = '[' then
    let pos := Find host ']'
    if pos = -1 then ⟨false, self, errNoClosingBracket, path⟩
    else if charAt host (pos + 1) ≠ NUL then
      if charAt host (pos + 1) ≠ ':' then ⟨false, self, errAfterBracket, path⟩
      else ParseUrlPort env self host (pos + 1) port user pass error path
    else ParseUrlPort env self host (-1) port user pass error path
  else ParseUrlPort env self host (Find host ':') port user pass error path

/-- Lines 159-164 of `ParseUrl`: split the path off at the first slash. -/
def ParseUrlPath (env : Env) (self : CServer) (host : wxString) (port : Nat)
    (user pass error : wxString) (path : CServerPath) : ParseUrlResult :=
  let pos := Find host '/'
  if pos ≠ -1 then
    ParseUrlHost env self (Left host pos) port user pass error ⟨Mid host pos⟩
  else ParseUrlHost env self host port user pass error path

/-- The `while` loop of lines 115-123, run for at most `fuel` iterations:
advance `pos` to the next at sign as long as there is one that does not lie
behind `slash`. -/
def lastAtLoop : Nat → wxString → Int → Int → Int → Int
  | 0, _, _, pos, _ => pos
  | fuel + 1, host, slash, pos, next_at =>
    if next_at ≠ -1 then
      let next_at := next_at + (pos + 1)
      if slash ≠ -1 ∧ next_at > slash then pos
      else lastAtLoop fuel host slash next_at (Find (Mid host (next_at + 1)) '@')
    else pos

/-- Lines 110-123 of `ParseUrl`: from the first at sign at `pos`, the position
of the last at sign that is not behind the first slash after `pos`. Each
iteration of the loop moves `pos` forward, so the length of the string
bounds their number. -/
def lastAt (host : wxString) (pos : Int) : Int :=
  let slash := Find (Mid host (pos + 1)) '/'
  let slash := if slash ≠ -1 then slash + (pos + 1) else slash
  let next_at := Find (Mid host (pos + 1)) '@'
  lastAtLoop host.length host slash pos next_at

/-- Lines 102-157 of `ParseUrl`: take user and password out of the string
when it has an at sign, else trim the caller's user and fall back to the
anonymous pair. -/
def ParseUrlCredentials (env : Env) (self : CServer) (host : wxString) (port : Nat)
    (user pass error : wxString) (path : CServerPath) : ParseUrlResult :=
  let pos := Find host '@'
  if pos ≠ -1 then
    let pos := lastAt host pos
    let user := Left host pos
    let host := Mid host (pos + 1)
    let pos := Find user ':'
    let pass := if pos ≠ -1 then Mid user (pos + 1) else pass
    let user := if pos ≠ -1 then Left user pos else user
    let user := Trim (Trim user true) false
    if user = [] then ⟨false, self, errInvalidUsername, path⟩
    else ParseUrlPath env self host port user pass error path
  else
    let user := Trim (Trim user true) false
    if user = [] ∧ self.m_logonType ≠ .ASK ∧ self.m_logonType ≠ .INTERACTIVE then
      ParseUrlPath env self host port anonymousUser anonymousPass error path
    else ParseUrlPath env self host port user pass error path

/-- The scheme separator `_T("://")`. -/
def schemeSeparator : wxString := "://".toList

/-- Lines 89-93 of `ParseUrl`: the protocol named by the text in front of the
scheme separator found at `pos`, an `fz_` marker in front of it dropped. -/
def schemeProtocol (host : wxString) (pos : Int) : ServerProtocol :=
  let protocol := Lower (Left host pos)
  let protocol := if Left protocol 3 = "fz_".toList then Mid protocol 3 else protocol
  GetProtocolFromPrefix (Lower protocol)

/-- Embedding of `CServer::ParseUrl` with a numeric port (lines 76-259). -/
def ParseUrl (env : Env) (self : CServer) (host : wxString) (port : Nat)
    (user pass error : wxString) (path : CServerPath) : ParseUrlResult :=
  let self := { self with m_type := .DEFAULT }
  if host = [] then ⟨false, self, errNoHost, path⟩
  else
    let pos := FindStr host schemeSeparator
    if pos ≠ -1 then
      let self := { self with m_protocol := schemeProtocol host pos }
      let host := Mid host (pos + 3)
      if self.m_protocol = .UNKNOWN then ⟨false, self, errInvalidProtocol, path⟩
      else ParseUrlCredentials env self host port user pass error path
    else ParseUrlCredentials env self host port user pass error path

/-- Embedding of `CServer::ParseUrl` with the port as a string (lines 60-74). -/
def ParseUrlPortField (env : Env) (self : CServer) (host port user pass error : wxString)
    (path : CServerPath) : ParseUrlResult :=
  if port ≠ [] then
    if port.length > 5 then ⟨false, self, errInvalidPortField, path⟩
    else
      match ToULong env.localeSpace port with
      | none => ⟨false, self, errInvalidPortField, path⟩
      | some nPort =>
        if nPort = 0 ∨ nPort > 65535 then ⟨false, self, errInvalidPortField, path⟩
        else ParseUrl env self host nPort user pass error path
  else ParseUrl env self host 0 user pass error path

/-- A codec for examples: encoding puts a marker in front, decoding removes
the first character; the locale is the "C" locale, with no white space
beyond ASCII. -/
def markerEnv (enabled : Bool) : Env :=
  ⟨enabled, fun s => '#' :: s, fun s => s.drop 1, fun _ => false⟩

/-! ## Copying and comparing -/

/-- Embedding of `CServer::operator=`: the members of `op` are copied into `self`, the
password through `SetPass`. -/
def assign (env : Env) (self op : CServer) : CServer :=
  let self := { self with
    m_protocol := op.m_protocol, m_type := op.m_type, m_host := op.m_host,
    m_port := op.m_port, m_logonType := op.m_logonType, m_user := op.m_user }
  let self := SetPass env self op.m_pass false
  { self with
    m_account := op.m_account, m_timezoneOffset := op.m_timezoneOffset,
    m_pasvMode := op.m_pasvMode,
    m_maximumMultipleConnections := op.m_maximumMultipleConnections,
    m_encodingType := op.m_encodingType, m_customEncoding := op.m_customEncoding,
    m_postLoginCommands := op.m_postLoginCommands, m_bypassProxy := op.m_bypassProxy,
    m_name := op.m_name }

/-- Embedding of `CServer::operator==`. -/
def operatorEq (env : Env) (self op : CServer) : Bool :=
  if self.m_protocol ≠ op.m_protocol then false
  else if self.m_type ≠ op.m_type then false
  else if self.m_host ≠ op.m_host then false
  else if self.m_port ≠ op.m_port then false
  else if self.m_logonType ≠ op.m_logonType then false
  else if self.m_logonType ≠ .ANONYMOUS ∧ self.m_user ≠ op.m_user then false
  else if self.m_logonType = .NORMAL ∧ GetPass env self true ≠ op.m_pass then false
  else if self.m_logonType = .ACCOUNT ∧ GetPass env self true ≠ op.m_pass then false
  else if self.m_logonType = .ACCOUNT ∧ self.m_account ≠ op.m_account then false
  else if self.m_timezoneOffset ≠ op.m_timezoneOffset then false
  else if self.m_pasvMode ≠ op.m_pasvMode then false
  else if self.m_encodingType ≠ op.m_encodingType then false
  else if self.m_encodingType = .ENCODING_CUSTOM ∧ self.m_customEncoding ≠ op.m_customEncoding
    then false
  else if self.m_postLoginCommands ≠ op.m_postLoginCommands then false
  else if self.m_bypassProxy ≠ op.m_bypassProxy then false
  else true

/-- Embedding of `CServer::operator!=`. -/
def operatorNe (env : Env) (self op : CServer) : Bool := !operatorEq env self op

/-- Lines 447-476 of `operator<`: the option members. -/
def operatorLtOptions (self op : CServer) : Bool :=
  if self.m_timezoneOffset < op.m_timezoneOffset then true
  else if self.m_timezoneOffset > op.m_timezoneOffset then false
  else if self.m_pasvMode.code < op.m_pasvMode.code then true
  else if self.m_pasvMode.code > op.m_pasvMode.code then false
  else if self.m_encodingType.code < op.m_encodingType.code then true
  else if self.m_encodingType.code > op.m_encodingType.code then false
  else if self.m_encodingType = .ENCODING_CUSTOM ∧
      Cmp self.m_customEncoding op.m_customEncoding < 0 then true
  else if self.m_encodingType = .ENCODING_CUSTOM ∧
      Cmp self.m_customEncoding op.m_customEncoding > 0 then false
  else if self.m_bypassProxy < op.m_bypassProxy then true
  else if self.m_bypassProxy > op.m_bypassProxy then false
  else false

/-- Lines 416-446 of `operator<`: user, password and account, as far as the
logon type has them compared. -/
def operatorLtCredentials (env : Env) (self op : CServer) : Bool :=
  if self.m_logonType ≠ .ANONYMOUS then
    if Cmp self.m_user op.m_user < 0 then true
    else if Cmp self.m_user op.m_user > 0 then false
    else if self.m_logonType = .NORMAL then
      if Cmp (GetPass env self true) op.m_pass < 0 then true
      else if Cmp (GetPass env self true) op.m_pass > 0 then false
      else operatorLtOptions self op
    else if self.m_logonType = .ACCOUNT then
      if Cmp (GetPass env self true) op.m_pass < 0 then true
      else if Cmp (GetPass env self true) op.m_pass > 0 then false
      else if Cmp self.m_account op.m_account < 0 then true
      else if Cmp self.m_account op.m_account > 0 then false
      else operatorLtOptions self op
    else operatorLtOptions self op
  else operatorLtOptions self op

/-- Embedding of `CServer::operator<`. -/
def operatorLt (env : Env) (self op : CServer) : Bool :=
  if self.m_protocol.code < op.m_protocol.code then true
  else if self.m_protocol.code > op.m_protocol.code then false
  else if self.m_type.code < op.m_type.code then true
  else if self.m_type.code > op.m_type.code then false
  else if Cmp self.m_host op.m_host < 0 then true
  else if Cmp self.m_host op.m_host > 0 then false
  else if self.m_port < op.m_port then true
  else if self.m_port > op.m_port then false
  else if self.m_logonType.code < op.m_logonType.code then true
  else if self.m_logonType.code > op.m_logonType.code then false
  else operatorLtCredentials env self op

/-- Embedding of `CServer::EqualsNoPass`. -/
def EqualsNoPass (self op : CServer) : Bool :=
  if self.m_protocol ≠ op.m_protocol then false
  else if self.m_type ≠ op.m_type then false
  else if self.m_host ≠ op.m_host then false
  else if self.m_port ≠ op.m_port then false
  else if decide (self.m_logonType = .ANONYMOUS) ≠ decide (op.m_logonType = .ANONYMOUS) then false
  else if decide (self.m_logonType = .ACCOUNT) ≠ decide (op.m_logonType = .ACCOUNT) then false
  else if self.m_logonType ≠ .ANONYMOUS ∧ self.m_user ≠ op.m_user then false
  else if self.m_logonType ≠ .ANONYMOUS ∧ self.m_logonType = .ACCOUNT ∧
      self.m_account ≠ op.m_account then false
  else if self.m_timezoneOffset ≠ op.m_timezoneOffset then false
  else if self.m_pasvMode ≠ op.m_pasvMode then false
  else if self.m_encodingType ≠ op.m_encodingType then false
  else if self.m_encodingType = .ENCODING_CUSTOM ∧ self.m_customEncoding ≠ op.m_customEncoding
    then false
  else if self.m_postLoginCommands ≠ op.m_postLoginCommands then false
  else if self.m_bypassProxy ≠ op.m_bypassProxy then false
  else true

/-! ## Constructors and setters -/

/-- The constructor `CServer(protocol, type, host, port, user, pass, account)`. -/
def mkCServerLogin (env : Env) (protocol : ServerProtocol) (type : ServerType) (host : wxString)
    (port : Nat) (user pass account : wxString) : CServer :=
  let self := defaultCServer env
  let self := { self with
    m_protocol := protocol, m_type := type, m_host := host, m_port := port,
    m_logonType := .NORMAL, m_user := user }
  let self := SetPass env self pass false
  { self with m_account := account }

/-- The constructor `CServer(protocol, type, host, port)`. -/
def mkCServer (env : Env) (protocol : ServerProtocol) (type : ServerType) (host : wxString)
    (port : Nat) : CServer :=
  { defaultCServer env with
    m_protocol := protocol, m_type := type, m_host := host, m_port := port }

/-- Embedding of `CServer::SetType`. -/
def SetType (self : CServer) (type : ServerType) : CServer := { self with m_type := type }

/-- Embedding of `CServer::SetLogonType`. -/
def SetLogonType (self : CServer) (logonType : LogonType) : CServer :=
  { self with m_logonType := logonType }

/-- Embedding of `CServer::SetProtocol`. -/
def SetProtocol (self : CServer) (serverProtocol : ServerProtocol) : CServer :=
  let self :=
    if ¬ (GetProtocolInfo serverProtocol).supportsPostlogin then
      { self with m_postLoginCommands := [] }
    else self
  { self with m_protocol := serverProtocol }

/-- Embedding of `CServer::SetHost`: the flag returned and the descriptor afterwards. -/
def SetHost (self : CServer) (host : wxString) (port : Nat) : Bool × CServer :=
  if host = [] then (false, self)
  else if port < 1 ∨ port > 65535 then (false, self)
  else
    let self := { self with m_host := host, m_port := port }
    let self :=
      if self.m_protocol = .UNKNOWN then
        { self with m_protocol := GetProtocolFromPort self.m_port false }
      else self
    (true, self)

/-- Embedding of `CServer::SetUser`: the flag returned and the descriptor afterwards. -/
def SetUser (env : Env) (self : CServer) (user pass : wxString) (alreadyEncrypted : Bool) :
    Bool × CServer :=
  if self.m_logonType = .ANONYMOUS then (true, self)
  else if user = [] then
    if self.m_logonType ≠ .ASK ∧ self.m_logonType ≠ .INTERACTIVE then (false, self)
    else (true, { SetPass env self [] alreadyEncrypted with m_user := user })
  else (true, { SetPass env self pass alreadyEncrypted with m_user := user })

/-- Embedding of `CServer::SetAccount`: the flag returned and the descriptor afterwards. -/
def SetAccount (self : CServer) (account : wxString) : Bool × CServer :=
  if self.m_logonType ≠ .ACCOUNT then (false, self)
  else (true, { self with m_account := account })

/-- Embedding of `CServer::SetTimezoneOffset`: the flag returned and the descriptor
afterwards. -/
def SetTimezoneOffset (self : CServer) (minutes : Int) : Bool × CServer :=
  if minutes > 60 * 24 ∨ minutes < -60 * 24 then (false, self)
  else (true, { self with m_timezoneOffset := minutes })

/-- Embedding of `CServer::SetPostLoginCommands`: the flag returned and the descriptor
afterwards. -/
def SetPostLoginCommands (self : CServer) (postLoginCommands : List wxString) : Bool × CServer :=
  if self.m_protocol ≠ .FTP ∧ self.m_protocol ≠ .FTPS ∧ self.m_protocol ≠ .FTPES then
    (false, self)
  else (true, { self with m_postLoginCommands := postLoginCommands })

/-! ## Formatter -/

/-- Embedding of `CServer::FormatHost`. -/
def FormatHost (self : CServer) (always_omit_port : Bool) : wxString :=
  let host := self.m_host
  let host := if Find host ':' ≠ -1 then "[".toList ++ host ++ "]".toList else host
  if ¬ always_omit_port ∧ self.m_port ≠ GetDefaultPort self.m_protocol then
    host ++ (":".toList ++ FormatD self.m_port)
  else host

/-- Embedding of `CServer::FormatServer`; `forcePrefix` is the C++ parameter
`always_include_prefix`. -/
def FormatServer (self : CServer) (forcePrefix : Bool) : wxString :=
  let server := FormatHost self false
  let server :=
    if self.m_logonType ≠ .ANONYMOUS then GetUser self ++ "@".toList ++ server else server
  let info := GetProtocolInfo self.m_protocol
  if info.pfx ≠ [] then
    if forcePrefix ∨ info.alwaysShowPrefix then info.pfx ++ schemeSeparator ++ server
    else if self.m_port ≠ info.defaultPort then info.pfx ++ schemeSeparator ++ server
    else server
  else server

/-! ## Predicates used to state the theorems -/

/-- The string starts with a character `Trim` removes. -/
def startsWithSpace : wxString → Bool
  | [] => false
  | c :: _ => wxSafeIsspace c

/-- The string ends with a character `Trim` removes. -/
def endsWithSpace (s : wxString) : Bool := startsWithSpace s.reverse

/-- The prefixes of the registry entries before the sentinel. -/
def registeredPrefixes : List wxString :=
  (protocolInfos.filter (fun i => decide (i.protocol ≠ .UNKNOWN))).map (fun i => i.pfx)

/-- How a run of the stages after the scheme ends: a failure that leaves
the descriptor as it was handed in, or a success that stores a non-empty
trimmed host, a port between 1 and 65535 and the credentials through
`ParseUrlAssign`; the user stored is non-empty unless the caller fixed the
logon type to Ask or Interactive. -/
def StageOutcome (env : Env) (self : CServer) (r : ParseUrlResult) : Prop :=
  (r.ret = false ∧ r.self = self) ∨
  (∃ (h : wxString) (p : Nat) (u pw : wxString),
    h ≠ [] ∧ (1 ≤ p ∧ p ≤ 65535) ∧
    (u ≠ [] ∨ self.m_logonType = .ASK ∨ self.m_logonType = .INTERACTIVE) ∧
    r.ret = true ∧ r.self = ParseUrlAssign env self h p u pw)

/-- The protocol the descriptor carries once lines 86-100 have run: the
lookup of the scheme when the string has a separator, the caller's
otherwise. -/
def protocolAfterScheme (self : CServer) (host : wxString) : ServerProtocol :=
  if FindStr host schemeSeparator ≠ -1 then schemeProtocol host (FindStr host schemeSeparator)
  else self.m_protocol

/-! ## The order behind operator< -/

/-- One step of a lexicographic comparison of two descriptors: strictly
smaller on the key `k`, or equal on it and related by `R`. -/
def LexStep {K : Type} (k : CServer → K) (lt : K → K → Prop) (R : CServer → CServer → Prop)
    (a b : CServer) : Prop :=
  lt (k a) (k b) ∨ (k a = k b ∧ R a b)

/-- The order `Cmp` induces on strings: `s.Cmp(t) < 0`. -/
def StrLt (s t : wxString) : Prop := Cmp s t < 0

/-- The user name as `operator<` looks at it: compared only when the logon
type is not `ANONYMOUS` (line 416). -/
def userKey (a : CServer) : wxString :=
  if a.m_logonType ≠ .ANONYMOUS then a.m_user else []

/-- The stored password as `operator<` looks at it: compared only for the
logon types `NORMAL` and `ACCOUNT` (lines 424 and 432). -/
def passKey (a : CServer) : wxString :=
  if a.m_logonType = .NORMAL ∨ a.m_logonType = .ACCOUNT then a.m_pass else []

/-- The account as `operator<` looks at it: compared only for the logon
type `ACCOUNT` (line 440). -/
def accountKey (a : CServer) : wxString :=
  if a.m_logonType = .ACCOUNT then a.m_account else []

/-- The custom encoding as `operator<` looks at it: compared only for the
encoding type `ENCODING_CUSTOM` (line 462). -/
def encodingKey (a : CServer) : wxString :=
  if a.m_encodingType = .ENCODING_CUSTOM then a.m_customEncoding else []

/-- Lexicographic order on the option fields that lines 447-472 compare. -/
def optionsLt : CServer → CServer → Prop :=
  LexStep (fun x => x.m_timezoneOffset) (fun x y => x < y)
    (LexStep (fun x => x.m_pasvMode.code) (fun x y => x < y)
      (LexStep (fun x => x.m_encodingType.code) (fun x y => x < y)
        (LexStep encodingKey StrLt
          (LexStep (fun x => x.m_bypassProxy) (fun x y => x < y) (fun _ _ => False)))))

/-- Lexicographic order on the credential fields that lines 416-446
compare, followed by the option fields. -/
def credentialsLt : CServer → CServer → Prop :=
  LexStep userKey StrLt (LexStep passKey StrLt (LexStep accountKey StrLt optionsLt))

/-- Lexicographic order on the fields that `operator<` compares, in the
order it compares them (lines 390-472). -/
def orderLt : CServer → CServer → Prop :=
  LexStep (fun x => x.m_protocol.code) (fun x y => x < y)
    (LexStep (fun x => x.m_type.code) (fun x y => x < y)
      (LexStep (fun x => x.m_host) StrLt
        (LexStep (fun x => x.m_port) (fun x y => x < y)
          (LexStep (fun x => x.m_logonType.code) (fun x y => x < y) credentialsLt))))

/-! ## Lemmas on the string primitives -/

theorem Find_of_not_mem {s : wxString} {c : Char} (h : c ∉ s) : Find s c = -1 := by
  induction s with
  | nil => rfl
  | cons x xs ih =>
    have hx : x ≠ c := fun e => h (by simp [e])
    have hxs : c ∉ xs := fun m => h (List.mem_cons_of_mem _ m)
    simp [Find, hx, ih hxs]

theorem Find_nonneg_or (s : wxString) (c : Char) : Find s c = -1 ∨ 0 ≤ Find s c := by
  induction s with
  | nil => left; rfl
  | cons x xs ih =>
    unfold Find
    by_cases hx : x = c
    · simp [hx]
    · simp only [hx, if_false]
      rcases ih with h | h
      · simp [h]
      · right
        have : Find xs c ≠ -1 := by omega
        simp only [this, if_false]; omega

theorem Find_append_cons {a : wxString} {c : Char} (b : wxString) (h : c ∉ a) :
    Find (a ++ c :: b) c = a.length := by
  induction a with
  | nil => simp [Find]
  | cons x xs ih =>
    have hx : x ≠ c := fun e => h (by simp [e])
    have hxs : c ∉ xs := fun m => h (List.mem_cons_of_mem _ m)
    have := ih hxs
    have h2 : ¬ ((xs.length : Int) = -1) := by omega
    simp [Find, hx, this, h2]

theorem Find_eq_neg_one_iff (s : wxString) (c : Char) : Find s c = -1 ↔ c ∉ s := by
  constructor
  · intro h hm
    obtain ⟨a, b, rfl, hna⟩ := List.eq_append_cons_of_mem hm
    rw [Find_append_cons b hna] at h
    omega
  · exact Find_of_not_mem

theorem Find_split {s : wxString} {c : Char} (h : Find s c ≠ -1) :
    ∃ a b, s = a ++ c :: b ∧ c ∉ a ∧ Find s c = a.length := by
  have hm : c ∈ s := by
    by_contra hn; exact h (Find_of_not_mem hn)
  obtain ⟨a, b, rfl, hna⟩ := List.eq_append_cons_of_mem hm
  exact ⟨a, b, rfl, hna, Find_append_cons b hna⟩

theorem FindStr_of_not_mem {s sub : wxString} {c : Char} (hc : c ∈ sub) (h : c ∉ s) :
    FindStr s sub = -1 := by
  induction s with
  | nil =>
    have : sub ≠ [] := List.ne_nil_of_mem hc
    simp [FindStr, this]
  | cons x xs ih =>
    have hxs : c ∉ xs := fun m => h (List.mem_cons_of_mem _ m)
    have hp : sub.isPrefixOf (x :: xs) = false := by
      by_contra hp
      simp only [Bool.not_eq_false] at hp
      have := List.isPrefixOf_iff_prefix.mp hp
      exact h (this.subset hc)
    simp [FindStr, hp, ih hxs]

theorem FindStr_append {a : wxString} {c : Char} (t r : wxString) (h : c ∉ a) :
    FindStr (a ++ (c :: t ++ r)) (c :: t) = a.length := by
  induction a with
  | nil =>
    have : (c :: t).isPrefixOf (c :: t ++ r) = true :=
      List.isPrefixOf_iff_prefix.mpr (List.prefix_append _ _)
    cases hr : (c :: t ++ r) with
    | nil => simp at hr
    | cons y ys =>
      rw [hr] at this
      simp [FindStr, this]
  | cons x xs ih =>
    have hx : c ≠ x := fun e => h (by simp [e])
    have hxs : c ∉ xs := fun m => h (List.mem_cons_of_mem _ m)
    have hp : (c :: t).isPrefixOf (x :: (xs ++ (c :: t ++ r))) = false := by
      simp [List.isPrefixOf, hx]
    have := ih hxs
    have h2 : ¬ ((xs.length : Int) = -1) := by omega
    simp only [List.cons_append, List.append_eq] at this hp ⊢
    simp [FindStr, this, h2, hx]

theorem Mid_append_length (a b : wxString) : Mid (a ++ b) a.length = b := by
  simp [Mid]

theorem Mid_append_length_add (a b : wxString) (k : Nat) :
    Mid (a ++ b) ((a.length : Int) + (k : Int)) = b.drop k := by
  have : ((a.length : Int) + (k : Int)).toNat = a.length + k := by omega
  simp [Mid, this, List.drop_append]

theorem Left_append_length (a b : wxString) : Left (a ++ b) a.length = a := by
  simp [Left]

theorem Mid_zero (s : wxString) : Mid s 0 = s := by simp [Mid]

theorem dropWhile_space_of_not_starts {s : wxString} (h : startsWithSpace s = false) :
    s.dropWhile wxSafeIsspace = s := by
  cases s with
  | nil => rfl
  | cons c t =>
    simp only [startsWithSpace] at h
    simp [List.dropWhile, h]

theorem Trim_noop {s : wxString} (h1 : startsWithSpace s = false) (h2 : endsWithSpace s = false) :
    Trim (Trim s true) false = s := by
  have hr : s.rdropWhile wxSafeIsspace = s := by
    unfold List.rdropWhile
    rw [dropWhile_space_of_not_starts h2, List.reverse_reverse]
  simp [Trim, hr, dropWhile_space_of_not_starts h1]

theorem startsWithSpace_of_forall {s : wxString} (h : ∀ c ∈ s, wxSafeIsspace c = false) :
    startsWithSpace s = false := by
  cases s with
  | nil => rfl
  | cons c t => exact h c (by simp)

theorem Trim_noop_of_forall {s : wxString} (h : ∀ c ∈ s, wxSafeIsspace c = false) :
    Trim (Trim s true) false = s :=
  Trim_noop (startsWithSpace_of_forall h)
    (startsWithSpace_of_forall (fun c hc => h c (List.mem_reverse.mp hc)))

theorem isDigit_toNat {c : Char} (h : c.isDigit = true) : 48 ≤ c.toNat ∧ c.toNat ≤ 57 := by
  simp only [Char.isDigit, Bool.and_eq_true, decide_eq_true_eq] at h
  exact ⟨h.1, h.2⟩

theorem isDigit_not_space {c : Char} (h : c.isDigit = true) : wxSafeIsspace c = false := by
  have := isDigit_toNat h
  simp only [wxSafeIsspace, Bool.and_eq_false_imp, decide_eq_true_eq, Bool.or_eq_false_iff,
    beq_eq_false_iff_ne, ne_eq, Bool.and_eq_false_imp]
  intro _
  constructor
  · omega
  · intro _; simp; omega

theorem toNat_ne_of_ne_val {c d : Char} (h : c.toNat ≠ d.toNat) : c ≠ d := by
  intro e; exact h (by rw [e])

theorem isDigit_ne {c d : Char} (h : c.isDigit = true) (hd : d.toNat < 48 ∨ 57 < d.toNat) :
    c ≠ d := by
  have := isDigit_toNat h
  apply toNat_ne_of_ne_val
  omega

theorem isDigit_not_iswspace (ls : Char → Bool) {c : Char} (h : c.isDigit = true) :
    iswspace ls c = false := by
  have h1 := isDigit_not_space h
  have h2 := isDigit_toNat h
  have h3 : decide (127 < c.toNat) = false := by
    rw [decide_eq_false_iff_not]; omega
  unfold iswspace
  rw [h1, h3]
  rfl

theorem strtolCore_digits {ls : Char → Bool} {p : wxString} (hne : p ≠ [])
    (hd : p.all Char.isDigit = true) :
    strtolCore ls p = some (false, digitsVal p) := by
  have hall : ∀ c ∈ p, c.isDigit = true := by simpa using hd
  have h1 : p.takeWhile (fun c => c != NUL) = p := by
    rw [List.takeWhile_eq_self_iff]
    intro c hc
    have := isDigit_ne (d := NUL) (hall c hc) (by left; decide)
    simpa using this
  cases p with
  | nil => exact absurd rfl hne
  | cons c t =>
    have hc := hall c (by simp)
    have h2 : (c :: t).dropWhile (iswspace ls) = c :: t := by
      simp [List.dropWhile, isDigit_not_iswspace ls hc]
    have hm : c ≠ '-' := isDigit_ne hc (by left; decide)
    have hp : c ≠ '+' := isDigit_ne hc (by left; decide)
    have h3 : splitSign (c :: t) = (false, c :: t) := by simp [splitSign, hm, hp]
    unfold strtolCore
    simp only [h1, h2, h3]
    simp [hd]

theorem ToLong_digits {ls : Char → Bool} {p : wxString} (hne : p ≠ [])
    (hd : p.all Char.isDigit = true) :
    ToLong ls p = some (digitsVal p : Int) := by
  simp [ToLong, strtolCore_digits hne hd]

theorem ToULong_digits {ls : Char → Bool} {p : wxString} (hne : p ≠ [])
    (hd : p.all Char.isDigit = true) :
    ToULong ls p = some (digitsVal p) := by
  simp [ToULong, strtolCore_digits hne hd]

/-! ## The at-sign loop -/

theorem lastAtLoop_none (fuel : Nat) (host : wxString) (slash pos : Int) :
    lastAtLoop fuel host slash pos (-1) = pos := by
  cases fuel <;> simp [lastAtLoop]

theorem lastAtLoop_behind (fuel : Nat) (host : wxString) (slash pos next_at : Int)
    (hs : slash ≠ -1) (h : next_at + (pos + 1) > slash) :
    lastAtLoop (fuel + 1) host slash pos next_at = pos := by
  simp only [lastAtLoop]
  split_ifs <;> first | rfl | (exfalso; simp_all)

/-- The loop started at an at sign inside the credentials ends at the last
at sign of the credentials. -/
theorem lastAtLoop_boundary (tail : wxString) (slash : Int) :
    ∀ (fuel : Nat) (c a : wxString), c.length + 2 ≤ fuel →
      (slash = -1 ∨ ((a ++ '@' :: c).length : Int) < slash) →
      (Find tail '@' = -1 ∨
        (slash ≠ -1 ∧ Find tail '@' + (((a ++ '@' :: c).length : Int) + 1) > slash)) →
      lastAtLoop fuel (a ++ '@' :: c ++ '@' :: tail) slash a.length
        (Find (c ++ '@' :: tail) '@') = ((a ++ '@' :: c).length : Int) := by
  intro fuel
  induction fuel with
  | zero => intro c a h; omega
  | succ f ih =>
    intro c a hf hsl hstop
    by_cases hc : '@' ∈ c
    · obtain ⟨c1, c2, rfl, hc1⟩ := List.eq_append_cons_of_mem hc
      have hfind : Find (c1 ++ '@' :: c2 ++ '@' :: tail) '@' = c1.length := by
        rw [List.append_assoc, List.cons_append]
        exact Find_append_cons _ hc1
      have hlen : (c1.length : Int) + ((a.length : Int) + 1) = ((a ++ '@' :: c1).length : Int) := by
        simp; ring
      have hs : a ++ '@' :: (c1 ++ '@' :: c2) ++ '@' :: tail
          = (a ++ '@' :: c1) ++ '@' :: c2 ++ '@' :: tail := by simp
      have hmid : Mid (a ++ '@' :: (c1 ++ '@' :: c2) ++ '@' :: tail)
          (((a ++ '@' :: c1).length : Int) + 1) = c2 ++ '@' :: tail := by
        rw [hs]
        have := Mid_append_length_add (a ++ '@' :: c1) ('@' :: c2 ++ '@' :: tail) 1
        simpa using this
      have hnot : ¬ (slash ≠ -1 ∧ ((a ++ '@' :: c1).length : Int) > slash) := by
        rintro ⟨h1, h2⟩
        rcases hsl with h | h
        · exact h1 h
        · simp at h h2; omega
      have hne : ¬ ((c1.length : Int) = -1) := by omega
      rw [lastAtLoop, hfind]
      simp only [ne_eq, hne, not_false_eq_true, if_true, hlen, hnot, if_false, hmid]
      have := ih c2 (a ++ '@' :: c1) (by simp at hf; omega)
        (by rcases hsl with h | h
            · left; exact h
            · right; simp at h ⊢; omega)
        (by rcases hstop with h | ⟨h1, h2⟩
            · left; exact h
            · right; refine ⟨h1, ?_⟩; simp at h2 ⊢; omega)
      rw [hs]
      rw [this]; simp
    · have hfind : Find (c ++ '@' :: tail) '@' = c.length := Find_append_cons _ hc
      have hlen : (c.length : Int) + ((a.length : Int) + 1) = ((a ++ '@' :: c).length : Int) := by
        simp; ring
      have hmid : Mid (a ++ '@' :: c ++ '@' :: tail)
          (((a ++ '@' :: c).length : Int) + 1) = tail := by
        have := Mid_append_length_add (a ++ '@' :: c) ('@' :: tail) 1
        simpa using this
      have hnot : ¬ (slash ≠ -1 ∧ ((a ++ '@' :: c).length : Int) > slash) := by
        rintro ⟨h1, h2⟩
        rcases hsl with h | h
        · exact h1 h
        · omega
      have hne : ¬ ((c.length : Int) = -1) := by omega
      rw [lastAtLoop, hfind]
      simp only [ne_eq, hne, not_false_eq_true, if_true, hlen, hnot, if_false, hmid]
      rcases hstop with h | ⟨h1, h2⟩
      · rw [h, lastAtLoop_none]
      · obtain ⟨f', rfl⟩ : ∃ f', f = f' + 1 := ⟨f - 1, by omega⟩
        exact lastAtLoop_behind _ _ _ _ _ h1 h2



theorem Find_append_of_not_mem {a : wxString} {c : Char} (b : wxString) (h : c ∉ a) :
    Find (a ++ b) c = if Find b c = -1 then -1 else (a.length : Int) + Find b c := by
  induction a with
  | nil => simp only [List.nil_append, List.length_nil, Nat.cast_zero, zero_add]; split_ifs with h <;> simp [h]
  | cons x xs ih =>
    have hx : x ≠ c := fun e => h (by simp [e])
    have hxs : c ∉ xs := fun m => h (List.mem_cons_of_mem _ m)
    have := ih hxs
    rcases Find_nonneg_or b c with hb | hb
    · simp [Find, hx, this, hb]
    · have hb' : Find b c ≠ -1 := by omega
      have h2 : ¬ ((xs.length : Int) + Find b c = -1) := by omega
      simp [Find, hx, this, hb', h2]; ring

theorem Find_cons_ne {x c : Char} (t : wxString) (h : x ≠ c) :
    Find (x :: t) c = if Find t c = -1 then -1 else Find t c + 1 := by
  simp [Find, h]

/-- The boundary found by lines 102-123 on `cred@hp` followed by nothing or
by a path: the at sign after `cred`. -/
theorem lastAt_boundary (cred hp q : wxString) (hcred : '/' ∉ cred) (hat : '@' ∉ hp)
    (hsl : '/' ∉ hp) (hq : q = [] ∨ ∃ q', q = '/' :: q') :
    lastAt (cred ++ '@' :: (hp ++ q)) (Find (cred ++ '@' :: (hp ++ q)) '@') = cred.length := by
  by_cases hc : '@' ∈ cred
  · obtain ⟨a, c, rfl, ha⟩ := List.eq_append_cons_of_mem hc
    have hpos : Find (a ++ '@' :: c ++ '@' :: (hp ++ q)) '@' = a.length := by
      rw [List.append_assoc, List.cons_append]; exact Find_append_cons _ ha
    have hmid : Mid (a ++ '@' :: c ++ '@' :: (hp ++ q)) ((a.length : Int) + 1)
        = c ++ '@' :: (hp ++ q) := by
      have := Mid_append_length_add a ('@' :: c ++ '@' :: (hp ++ q)) 1
      simpa using this
    have hcs : '/' ∉ c := fun m => hcred (by simp [m])
    unfold lastAt
    rw [hpos]
    simp only [hmid]
    have hfuel : c.length + 2 ≤ (a ++ '@' :: c ++ '@' :: (hp ++ q)).length := by
      simp; omega
    rcases hq with rfl | ⟨q', rfl⟩
    · have hno : Find (c ++ '@' :: (hp ++ [])) '/' = -1 := by
        apply Find_of_not_mem; simp [hcs, hsl]
      simp only [hno]
      have := lastAtLoop_boundary (hp ++ []) (-1) _ c a hfuel (Or.inl rfl)
        (Or.inl (Find_of_not_mem (by simpa using hat)))
      simpa using this
    · have hsl2 : Find (c ++ '@' :: (hp ++ '/' :: q')) '/' = ((c ++ '@' :: hp).length : Int) := by
        have : c ++ '@' :: (hp ++ '/' :: q') = (c ++ '@' :: hp) ++ '/' :: q' := by simp
        rw [this]; apply Find_append_cons; simp [hcs, hsl]
      simp only [hsl2]
      have hne : ¬ (((c ++ '@' :: hp).length : Int) = -1) := by omega
      simp only [ne_eq, hne, not_false_eq_true, if_true]
      have hstop : Find (hp ++ '/' :: q') '@' = -1 ∨
          ((((c ++ '@' :: hp).length : Int) + ((a.length : Int) + 1)) ≠ -1 ∧
            Find (hp ++ '/' :: q') '@' + (((a ++ '@' :: c).length : Int) + 1) >
              (((c ++ '@' :: hp).length : Int) + ((a.length : Int) + 1))) := by
        rw [Find_append_of_not_mem _ hat, Find_cons_ne _ (by decide)]
        rcases Find_nonneg_or q' '@' with h | h
        · left; simp [h]
        · right
          have h' : Find q' '@' ≠ -1 := by omega
          have h'' : ¬ (Find q' '@' + 1 = -1) := by omega
          simp only [h', h'', if_false]
          constructor
          · omega
          · simp; omega
      have := lastAtLoop_boundary (hp ++ '/' :: q')
        (((c ++ '@' :: hp).length : Int) + ((a.length : Int) + 1)) _ c a hfuel
        (Or.inr (by simp; omega)) hstop
      simpa using this
  · have hpos : Find (cred ++ '@' :: (hp ++ q)) '@' = cred.length := Find_append_cons _ hc
    have hmid : Mid (cred ++ '@' :: (hp ++ q)) ((cred.length : Int) + 1) = hp ++ q := by
      have := Mid_append_length_add cred ('@' :: (hp ++ q)) 1
      simpa using this
    unfold lastAt
    rw [hpos]
    simp only [hmid]
    rcases hq with rfl | ⟨q', rfl⟩
    · have : Find (hp ++ []) '@' = -1 := Find_of_not_mem (by simpa using hat)
      rw [this, lastAtLoop_none]
    · have hsl2 : Find (hp ++ '/' :: q') '/' = (hp.length : Int) := Find_append_cons _ hsl
      simp only [hsl2]
      have hne : ¬ ((hp.length : Int) = -1) := by omega
      simp only [ne_eq, hne, not_false_eq_true, if_true]
      rw [Find_append_of_not_mem _ hat, Find_cons_ne _ (by decide)]
      rcases Find_nonneg_or q' '@' with h | h
      · simp only [h, if_true]; rw [lastAtLoop_none]
      · have h' : Find q' '@' ≠ -1 := by omega
        have h'' : ¬ (Find q' '@' + 1 = -1) := by omega
        simp only [h', h'', if_false]
        have hl : (cred ++ '@' :: (hp ++ '/' :: q')).length
            = (cred.length + hp.length + q'.length + 1) + 1 := by simp; omega
        rw [hl]
        apply lastAtLoop_behind
        · omega
        · omega

theorem Mid_of_length_le (s : wxString) (n : Int) (h : (s.length : Int) ≤ n) : Mid s n = [] := by
  unfold Mid
  apply List.drop_eq_nil_of_le
  omega

/-- One more iteration than the length of the string allows changes nothing:
from a position `pos` with at most `fuel` characters behind it, the loop
with `fuel` iterations available ends where the loop with `fuel + 1` ends. -/
theorem lastAtLoop_succ (host : wxString) (slash : Int) :
    ∀ (fuel : Nat) (pos : Int), 0 ≤ pos → (host.length : Int) ≤ fuel + pos →
      lastAtLoop fuel host slash pos (Find (Mid host (pos + 1)) '@')
        = lastAtLoop (fuel + 1) host slash pos (Find (Mid host (pos + 1)) '@') := by
  intro fuel
  induction fuel with
  | zero =>
    intro pos _ hlen
    rw [Mid_of_length_le host (pos + 1) (by simp at hlen; omega)]
    show lastAtLoop 0 host slash pos (-1) = lastAtLoop 1 host slash pos (-1)
    rw [lastAtLoop_none, lastAtLoop_none]
  | succ f ih =>
    intro pos hpos hlen
    rcases Find_nonneg_or (Mid host (pos + 1)) '@' with h | h
    · rw [h, lastAtLoop_none, lastAtLoop_none]
    · have hne : Find (Mid host (pos + 1)) '@' ≠ -1 := by omega
      rw [lastAtLoop, lastAtLoop]
      simp only [hne, ne_eq, not_false_eq_true, if_true]
      split_ifs
      · rfl
      · exact ih _ (by omega) (by push_cast at hlen ⊢; omega)

/-- The fuel `ParseUrlCredentials` gives the loop is enough: any larger
amount gives the same position. -/
theorem lastAtLoop_fuel (host : wxString) (slash pos : Int) (hpos : 0 ≤ pos) (extra : Nat) :
    lastAtLoop (host.length + extra) host slash pos (Find (Mid host (pos + 1)) '@')
      = lastAtLoop host.length host slash pos (Find (Mid host (pos + 1)) '@') := by
  induction extra with
  | zero => rfl
  | succ k ih =>
    rw [← ih, ← Nat.add_assoc]
    exact (lastAtLoop_succ host slash (host.length + k) pos hpos (by push_cast; omega)).symm

/-! ## The stages of `ParseUrl` on strings of a known shape -/

theorem registered_facts : ∀ s ∈ registeredPrefixes,
    ':' ∉ s ∧ s ≠ [] ∧
    (∀ rest, schemeProtocol (s ++ rest) s.length = GetProtocolFromPrefix s) ∧
    GetProtocolFromPrefix s ≠ .UNKNOWN := by
  intro s hs
  have key : ':' ∉ s ∧ s ≠ [] ∧
      GetProtocolFromPrefix (Lower (if Left (Lower s) 3 = "fz_".toList then Mid (Lower s) 3
        else Lower s)) = GetProtocolFromPrefix s ∧
      GetProtocolFromPrefix s ≠ .UNKNOWN := by
    revert s; decide
  refine ⟨key.1, key.2.1, ?_, key.2.2.2⟩
  intro rest
  unfold schemeProtocol
  rw [Left_append_length]
  exact key.2.2.1

theorem ParseUrlCredentials_embedded (env : Env) (self : CServer) (cred hp q : wxString)
    (port : Nat) (user pass error : wxString) (path : CServerPath)
    (hcred : '/' ∉ cred) (hat : '@' ∉ hp) (hsl : '/' ∉ hp) (hq : q = [] ∨ ∃ q', q = '/' :: q') :
    ParseUrlCredentials env self (cred ++ '@' :: (hp ++ q)) port user pass error path =
      if Trim (Trim (if Find cred ':' ≠ -1 then Left cred (Find cred ':') else cred) true) false
          = [] then
        ⟨false, self, errInvalidUsername, path⟩
      else
        ParseUrlPath env self (hp ++ q) port
          (Trim (Trim (if Find cred ':' ≠ -1 then Left cred (Find cred ':') else cred) true) false)
          (if Find cred ':' ≠ -1 then Mid cred (Find cred ':' + 1) else pass) error path := by
  have hb := lastAt_boundary cred hp q hcred hat hsl hq
  have hne : Find (cred ++ '@' :: (hp ++ q)) '@' ≠ -1 := by
    rw [Ne, Find_eq_neg_one_iff]; simp
  have hl : Left (cred ++ '@' :: (hp ++ q)) (cred.length : Int) = cred := Left_append_length _ _
  have hm : Mid (cred ++ '@' :: (hp ++ q)) ((cred.length : Int) + 1) = hp ++ q := by
    have := Mid_append_length_add cred ('@' :: (hp ++ q)) 1
    simpa using this
  unfold ParseUrlCredentials
  simp only [hne, ne_eq, not_false_eq_true, if_true, hb, hl, hm]

theorem ParseUrlCredentials_plain (env : Env) (self : CServer) (host : wxString)
    (port : Nat) (user pass error : wxString) (path : CServerPath) (hat : '@' ∉ host) :
    ParseUrlCredentials env self host port user pass error path =
      if Trim (Trim user true) false = [] ∧ self.m_logonType ≠ .ASK ∧
          self.m_logonType ≠ .INTERACTIVE then
        ParseUrlPath env self host port anonymousUser anonymousPass error path
      else ParseUrlPath env self host port (Trim (Trim user true) false) pass error path := by
  unfold ParseUrlCredentials
  simp only [Find_of_not_mem hat, ne_eq, not_true_eq_false, if_false]

theorem ParseUrlPath_slash (env : Env) (self : CServer) (hp q : wxString)
    (port : Nat) (user pass error : wxString) (path : CServerPath) (hsl : '/' ∉ hp) :
    ParseUrlPath env self (hp ++ '/' :: q) port user pass error path =
      ParseUrlHost env self hp port user pass error ⟨'/' :: q⟩ := by
  have h1 : Find (hp ++ '/' :: q) '/' = hp.length := Find_append_cons _ hsl
  have hne : ¬ ((hp.length : Int) = -1) := by omega
  have h2 : Mid (hp ++ '/' :: q) (hp.length : Int) = '/' :: q := Mid_append_length _ _
  have h3 : Left (hp ++ '/' :: q) (hp.length : Int) = hp := Left_append_length _ _
  unfold ParseUrlPath
  simp only [h1, ne_eq, hne, not_false_eq_true, if_true, h2, h3]

theorem ParseUrlPath_noslash (env : Env) (self : CServer) (host : wxString)
    (port : Nat) (user pass error : wxString) (path : CServerPath) (hsl : '/' ∉ host) :
    ParseUrlPath env self host port user pass error path =
      ParseUrlHost env self host port user pass error path := by
  unfold ParseUrlPath
  simp only [Find_of_not_mem hsl, ne_eq, not_true_eq_false, if_false]

theorem charAt_cons_zero (c : Char) (t : wxString) : charAt (c :: t) 0 = c := by
  simp [charAt]

theorem charAt_append_length (a : wxString) (c : Char) (b : wxString) :
    charAt (a ++ c :: b) a.length = c := by
  have : (a ++ c :: b)[a.length]? = some c := by
    rw [List.getElem?_append_right (le_refl _)]; simp
  simp [charAt, List.getD_eq_getElem?_getD, this]

theorem charAt_length_add (s : wxString) (k : Nat) :
    charAt s ((s.length : Int) + (k : Int)) = NUL := by
  have : ((s.length : Int) + (k : Int)).toNat = s.length + k := by omega
  have h2 : s[s.length + k]? = none := List.getElem?_eq_none (by omega)
  simp [charAt, this, List.getD_eq_getElem?_getD, h2]

/-- A host that does not start with a bracket and has `:port` behind it. -/
theorem ParseUrlHost_port (env : Env) (self : CServer) (h p : wxString)
    (port : Nat) (user pass error : wxString) (path : CServerPath)
    (hne : h ≠ []) (hbr : charAt h 0 ≠ '[') (hcol : ':' ∉ h)
    (hp1 : p ≠ []) (hp2 : p.all Char.isDigit = true)
    (hlo : 1 ≤ digitsVal p) (hhi : digitsVal p ≤ 65535) :
    ParseUrlHost env self (h ++ ':' :: p) port user pass error path =
      ParseUrlStore env self h (digitsVal p) user pass error path := by
  have h0 : charAt (h ++ ':' :: p) 0 ≠ '[' := by
    cases h with
    | nil => exact absurd rfl hne
    | cons c t => simpa [charAt] using hbr
  have h1 : Find (h ++ ':' :: p) ':' = h.length := Find_append_cons _ hcol
  have hl : 0 < h.length := List.length_pos.mpr hne
  have h2 : ¬ ((h.length : Int) = -1) := by omega
  have h3 : ¬ ((h.length : Int) = 0) := by omega
  have h4 : Mid (h ++ ':' :: p) ((h.length : Int) + 1) = p := by
    have := Mid_append_length_add h (':' :: p) 1
    simpa using this
  have h5 : Left (h ++ ':' :: p) (h.length : Int) = h := Left_append_length _ _
  have h6 : ¬ ((digitsVal p : Int) < 1 ∨ (digitsVal p : Int) > 65535) := by omega
  unfold ParseUrlHost
  simp only [h0, if_false, h1]
  unfold ParseUrlPort
  simp only [ne_eq, h2, not_false_eq_true, if_true, h3, if_false, h4, ToLong_digits hp1 hp2, h6,
    h5, Int.toNat_ofNat]

/-- A host that does not start with a bracket and has no colon. -/
theorem ParseUrlHost_plain (env : Env) (self : CServer) (h : wxString)
    (port : Nat) (user pass error : wxString) (path : CServerPath)
    (hbr : charAt h 0 ≠ '[') (hcol : ':' ∉ h) :
    ParseUrlHost env self h port user pass error path =
      if port = 0 then
        ParseUrlStore env self h (GetDefaultPort self.m_protocol) user pass error path
      else if port > 65535 then ⟨false, self, errInvalidPort, path⟩
      else ParseUrlStore env self h port user pass error path := by
  unfold ParseUrlHost
  simp only [hbr, if_false, Find_of_not_mem hcol]
  unfold ParseUrlPort
  simp only [ne_eq, not_true_eq_false, if_false]

/-- A bracketed host with `:port` behind the closing bracket. -/
theorem ParseUrlHost_bracket_port (env : Env) (self : CServer) (a p : wxString)
    (port : Nat) (user pass error : wxString) (path : CServerPath)
    (ha : ']' ∉ a) (hp1 : p ≠ []) (hp2 : p.all Char.isDigit = true)
    (hlo : 1 ≤ digitsVal p) (hhi : digitsVal p ≤ 65535) :
    ParseUrlHost env self ('[' :: a ++ ']' :: ':' :: p) port user pass error path =
      ParseUrlStore env self ('[' :: a ++ [']']) (digitsVal p) user pass error path := by
  have h0 : charAt ('[' :: a ++ ']' :: ':' :: p) 0 = '[' := by simp [charAt]
  have h1 : Find ('[' :: a ++ ']' :: ':' :: p) ']' = (('[' :: a).length : Int) := by
    apply Find_append_cons; simp [ha]
  have h2 : ¬ ((('[' :: a).length : Int) = -1) := by omega
  have h3 : charAt ('[' :: a ++ ']' :: ':' :: p) ((('[' :: a).length : Int) + 1) = ':' := by
    have : '[' :: a ++ ']' :: ':' :: p = ('[' :: a ++ [']']) ++ ':' :: p := by simp
    rw [this]
    have := charAt_append_length ('[' :: a ++ [']']) ':' p
    simpa using this
  have h4 : Mid ('[' :: a ++ ']' :: ':' :: p) ((('[' :: a).length : Int) + 1 + 1) = p := by
    have := Mid_append_length_add ('[' :: a) (']' :: ':' :: p) 2
    simpa [add_assoc] using this
  have h5 : Left ('[' :: a ++ ']' :: ':' :: p) ((('[' :: a).length : Int) + 1)
      = '[' :: a ++ [']'] := by
    have : '[' :: a ++ ']' :: ':' :: p = ('[' :: a ++ [']']) ++ ':' :: p := by simp
    rw [this]
    have := Left_append_length ('[' :: a ++ [']']) (':' :: p)
    simpa using this
  have h6 : ¬ ((digitsVal p : Int) < 1 ∨ (digitsVal p : Int) > 65535) := by omega
  have h7 : ¬ ((('[' :: a).length : Int) + 1 = -1) := by omega
  have h8 : ¬ ((('[' :: a).length : Int) + 1 = 0) := by omega
  have h9 : (':' : Char) ≠ NUL := by decide
  unfold ParseUrlHost
  simp only [h0, if_true, h1, h2, if_false, h3, ne_eq, h9, not_false_eq_true, not_true_eq_false]
  unfold ParseUrlPort
  simp only [ne_eq, h7, not_false_eq_true, if_true, h8, if_false, h4, ToLong_digits hp1 hp2, h6,
    h5, Int.toNat_ofNat]

/-- A bracketed host with nothing behind the closing bracket. -/
theorem ParseUrlHost_bracket (env : Env) (self : CServer) (a : wxString)
    (port : Nat) (user pass error : wxString) (path : CServerPath) (ha : ']' ∉ a) :
    ParseUrlHost env self ('[' :: a ++ [']']) port user pass error path =
      if port = 0 then
        ParseUrlStore env self ('[' :: a ++ [']']) (GetDefaultPort self.m_protocol) user pass
          error path
      else if port > 65535 then ⟨false, self, errInvalidPort, path⟩
      else ParseUrlStore env self ('[' :: a ++ [']']) port user pass error path := by
  have h0 : charAt ('[' :: a ++ [']']) 0 = '[' := by simp [charAt]
  have h1 : Find ('[' :: a ++ [']']) ']' = (('[' :: a).length : Int) := by
    apply Find_append_cons; simp [ha]
  have h2 : ¬ ((('[' :: a).length : Int) = -1) := by omega
  have h3 : charAt ('[' :: a ++ [']']) ((('[' :: a).length : Int) + 1) = NUL := by
    have := charAt_length_add ('[' :: a ++ [']']) 0
    simpa using this
  unfold ParseUrlHost
  simp only [h0, if_true, h1, h2, if_false, h3, ne_eq, not_true_eq_false]
  unfold ParseUrlPort
  simp only [ne_eq, not_true_eq_false, if_false]

theorem ParseUrl_scheme (env : Env) (self : CServer) (scheme rest : wxString)
    (port : Nat) (user pass error : wxString) (path : CServerPath)
    (hs : scheme ∈ registeredPrefixes) :
    ParseUrl env self (scheme ++ schemeSeparator ++ rest) port user pass error path =
      ParseUrlCredentials env
        { self with m_type := .DEFAULT, m_protocol := GetProtocolFromPrefix scheme }
        rest port user pass error path := by
  obtain ⟨hcol, hne, hproto, hknown⟩ := registered_facts scheme hs
  have hsep : schemeSeparator = ':' :: ['/', '/'] := rfl
  have hhost : scheme ++ schemeSeparator ++ rest = scheme ++ (':' :: ['/', '/'] ++ rest) := by
    simp [hsep]
  have h0 : scheme ++ (':' :: ['/', '/'] ++ rest) ≠ [] := by simp
  have h1 : FindStr (scheme ++ (':' :: ['/', '/'] ++ rest)) (':' :: ['/', '/']) = scheme.length :=
    FindStr_append _ _ hcol
  have h2 : ¬ ((scheme.length : Int) = -1) := by omega
  have h4 : Mid (scheme ++ (':' :: ['/', '/'] ++ rest)) ((scheme.length : Int) + 3) = rest := by
    have := Mid_append_length_add scheme (':' :: ['/', '/'] ++ rest) 3
    simpa using this
  rw [hhost]
  unfold ParseUrl
  simp only [h0, if_false, hsep, h1, ne_eq, h2, not_false_eq_true, if_true, h4, hproto, hknown]

theorem ParseUrl_noscheme (env : Env) (self : CServer) (host : wxString)
    (port : Nat) (user pass error : wxString) (path : CServerPath)
    (hne : host ≠ []) (hs : FindStr host schemeSeparator = -1) :
    ParseUrl env self host port user pass error path =
      ParseUrlCredentials env { self with m_type := .DEFAULT } host port user pass error path := by
  unfold ParseUrl
  simp only [hne, if_false, hs, ne_eq, not_true_eq_false]

/-! ## The logon type settled by a parse -/

/-- The bytes of `anon@localhost` are neither empty nor the anonymous pair's password. -/
theorem anonLocalPass_facts : anonLocalPass ≠ [] ∧ anonLocalPass ≠ anonymousPass := by decide

/-- On a descriptor whose logon type is Anonymous when the parse starts, a
non-empty user is stored with logon type Normal: `GetPass` answers the
test of lines 245-246 with `anon@localhost`. -/
theorem parsedLogonType_of_anonymous (env : Env) (self : CServer)
    (hl : self.m_logonType = .ANONYMOUS) (hu : self.m_user ≠ []) :
    parsedLogonType env self = .NORMAL := by
  unfold parsedLogonType GetPass
  simp [hl, hu, anonLocalPass_facts.1, anonLocalPass_facts.2]

theorem ParseUrlAssign_logon_of_anonymous (env : Env) (self : CServer) (host : wxString)
    (port : Nat) (user pass : wxString) (hl : self.m_logonType = .ANONYMOUS) (hu : user ≠ []) :
    (ParseUrlAssign env self host port user pass).m_logonType = .NORMAL :=
  parsedLogonType_of_anonymous env _ hl hu

/-! ## The two ways a parse ends -/

theorem StageOutcome_ite {env : Env} {self : CServer} {c : Prop} [Decidable c]
    {a b : ParseUrlResult} (ha : c → StageOutcome env self a)
    (hb : ¬ c → StageOutcome env self b) : StageOutcome env self (if c then a else b) := by
  by_cases h : c
  · rw [if_pos h]; exact ha h
  · rw [if_neg h]; exact hb h

theorem ParseUrlStore_outcome (env : Env) (self : CServer) (host : wxString) (port : Nat)
    (user pass error : wxString) (path : CServerPath)
    (hp : 1 ≤ port ∧ port ≤ 65535)
    (hu : user ≠ [] ∨ self.m_logonType = .ASK ∨ self.m_logonType = .INTERACTIVE) :
    StageOutcome env self (ParseUrlStore env self host port user pass error path) := by
  unfold ParseUrlStore
  by_cases h : Trim (Trim host true) false = []
  · left; simp [h]
  · right
    exact ⟨_, port, user, pass, h, hp, hu, by simp [h], by simp [h]⟩

theorem GetDefaultPort_range (p : ServerProtocol) :
    1 ≤ GetDefaultPort p ∧ GetDefaultPort p ≤ 65535 := by
  cases p <;> decide

theorem ParseUrlPort_outcome (env : Env) (self : CServer) (host : wxString) (pos : Int)
    (port : Nat) (user pass error : wxString) (path : CServerPath)
    (hu : user ≠ [] ∨ self.m_logonType = .ASK ∨ self.m_logonType = .INTERACTIVE) :
    StageOutcome env self (ParseUrlPort env self host pos port user pass error path) := by
  unfold ParseUrlPort
  apply StageOutcome_ite <;> intro h1
  · apply StageOutcome_ite <;> intro h2
    · exact Or.inl ⟨rfl, rfl⟩
    · cases hl : ToLong env.localeSpace (Mid host (pos + 1)) with
      | none => exact Or.inl ⟨rfl, rfl⟩
      | some tmp =>
        simp only []
        apply StageOutcome_ite <;> intro h3
        · exact Or.inl ⟨rfl, rfl⟩
        · exact ParseUrlStore_outcome _ _ _ _ _ _ _ _ (by omega) hu
  · apply StageOutcome_ite <;> intro h2
    · exact ParseUrlStore_outcome _ _ _ _ _ _ _ _ (GetDefaultPort_range _) hu
    · apply StageOutcome_ite <;> intro h3
      · exact Or.inl ⟨rfl, rfl⟩
      · exact ParseUrlStore_outcome _ _ _ _ _ _ _ _ (by omega) hu

theorem ParseUrlHost_outcome (env : Env) (self : CServer) (host : wxString)
    (port : Nat) (user pass error : wxString) (path : CServerPath)
    (hu : user ≠ [] ∨ self.m_logonType = .ASK ∨ self.m_logonType = .INTERACTIVE) :
    StageOutcome env self (ParseUrlHost env self host port user pass error path) := by
  unfold ParseUrlHost
  simp only []
  split_ifs
  all_goals first
    | exact Or.inl ⟨rfl, rfl⟩
    | exact ParseUrlPort_outcome _ _ _ _ _ _ _ _ _ hu

theorem ParseUrlPath_outcome (env : Env) (self : CServer) (host : wxString)
    (port : Nat) (user pass error : wxString) (path : CServerPath)
    (hu : user ≠ [] ∨ self.m_logonType = .ASK ∨ self.m_logonType = .INTERACTIVE) :
    StageOutcome env self (ParseUrlPath env self host port user pass error path) := by
  unfold ParseUrlPath
  simp only []
  split_ifs
  all_goals exact ParseUrlHost_outcome _ _ _ _ _ _ _ _ hu

theorem anonymousUser_ne_nil : anonymousUser ≠ [] := by decide

theorem ParseUrlCredentials_outcome (env : Env) (self : CServer) (host : wxString)
    (port : Nat) (user pass error : wxString) (path : CServerPath) :
    StageOutcome env self (ParseUrlCredentials env self host port user pass error path) := by
  unfold ParseUrlCredentials
  simp only []
  by_cases h1 : Find host '@' ≠ -1
  · rw [if_pos h1]
    apply StageOutcome_ite <;> intro h2
    · exact Or.inl ⟨rfl, rfl⟩
    · exact ParseUrlPath_outcome _ _ _ _ _ _ _ _ (Or.inl h2)
  · rw [if_neg h1]
    apply StageOutcome_ite <;> intro h3
    · exact ParseUrlPath_outcome _ _ _ _ _ _ _ _ (Or.inl anonymousUser_ne_nil)
    · apply ParseUrlPath_outcome
      by_cases hu : Trim (Trim user true) false = []
      · right
        by_contra hc
        exact h3 ⟨hu, fun e => hc (Or.inl e), fun e => hc (Or.inr e)⟩
      · left; exact hu

/-- Every run of `ParseUrl` ends in one of two ways. The descriptor the
later stages work on is the caller's with the server type reset and, when the
string has a scheme separator, the protocol replaced by the lookup of the
scheme. A failure leaves exactly that descriptor; a success stores into it. -/
theorem ParseUrl_outcome (env : Env) (self : CServer) (host : wxString)
    (port : Nat) (user pass error : wxString) (path : CServerPath) :
    StageOutcome env
      { self with m_type := .DEFAULT, m_protocol := protocolAfterScheme self host }
      (ParseUrl env self host port user pass error path) := by
  unfold ParseUrl protocolAfterScheme
  simp only []
  by_cases h1 : host = []
  · rw [if_pos h1]
    have : ¬ (FindStr host schemeSeparator ≠ -1) := by rw [h1]; decide
    rw [if_neg this]
    exact Or.inl ⟨rfl, rfl⟩
  · rw [if_neg h1]
    by_cases h2 : FindStr host schemeSeparator ≠ -1
    · rw [if_pos h2, if_pos h2]
      apply StageOutcome_ite <;> intro h3
      · exact Or.inl ⟨rfl, rfl⟩
      · exact ParseUrlCredentials_outcome _ _ _ _ _ _ _ _
    · rw [if_neg h2, if_neg h2]
      exact ParseUrlCredentials_outcome _ _ _ _ _ _ _ _

/-! ## Storing the parsed values -/

theorem charAt_zero_ne_of_not_mem {h : wxString} {c : Char} (hc : c ∉ h) (hn : c ≠ NUL) :
    charAt h 0 ≠ c := by
  cases h with
  | nil => simpa [charAt] using hn.symm
  | cons x t =>
    have : x ≠ c := fun e => hc (by simp [e])
    simpa [charAt] using this

theorem digits_not_mem {p : wxString} (hd : p.all Char.isDigit = true) {c : Char}
    (hc : c.toNat < 48 ∨ 57 < c.toNat) : c ∉ p := by
  intro hm
  have hall : ∀ x ∈ p, x.isDigit = true := by simpa using hd
  exact isDigit_ne (hall _ hm) hc rfl

/-- A bracketed host is stored as it is trimmed: nothing to trim. -/
theorem ParseUrlStore_bracket (env : Env) (self : CServer) (a : wxString) (port : Nat)
    (user pass error : wxString) (path : CServerPath) :
    ParseUrlStore env self ('[' :: a ++ [']']) port user pass error path =
      ⟨true, ParseUrlAssign env self ('[' :: a ++ [']']) port user pass, error, path⟩ := by
  have h1 : startsWithSpace ('[' :: a ++ [']']) = false := by
    show wxSafeIsspace '[' = false
    decide
  have h2 : endsWithSpace ('[' :: a ++ [']']) = false := by
    unfold endsWithSpace
    have : ('[' :: a ++ [']']).reverse = ']' :: (a.reverse ++ ['[']) := by simp
    rw [this]
    show wxSafeIsspace ']' = false
    decide
  have h3 : '[' :: a ++ [']'] ≠ [] := by simp
  unfold ParseUrlStore
  simp only [Trim_noop h1 h2]
  rw [if_neg h3]

theorem ParseUrlAssign_host_bracket (env : Env) (self : CServer) (a : wxString) (port : Nat)
    (user pass : wxString) :
    (ParseUrlAssign env self ('[' :: a ++ [']']) port user pass).m_host = a := by
  show (if charAt ('[' :: a ++ [']']) 0 = '[' then Mid (RemoveLast ('[' :: a ++ [']'])) 1
    else '[' :: a ++ [']']) = a
  have h0 : charAt ('[' :: a ++ [']']) 0 = '[' := by simp [charAt]
  have h1 : RemoveLast ('[' :: a ++ [']']) = '[' :: a := by
    unfold RemoveLast
    exact List.dropLast_concat
  rw [if_pos h0, h1]
  simp [Mid]

theorem ParseUrlAssign_port (env : Env) (self : CServer) (h : wxString) (port : Nat)
    (user pass : wxString) : (ParseUrlAssign env self h port user pass).m_port = port := rfl

/-- The credentials stage hands a string without at sign on unchanged, with
some user and password. -/
theorem ParseUrlCredentials_plain_exists (env : Env) (self : CServer) (host : wxString)
    (port : Nat) (user pass error : wxString) (path : CServerPath) (hat : '@' ∉ host) :
    ∃ u pw, ParseUrlCredentials env self host port user pass error path =
      ParseUrlPath env self host port u pw error path := by
  rw [ParseUrlCredentials_plain _ _ _ _ _ _ _ _ hat]
  split_ifs
  · exact ⟨_, _, rfl⟩
  · exact ⟨_, _, rfl⟩

theorem ParseUrlStore_plain (env : Env) (self : CServer) (h : wxString) (port : Nat)
    (user pass error : wxString) (path : CServerPath)
    (hne : h ≠ []) (hws : ∀ c ∈ h, wxSafeIsspace c = false) :
    ParseUrlStore env self h port user pass error path =
      ⟨true, ParseUrlAssign env self h port user pass, error, path⟩ := by
  unfold ParseUrlStore
  simp only [Trim_noop_of_forall hws]
  rw [if_neg hne]

theorem ParseUrlAssign_host_plain (env : Env) (self : CServer) (h : wxString) (port : Nat)
    (user pass : wxString) (hbr : charAt h 0 ≠ '[') :
    (ParseUrlAssign env self h port user pass).m_host = h := by
  show (if charAt h 0 = '[' then Mid (RemoveLast h) 1 else h) = h
  rw [if_neg hbr]

theorem ParseUrlAssign_user (env : Env) (self : CServer) (h : wxString) (port : Nat)
    (user pass : wxString) : (ParseUrlAssign env self h port user pass).m_user = user := rfl

theorem ParseUrlAssign_protocol (env : Env) (self : CServer) (h : wxString) (port : Nat)
    (user pass : wxString) :
    (ParseUrlAssign env self h port user pass).m_protocol =
      if self.m_protocol = .UNKNOWN then GetProtocolFromPort port false else self.m_protocol :=
  rfl

theorem defaultCServer_logonType (env : Env) : (defaultCServer env).m_logonType = .ANONYMOUS := rfl

theorem defaultCServer_protocol (env : Env) : (defaultCServer env).m_protocol = .UNKNOWN := rfl

theorem ParseUrlPortField_empty (env : Env) (self : CServer) (host user pass error : wxString)
    (path : CServerPath) :
    ParseUrlPortField env self host [] user pass error path =
      ParseUrl env self host 0 user pass error path := by
  unfold ParseUrlPortField
  rw [if_neg (by simp)]

/-! ## A full URL -/

/-- C1: a string `scheme://user:pw@host:port/path` with a registered scheme,
a non-empty user other than `anonymous` without colon, at sign, slash or
surrounding white space, a password without slash, a non-empty host without
colon, slash, at sign, bracket or white space, a decimal port between 1 and
65535 and a path starting with a slash, parsed with empty port, user and
password fields into a default-constructed descriptor, succeeds; the protocol
is the one registered for the scheme, host and port are those of the string,
`GetUser` returns the user, `GetPass` the password (given that decoding undoes
encoding when encryption is enabled), and the path is the suffix from the
slash on. -/
theorem parseUrl_full_url (env : Env) (scheme user pw host port path error : wxString)
    (path0 : CServerPath)
    (hscheme : scheme ∈ registeredPrefixes)
    (hu_ne : user ≠ []) (_hu_anon : user ≠ anonymousUser)
    (hu_colon : ':' ∉ user) (_hu_at : '@' ∉ user) (hu_slash : '/' ∉ user)
    (hu_lead : startsWithSpace user = false) (hu_trail : endsWithSpace user = false)
    (hpw : '/' ∉ pw)
    (hh_ne : host ≠ []) (hh_colon : ':' ∉ host) (hh_slash : '/' ∉ host) (hh_at : '@' ∉ host)
    (hh_br : '[' ∉ host) (hh_ws : ∀ c ∈ host, wxSafeIsspace c = false)
    (hp_ne : port ≠ []) (hp_dig : port.all Char.isDigit = true)
    (hp_lo : 1 ≤ digitsVal port) (hp_hi : digitsVal port ≤ 65535)
    (hpath : path.head? = some '/')
    (hcodec : env.encryptPasswords = true → env.Decrypt (env.Encrypt pw) = pw) :
    (ParseUrlPortField env (defaultCServer env)
        (scheme ++ schemeSeparator ++ user ++ ":".toList ++ pw ++ "@".toList ++ host ++
          ":".toList ++ port ++ path) [] [] [] error path0).ret = true ∧
    (ParseUrlPortField env (defaultCServer env)
        (scheme ++ schemeSeparator ++ user ++ ":".toList ++ pw ++ "@".toList ++ host ++
          ":".toList ++ port ++ path) [] [] [] error path0).self.m_protocol
        = GetProtocolFromPrefix scheme ∧
    (ParseUrlPortField env (defaultCServer env)
        (scheme ++ schemeSeparator ++ user ++ ":".toList ++ pw ++ "@".toList ++ host ++
          ":".toList ++ port ++ path) [] [] [] error path0).self.m_host = host ∧
    (ParseUrlPortField env (defaultCServer env)
        (scheme ++ schemeSeparator ++ user ++ ":".toList ++ pw ++ "@".toList ++ host ++
          ":".toList ++ port ++ path) [] [] [] error path0).self.m_port = digitsVal port ∧
    GetUser (ParseUrlPortField env (defaultCServer env)
        (scheme ++ schemeSeparator ++ user ++ ":".toList ++ pw ++ "@".toList ++ host ++
          ":".toList ++ port ++ path) [] [] [] error path0).self = user ∧
    GetPass env (ParseUrlPortField env (defaultCServer env)
        (scheme ++ schemeSeparator ++ user ++ ":".toList ++ pw ++ "@".toList ++ host ++
          ":".toList ++ port ++ path) [] [] [] error path0).self true = pw ∧
    (ParseUrlPortField env (defaultCServer env)
        (scheme ++ schemeSeparator ++ user ++ ":".toList ++ pw ++ "@".toList ++ host ++
          ":".toList ++ port ++ path) [] [] [] error path0).path = ⟨path⟩ := by
  obtain ⟨q, rfl⟩ : ∃ q, path = '/' :: q := by
    cases path with
    | nil => simp at hpath
    | cons c t => simp at hpath; exact ⟨t, by rw [hpath]⟩
  obtain ⟨_, _, _, hknown⟩ := registered_facts scheme hscheme
  have hport_nosl : '/' ∉ port := by
    intro hm
    have hall : ∀ c ∈ port, c.isDigit = true := by simpa using hp_dig
    exact isDigit_ne (hall _ hm) (by left; decide) rfl
  have hport_noat : '@' ∉ port := by
    intro hm
    have hall : ∀ c ∈ port, c.isDigit = true := by simpa using hp_dig
    exact isDigit_ne (hall _ hm) (by right; decide) rfl
  have hshape : scheme ++ schemeSeparator ++ user ++ ":".toList ++ pw ++ "@".toList ++ host ++
      ":".toList ++ port ++ '/' :: q
      = scheme ++ schemeSeparator ++ ((user ++ ':' :: pw) ++ '@' :: ((host ++ ':' :: port) ++ '/' :: q)) := by
    simp
  have hcred : Find (user ++ ':' :: pw) ':' = user.length := Find_append_cons _ hu_colon
  have hne : ¬ ((user.length : Int) = -1) := by omega
  have hleft : Left (user ++ ':' :: pw) (user.length : Int) = user := Left_append_length _ _
  have hmid : Mid (user ++ ':' :: pw) ((user.length : Int) + 1) = pw := by
    have := Mid_append_length_add user (':' :: pw) 1
    simpa using this
  have hstep : ParseUrlPortField env (defaultCServer env)
      (scheme ++ schemeSeparator ++ user ++ ":".toList ++ pw ++ "@".toList ++ host ++
        ":".toList ++ port ++ '/' :: q) [] [] [] error path0
      = ParseUrlStore env
          { defaultCServer env with m_type := .DEFAULT, m_protocol := GetProtocolFromPrefix scheme }
          host (digitsVal port) user pw error ⟨'/' :: q⟩ := by
    rw [hshape]
    unfold ParseUrlPortField
    simp only [ne_eq, not_true_eq_false, if_false]
    rw [ParseUrl_scheme _ _ _ _ _ _ _ _ _ hscheme,
      ParseUrlCredentials_embedded _ _ _ _ _ _ _ _ _ _ (by simp [hu_slash, hpw])
        (by simp [hh_at, hport_noat]) (by simp [hh_slash, hport_nosl]) (Or.inr ⟨q, rfl⟩)]
    simp only [hcred, ne_eq, hne, not_false_eq_true, if_true, hleft, hmid,
      Trim_noop hu_lead hu_trail, hu_ne, if_false]
    rw [ParseUrlPath_slash _ _ _ _ _ _ _ _ _ (by simp [hh_slash, hport_nosl]),
      ParseUrlHost_port _ _ _ _ _ _ _ _ _ hh_ne (charAt_zero_ne_of_not_mem hh_br (by decide))
        hh_colon hp_ne hp_dig hp_lo hp_hi]
  rw [hstep]
  have hbr : charAt host 0 ≠ '[' := charAt_zero_ne_of_not_mem hh_br (by decide)
  have hstore : ParseUrlStore env
      { defaultCServer env with m_type := .DEFAULT, m_protocol := GetProtocolFromPrefix scheme }
      host (digitsVal port) user pw error ⟨'/' :: q⟩
      = ⟨true, ParseUrlAssign env
          { defaultCServer env with m_type := .DEFAULT, m_protocol := GetProtocolFromPrefix scheme }
          host (digitsVal port) user pw, error, ⟨'/' :: q⟩⟩ := by
    unfold ParseUrlStore
    simp only [Trim_noop_of_forall hh_ws, hh_ne, if_false]
  rw [hstore]
  have hlt : (ParseUrlAssign env
      { defaultCServer env with m_type := .DEFAULT, m_protocol := GetProtocolFromPrefix scheme }
      host (digitsVal port) user pw).m_logonType = .NORMAL :=
    ParseUrlAssign_logon_of_anonymous _ _ _ _ _ _ rfl hu_ne
  refine ⟨rfl, ?_, ?_, rfl, ?_, ?_, rfl⟩
  · show (if GetProtocolFromPrefix scheme = .UNKNOWN then _ else _) = _
    rw [if_neg hknown]; rfl
  · show (if charAt host 0 = '[' then _ else _) = _
    rw [if_neg hbr]
  · rw [GetUser, hlt]; rfl
  · rw [GetPass, hlt]
    show (if env.encryptPasswords = true ∧ true = true then
        env.Decrypt (if env.encryptPasswords = true ∧ ¬ false = true then env.Encrypt pw else pw)
      else (if env.encryptPasswords = true ∧ ¬ false = true then env.Encrypt pw else pw)) = pw
    cases henc : env.encryptPasswords
    · simp
    · simp [hcodec henc]

/-- C1 at `sftp://user:pw@example.com:2222/home`: SFTP, `example.com`, 2222,
`user`, `pw` and `/home`, with encryption enabled. -/
theorem parseUrl_full_url_witness :
    (ParseUrlPortField (markerEnv true) (defaultCServer (markerEnv true))
        "sftp://user:pw@example.com:2222/home".toList [] [] [] [] ⟨[]⟩).ret = true ∧
    (ParseUrlPortField (markerEnv true) (defaultCServer (markerEnv true))
        "sftp://user:pw@example.com:2222/home".toList [] [] [] [] ⟨[]⟩).self.m_protocol = .SFTP ∧
    (ParseUrlPortField (markerEnv true) (defaultCServer (markerEnv true))
        "sftp://user:pw@example.com:2222/home".toList [] [] [] [] ⟨[]⟩).self.m_host
        = "example.com".toList ∧
    (ParseUrlPortField (markerEnv true) (defaultCServer (markerEnv true))
        "sftp://user:pw@example.com:2222/home".toList [] [] [] [] ⟨[]⟩).self.m_port = 2222 ∧
    GetUser (ParseUrlPortField (markerEnv true) (defaultCServer (markerEnv true))
        "sftp://user:pw@example.com:2222/home".toList [] [] [] [] ⟨[]⟩).self = "user".toList ∧
    GetPass (markerEnv true) (ParseUrlPortField (markerEnv true) (defaultCServer (markerEnv true))
        "sftp://user:pw@example.com:2222/home".toList [] [] [] [] ⟨[]⟩).self true = "pw".toList ∧
    (ParseUrlPortField (markerEnv true) (defaultCServer (markerEnv true))
        "sftp://user:pw@example.com:2222/home".toList [] [] [] [] ⟨[]⟩).path = ⟨"/home".toList⟩ :=
  parseUrl_full_url (markerEnv true) "sftp".toList "user".toList "pw".toList "example.com".toList
    "2222".toList "/home".toList [] ⟨[]⟩ (by decide) (by decide) (by decide) (by decide) (by decide)
    (by decide) (by decide) (by decide) (by decide) (by decide) (by decide) (by decide) (by decide)
    (by decide) (by decide) (by decide) (by decide) (by decide) (by decide) (by decide)
    (by decide)

/-! ## The logon type after a parse -/

/-- Every successful parse into a descriptor whose logon type is Anonymous
when the call starts, a default-constructed one in particular, leaves the
logon type Normal: the user stored is never empty, and for the user
`anonymous` the password test of lines 245-246 reads `anon@localhost` from
`GetPass`. -/
theorem ParseUrl_logon_of_anonymous (env : Env) (self : CServer) (host : wxString) (port : Nat)
    (user pass error : wxString) (path : CServerPath)
    (hl : self.m_logonType = .ANONYMOUS)
    (hok : (ParseUrl env self host port user pass error path).ret = true) :
    (ParseUrl env self host port user pass error path).self.m_logonType = .NORMAL := by
  rcases ParseUrl_outcome env self host port user pass error path with ⟨h, _⟩ | ⟨h, p, u, pw, _, _, hu, _, hs⟩
  · rw [h] at hok; exact absurd hok (by decide)
  · rw [hs]
    apply ParseUrlAssign_logon_of_anonymous
    · exact hl
    · rcases hu with hu | hu | hu
      · exact hu
      · simp [hl] at hu
      · simp [hl] at hu


/-- C2 at its failing inputs: with an empty user and an empty password, and
again with the user `anonymous` and the anonymous password, the parse of
`example.com` into a default-constructed descriptor succeeds with logon
type Normal. -/
theorem ParseUrl_empty_user_logon_normal :
    (ParseUrl (markerEnv false) (defaultCServer (markerEnv false))
        "example.com".toList 21 [] [] [] ⟨[]⟩).ret = true ∧
    (ParseUrl (markerEnv false) (defaultCServer (markerEnv false))
        "example.com".toList 21 [] [] [] ⟨[]⟩).self.m_logonType = .NORMAL ∧
    (ParseUrl (markerEnv false) (defaultCServer (markerEnv false))
        "example.com".toList 21 anonymousUser anonymousPass [] ⟨[]⟩).ret = true ∧
    (ParseUrl (markerEnv false) (defaultCServer (markerEnv false))
        "example.com".toList 21 anonymousUser anonymousPass [] ⟨[]⟩).self.m_logonType
      = .NORMAL := by
  decide


/-- A registered scheme in front of a plain host, nothing else supplied,
parsed into a default-constructed descriptor: the protocol is the scheme's,
the port its default port, and the logon type Normal. -/
theorem ParseUrl_scheme_host (env : Env) (scheme host error : wxString) (path : CServerPath)
    (hscheme : scheme ∈ registeredPrefixes)
    (hh_ne : host ≠ []) (hh_colon : ':' ∉ host) (hh_slash : '/' ∉ host) (hh_at : '@' ∉ host)
    (hh_br : '[' ∉ host) (hh_ws : ∀ c ∈ host, wxSafeIsspace c = false) :
    (ParseUrlPortField env (defaultCServer env) (scheme ++ schemeSeparator ++ host) [] [] []
        error path).ret = true ∧
    (ParseUrlPortField env (defaultCServer env) (scheme ++ schemeSeparator ++ host) [] [] []
        error path).self.m_protocol = GetProtocolFromPrefix scheme ∧
    (ParseUrlPortField env (defaultCServer env) (scheme ++ schemeSeparator ++ host) [] [] []
        error path).self.m_port = GetDefaultPort (GetProtocolFromPrefix scheme) ∧
    (ParseUrlPortField env (defaultCServer env) (scheme ++ schemeSeparator ++ host) [] [] []
        error path).self.m_logonType = .NORMAL := by
  obtain ⟨_, _, _, hknown⟩ := registered_facts scheme hscheme
  have hbr : charAt host 0 ≠ '[' := charAt_zero_ne_of_not_mem hh_br (by decide)
  have htrim : Trim (Trim ([] : wxString) true) false = [] := by decide
  rw [ParseUrlPortField_empty, ParseUrl_scheme _ _ _ _ _ _ _ _ _ hscheme,
    ParseUrlCredentials_plain _ _ _ _ _ _ _ _ hh_at]
  have hask : LogonType.ANONYMOUS ≠ LogonType.ASK := by decide
  have hint : LogonType.ANONYMOUS ≠ LogonType.INTERACTIVE := by decide
  rw [if_pos ⟨htrim, hask, hint⟩, ParseUrlPath_noslash _ _ _ _ _ _ _ _ hh_slash,
    ParseUrlHost_plain _ _ _ _ _ _ _ _ hbr hh_colon, if_pos rfl,
    ParseUrlStore_plain _ _ _ _ _ _ _ _ hh_ne hh_ws]
  refine ⟨rfl, ?_, rfl, ?_⟩
  · rw [ParseUrlAssign_protocol]; simp only [hknown, if_false]
  · exact ParseUrlAssign_logon_of_anonymous _ _ _ _ _ _ rfl anonymousUser_ne_nil


/-- C3 at its witness: `ftp://example.com` parsed into a default-constructed
descriptor gives protocol FTP and port 21 as claimed, and logon type Normal
where the claim says Anonymous. -/
theorem ParseUrl_ftp_example :
    (ParseUrlPortField (markerEnv false) (defaultCServer (markerEnv false))
        "ftp://example.com".toList [] [] [] [] ⟨[]⟩).ret = true ∧
    (ParseUrlPortField (markerEnv false) (defaultCServer (markerEnv false))
        "ftp://example.com".toList [] [] [] [] ⟨[]⟩).self.m_protocol = .FTP ∧
    (ParseUrlPortField (markerEnv false) (defaultCServer (markerEnv false))
        "ftp://example.com".toList [] [] [] [] ⟨[]⟩).self.m_port = 21 ∧
    (ParseUrlPortField (markerEnv false) (defaultCServer (markerEnv false))
        "ftp://example.com".toList [] [] [] [] ⟨[]⟩).self.m_logonType = .NORMAL := by
  decide

/-! ## Bracketed hosts -/

/-- C4: for every non-empty `a` without closing bracket, slash or at sign and
every decimal port `p` between 1 and 65535, `[a]:p` parses with host `a` and
port `p`, and `[a]` with no port supplied parses with host `a` and the default
port of the protocol in effect; the same holds behind a registered scheme,
where the default port is that of the scheme's protocol. This holds for every
descriptor and every caller-supplied user and password. -/
theorem ParseUrl_bracketed_host (env : Env) (self : CServer) (a p scheme : wxString) (port : Nat)
    (user pass error : wxString) (path : CServerPath)
    (_ha_ne : a ≠ []) (ha_br : ']' ∉ a) (ha_sl : '/' ∉ a) (ha_at : '@' ∉ a)
    (hp_ne : p ≠ []) (hp_dig : p.all Char.isDigit = true)
    (hp_lo : 1 ≤ digitsVal p) (hp_hi : digitsVal p ≤ 65535)
    (hscheme : scheme ∈ registeredPrefixes) :
    ((ParseUrl env self ("[".toList ++ a ++ "]:".toList ++ p) port user pass error path).ret = true ∧
     (ParseUrl env self ("[".toList ++ a ++ "]:".toList ++ p) port user pass error path).self.m_host
        = a ∧
     (ParseUrl env self ("[".toList ++ a ++ "]:".toList ++ p) port user pass error path).self.m_port
        = digitsVal p) ∧
    ((ParseUrl env self ("[".toList ++ a ++ "]".toList) 0 user pass error path).ret = true ∧
     (ParseUrl env self ("[".toList ++ a ++ "]".toList) 0 user pass error path).self.m_host = a ∧
     (ParseUrl env self ("[".toList ++ a ++ "]".toList) 0 user pass error path).self.m_port
        = GetDefaultPort self.m_protocol) ∧
    ((ParseUrl env self (scheme ++ schemeSeparator ++ ("[".toList ++ a ++ "]:".toList ++ p)) port
        user pass error path).ret = true ∧
     (ParseUrl env self (scheme ++ schemeSeparator ++ ("[".toList ++ a ++ "]:".toList ++ p)) port
        user pass error path).self.m_host = a ∧
     (ParseUrl env self (scheme ++ schemeSeparator ++ ("[".toList ++ a ++ "]:".toList ++ p)) port
        user pass error path).self.m_port = digitsVal p) ∧
    ((ParseUrl env self (scheme ++ schemeSeparator ++ ("[".toList ++ a ++ "]".toList)) 0
        user pass error path).ret = true ∧
     (ParseUrl env self (scheme ++ schemeSeparator ++ ("[".toList ++ a ++ "]".toList)) 0
        user pass error path).self.m_host = a ∧
     (ParseUrl env self (scheme ++ schemeSeparator ++ ("[".toList ++ a ++ "]".toList)) 0
        user pass error path).self.m_port = GetDefaultPort (GetProtocolFromPrefix scheme)) := by
  have hp_sl : '/' ∉ p := digits_not_mem hp_dig (by left; decide)
  have hp_at : '@' ∉ p := digits_not_mem hp_dig (by right; decide)
  have e1 : "[".toList ++ a ++ "]:".toList ++ p = '[' :: a ++ ']' :: ':' :: p := by simp
  have e2 : "[".toList ++ a ++ "]".toList = '[' :: a ++ [']'] := by simp
  have s1 : '/' ∉ '[' :: a ++ ']' :: ':' :: p := by simp [ha_sl, hp_sl]
  have s2 : '/' ∉ '[' :: a ++ [']'] := by simp [ha_sl]
  have a1 : '@' ∉ '[' :: a ++ ']' :: ':' :: p := by simp [ha_at, hp_at]
  have a2 : '@' ∉ '[' :: a ++ [']'] := by simp [ha_at]
  have hslmem : '/' ∈ schemeSeparator := by decide
  -- the stages after the scheme, for any descriptor
  have port_case : ∀ (d : CServer),
      ∃ u pw, ParseUrlCredentials env d ('[' :: a ++ ']' :: ':' :: p) port user pass error path =
        ⟨true, ParseUrlAssign env d ('[' :: a ++ [']']) (digitsVal p) u pw, error, path⟩ := by
    intro d
    obtain ⟨u, pw, h⟩ := ParseUrlCredentials_plain_exists env d _ port user pass error path a1
    refine ⟨u, pw, ?_⟩
    rw [h, ParseUrlPath_noslash _ _ _ _ _ _ _ _ s1,
      ParseUrlHost_bracket_port _ _ _ _ _ _ _ _ _ ha_br hp_ne hp_dig hp_lo hp_hi,
      ParseUrlStore_bracket]
  have plain_case : ∀ (d : CServer),
      ∃ u pw, ParseUrlCredentials env d ('[' :: a ++ [']']) 0 user pass error path =
        ⟨true, ParseUrlAssign env d ('[' :: a ++ [']']) (GetDefaultPort d.m_protocol) u pw,
          error, path⟩ := by
    intro d
    obtain ⟨u, pw, h⟩ := ParseUrlCredentials_plain_exists env d _ 0 user pass error path a2
    refine ⟨u, pw, ?_⟩
    rw [h, ParseUrlPath_noslash _ _ _ _ _ _ _ _ s2,
      ParseUrlHost_bracket _ _ _ _ _ _ _ _ ha_br, if_pos rfl, ParseUrlStore_bracket]
  refine ⟨?_, ?_, ?_, ?_⟩
  · rw [e1, ParseUrl_noscheme _ _ _ _ _ _ _ _ (by simp) (FindStr_of_not_mem hslmem s1)]
    obtain ⟨u, pw, h⟩ := port_case { self with m_type := .DEFAULT }
    rw [h]
    exact ⟨rfl, ParseUrlAssign_host_bracket _ _ _ _ _ _, rfl⟩
  · rw [e2, ParseUrl_noscheme _ _ _ _ _ _ _ _ (by simp) (FindStr_of_not_mem hslmem s2)]
    obtain ⟨u, pw, h⟩ := plain_case { self with m_type := .DEFAULT }
    rw [h]
    exact ⟨rfl, ParseUrlAssign_host_bracket _ _ _ _ _ _, rfl⟩
  · rw [e1, ParseUrl_scheme _ _ _ _ _ _ _ _ _ hscheme]
    obtain ⟨u, pw, h⟩ := port_case
      { self with m_type := .DEFAULT, m_protocol := GetProtocolFromPrefix scheme }
    rw [h]
    exact ⟨rfl, ParseUrlAssign_host_bracket _ _ _ _ _ _, rfl⟩
  · rw [e2, ParseUrl_scheme _ _ _ _ _ _ _ _ _ hscheme]
    obtain ⟨u, pw, h⟩ := plain_case
      { self with m_type := .DEFAULT, m_protocol := GetProtocolFromPrefix scheme }
    rw [h]
    exact ⟨rfl, ParseUrlAssign_host_bracket _ _ _ _ _ _, rfl⟩

/-- C4 at `[::1]:2121`: host `::1`, port 2121, no error; and at `[::1]`,
`sftp://[::1]:2121` and `sftp://[::1]`. -/
theorem ParseUrl_bracketed_host_witness :
    ((ParseUrl (markerEnv false) (defaultCServer (markerEnv false)) "[::1]:2121".toList 0
        [] [] [] ⟨[]⟩).ret = true ∧
     (ParseUrl (markerEnv false) (defaultCServer (markerEnv false)) "[::1]:2121".toList 0
        [] [] [] ⟨[]⟩).self.m_host = "::1".toList ∧
     (ParseUrl (markerEnv false) (defaultCServer (markerEnv false)) "[::1]:2121".toList 0
        [] [] [] ⟨[]⟩).self.m_port = 2121) ∧
    ((ParseUrl (markerEnv false) (defaultCServer (markerEnv false)) "[::1]".toList 0
        [] [] [] ⟨[]⟩).ret = true ∧
     (ParseUrl (markerEnv false) (defaultCServer (markerEnv false)) "[::1]".toList 0
        [] [] [] ⟨[]⟩).self.m_host = "::1".toList ∧
     (ParseUrl (markerEnv false) (defaultCServer (markerEnv false)) "[::1]".toList 0
        [] [] [] ⟨[]⟩).self.m_port = 21) ∧
    ((ParseUrl (markerEnv false) (defaultCServer (markerEnv false)) "sftp://[::1]:2121".toList 0
        [] [] [] ⟨[]⟩).ret = true ∧
     (ParseUrl (markerEnv false) (defaultCServer (markerEnv false)) "sftp://[::1]:2121".toList 0
        [] [] [] ⟨[]⟩).self.m_host = "::1".toList ∧
     (ParseUrl (markerEnv false) (defaultCServer (markerEnv false)) "sftp://[::1]:2121".toList 0
        [] [] [] ⟨[]⟩).self.m_port = 2121) ∧
    ((ParseUrl (markerEnv false) (defaultCServer (markerEnv false)) "sftp://[::1]".toList 0
        [] [] [] ⟨[]⟩).ret = true ∧
     (ParseUrl (markerEnv false) (defaultCServer (markerEnv false)) "sftp://[::1]".toList 0
        [] [] [] ⟨[]⟩).self.m_host = "::1".toList ∧
     (ParseUrl (markerEnv false) (defaultCServer (markerEnv false)) "sftp://[::1]".toList 0
        [] [] [] ⟨[]⟩).self.m_port = 22) :=
  ParseUrl_bracketed_host (markerEnv false) (defaultCServer (markerEnv false)) "::1".toList
    "2121".toList "sftp".toList 0 [] [] [] ⟨[]⟩ (by decide) (by decide) (by decide) (by decide)
    (by decide) (by decide) (by decide) (by decide) (by decide)

/-! ## Formatting and parsing back -/

theorem digitChar_facts : ∀ k, k < 10 →
    (Nat.digitChar k).isDigit = true ∧ (Nat.digitChar k).toNat - 48 = k := by
  decide

theorem toDigitsCore_all_digits : ∀ (fuel n : Nat) (ds : List Char),
    ds.all Char.isDigit = true → (Nat.toDigitsCore 10 fuel n ds).all Char.isDigit = true := by
  intro fuel
  induction fuel with
  | zero => intro n ds h; simpa [Nat.toDigitsCore] using h
  | succ f ih =>
    intro n ds h
    have hd := (digitChar_facts (n % 10) (Nat.mod_lt _ (by decide))).1
    have hcons : (Nat.digitChar (n % 10) :: ds).all Char.isDigit = true := by
      simp only [List.all_cons, hd, h, Bool.and_self]
    unfold Nat.toDigitsCore
    simp only []
    split_ifs
    · exact hcons
    · exact ih _ _ hcons

theorem toDigitsCore_ne_nil_of_acc : ∀ (fuel n : Nat) (ds : List Char),
    ds ≠ [] → Nat.toDigitsCore 10 fuel n ds ≠ [] := by
  intro fuel
  induction fuel with
  | zero => intro n ds h; simpa [Nat.toDigitsCore] using h
  | succ f ih =>
    intro n ds _
    unfold Nat.toDigitsCore
    simp only []
    split_ifs
    · simp
    · exact ih _ _ (by simp)

theorem toDigitsCore_val : ∀ (fuel n : Nat) (ds : List Char), n < fuel →
    (Nat.toDigitsCore 10 fuel n ds).foldl (fun v c => 10 * v + (c.toNat - 48)) 0
      = ds.foldl (fun v c => 10 * v + (c.toNat - 48)) n := by
  intro fuel
  induction fuel with
  | zero => intro n ds h; omega
  | succ f ih =>
    intro n ds hn
    have hd := (digitChar_facts (n % 10) (Nat.mod_lt _ (by decide))).2
    unfold Nat.toDigitsCore
    simp only []
    split_ifs with h0
    · have h1 : n % 10 = n := by omega
      simp only [List.foldl_cons, hd, Nat.mul_zero, Nat.zero_add]
      rw [h1]
    · rw [ih _ _ (by omega)]
      simp only [List.foldl_cons, hd]
      congr 1
      omega

/-- For a port below `2^31`, `%d` prints the decimal digits of the port. -/
theorem FormatD_of_lt {n : Nat} (h : n < 2 ^ 31) : FormatD n = Nat.toDigits 10 n := by
  have h1 : n % 2 ^ 32 = n := Nat.mod_eq_of_lt (by omega)
  unfold FormatD
  rw [h1, if_pos h]

theorem FormatD_ne_nil {n : Nat} (h : n < 2 ^ 31) : FormatD n ≠ [] := by
  rw [FormatD_of_lt h]
  unfold Nat.toDigits Nat.toDigitsCore
  simp only []
  split_ifs
  · simp
  · exact toDigitsCore_ne_nil_of_acc _ _ _ (by simp)

theorem FormatD_all_digits {n : Nat} (h : n < 2 ^ 31) :
    (FormatD n).all Char.isDigit = true := by
  rw [FormatD_of_lt h]
  exact toDigitsCore_all_digits _ _ _ rfl

theorem digitsVal_FormatD {n : Nat} (h : n < 2 ^ 31) : digitsVal (FormatD n) = n := by
  rw [FormatD_of_lt h]
  unfold digitsVal Nat.toDigits
  rw [toDigitsCore_val _ _ _ (by omega)]
  rfl

/-- What the registry says about the protocol a formatted string names. When
the prefix of `P` is shown, looking it up gives a protocol with the same
prefix, flag and default port; when it is not shown and `P` is a real
protocol, the port is 21 and the protocol found for port 21 formats alike. -/
theorem registry_roundtrip : ∀ P : ServerProtocol, P ≠ .UNKNOWN →
    (GetProtocolInfo P).pfx ∈ registeredPrefixes ∧
    (GetProtocolInfo (GetProtocolFromPrefix (GetProtocolInfo P).pfx)).pfx = (GetProtocolInfo P).pfx ∧
    (GetProtocolInfo (GetProtocolFromPrefix (GetProtocolInfo P).pfx)).alwaysShowPrefix
      = (GetProtocolInfo P).alwaysShowPrefix ∧
    (GetProtocolInfo (GetProtocolFromPrefix (GetProtocolInfo P).pfx)).defaultPort
      = (GetProtocolInfo P).defaultPort ∧
    ((GetProtocolInfo P).alwaysShowPrefix = false →
      (GetProtocolInfo P).defaultPort = 21 ∧
      (GetProtocolInfo (GetProtocolFromPort 21 false)).pfx = (GetProtocolInfo P).pfx ∧
      (GetProtocolInfo (GetProtocolFromPort 21 false)).alwaysShowPrefix = false ∧
      (GetProtocolInfo (GetProtocolFromPort 21 false)).defaultPort = 21) := by
  intro P hP
  cases P
  · exact absurd rfl hP
  all_goals decide

theorem registry_unknown :
    (GetProtocolInfo .UNKNOWN).pfx = [] ∧ (GetProtocolInfo .UNKNOWN).defaultPort = 21 ∧
    (GetProtocolInfo (GetProtocolFromPort 21 false)).alwaysShowPrefix = false ∧
    (GetProtocolInfo (GetProtocolFromPort 21 false)).defaultPort = 21 := by
  decide

/-- The host as `FormatHost` writes it: in brackets when it contains a colon. -/
theorem bracketed_cases (host : wxString) :
    (':' ∈ host ∧ (if Find host ':' ≠ -1 then "[".toList ++ host ++ "]".toList else host)
        = '[' :: host ++ [']']) ∨
    (':' ∉ host ∧ (if Find host ':' ≠ -1 then "[".toList ++ host ++ "]".toList else host)
        = host) := by
  by_cases h : ':' ∈ host
  · left
    have : Find host ':' ≠ -1 := by rw [Ne, Find_eq_neg_one_iff]; simpa using h
    exact ⟨h, by rw [if_pos this]; simp⟩
  · right
    have : ¬ (Find host ':' ≠ -1) := by rw [Ne, Find_eq_neg_one_iff]; simpa using h
    exact ⟨h, by rw [if_neg this]⟩

/-- Parsing `user@host`, the host written as `FormatHost` writes it, with
nothing or `:port` behind it. -/
theorem ParseUrlCredentials_formatted (env : Env) (self : CServer) (u host : wxString)
    (error : wxString) (path : CServerPath)
    (hu_ne : u ≠ []) (hu_col : ':' ∉ u) (hu_sl : '/' ∉ u)
    (hu_ws : ∀ c ∈ u, wxSafeIsspace c = false)
    (hh_ne : host ≠ []) (hh_at : '@' ∉ host) (hh_sl : '/' ∉ host)
    (hh_ws : ∀ c ∈ host, wxSafeIsspace c = false)
    (hbr1 : ':' ∈ host → ']' ∉ host) (hbr2 : ':' ∉ host → charAt host 0 ≠ '[') :
    (∃ hb, ParseUrlCredentials env self
        (u ++ "@".toList ++
          (if Find host ':' ≠ -1 then "[".toList ++ host ++ "]".toList else host))
        0 [] [] error path
        = ⟨true, ParseUrlAssign env self hb (GetDefaultPort self.m_protocol) u [], error, path⟩ ∧
      ∀ n, (ParseUrlAssign env self hb n u []).m_host = host) ∧
    (∀ n, 1 ≤ n → n ≤ 65535 →
      ∃ hb, ParseUrlCredentials env self
        (u ++ "@".toList ++
          ((if Find host ':' ≠ -1 then "[".toList ++ host ++ "]".toList else host) ++
            (":".toList ++ FormatD n)))
        0 [] [] error path
        = ⟨true, ParseUrlAssign env self hb n u [], error, path⟩ ∧
      ∀ m, (ParseUrlAssign env self hb m u []).m_host = host) := by
  have hfind : Find u ':' = -1 := Find_of_not_mem hu_col
  have hdig_sl : ∀ n, n ≤ 65535 → '/' ∉ FormatD n := fun n hn =>
    digits_not_mem (FormatD_all_digits (by omega)) (by left; decide)
  have hdig_at : ∀ n, n ≤ 65535 → '@' ∉ FormatD n := fun n hn =>
    digits_not_mem (FormatD_all_digits (by omega)) (by right; decide)
  -- the credentials stage on `u@hp`
  have cred : ∀ hp : wxString, '@' ∉ hp → '/' ∉ hp →
      ParseUrlCredentials env self (u ++ "@".toList ++ hp) 0 [] [] error path
        = ParseUrlHost env self hp 0 u [] error path := by
    intro hp h1 h2
    have e : u ++ "@".toList ++ hp = u ++ '@' :: (hp ++ []) := by simp
    rw [e, ParseUrlCredentials_embedded _ _ _ _ _ _ _ _ _ _ hu_sl h1 h2 (Or.inl rfl)]
    simp only [hfind, ne_eq, not_true_eq_false, if_false, Trim_noop_of_forall hu_ws, hu_ne,
      List.append_nil]
    rw [ParseUrlPath_noslash _ _ _ _ _ _ _ _ h2]
  rcases bracketed_cases host with ⟨hc, hb⟩ | ⟨hc, hb⟩
  · have hnb := hbr1 hc
    rw [hb]
    constructor
    · refine ⟨'[' :: host ++ [']'], ?_, fun n => ParseUrlAssign_host_bracket _ _ _ _ _ _⟩
      rw [cred _ (by simp [hh_at]) (by simp [hh_sl]),
        ParseUrlHost_bracket _ _ _ _ _ _ _ _ hnb, if_pos rfl, ParseUrlStore_bracket]
    · intro n hlo hhi
      refine ⟨'[' :: host ++ [']'], ?_, fun m => ParseUrlAssign_host_bracket _ _ _ _ _ _⟩
      have e : '[' :: host ++ [']'] ++ (":".toList ++ FormatD n)
          = '[' :: host ++ ']' :: ':' :: FormatD n := by simp
      have hb31 : n < 2 ^ 31 := by omega
      rw [e, cred _ (by simp [hh_at, hdig_at n hhi]) (by simp [hh_sl, hdig_sl n hhi]),
        ParseUrlHost_bracket_port _ _ _ _ _ _ _ _ _ hnb (FormatD_ne_nil hb31)
          (FormatD_all_digits hb31)
          (by rw [digitsVal_FormatD hb31]; exact hlo)
          (by rw [digitsVal_FormatD hb31]; exact hhi),
        ParseUrlStore_bracket, digitsVal_FormatD hb31]
  · have hnb := hbr2 hc
    rw [hb]
    constructor
    · refine ⟨host, ?_, fun n => ParseUrlAssign_host_plain _ _ _ _ _ _ hnb⟩
      rw [cred _ hh_at hh_sl, ParseUrlHost_plain _ _ _ _ _ _ _ _ hnb hc, if_pos rfl,
        ParseUrlStore_plain _ _ _ _ _ _ _ _ hh_ne hh_ws]
    · intro n hlo hhi
      refine ⟨host, ?_, fun m => ParseUrlAssign_host_plain _ _ _ _ _ _ hnb⟩
      have e : host ++ (":".toList ++ FormatD n) = host ++ ':' :: FormatD n := by simp
      have hb31 : n < 2 ^ 31 := by omega
      rw [e, cred _ (by simp [hh_at, hdig_at n hhi]) (by simp [hh_sl, hdig_sl n hhi]),
        ParseUrlHost_port _ _ _ _ _ _ _ _ _ hh_ne hnb hc (FormatD_ne_nil hb31)
          (FormatD_all_digits hb31)
          (by rw [digitsVal_FormatD hb31]; exact hlo)
          (by rw [digitsVal_FormatD hb31]; exact hhi),
        ParseUrlStore_plain _ _ _ _ _ _ _ _ hh_ne hh_ws, digitsVal_FormatD hb31]

/-- What `FormatServer` reads: the host, the port, the user, whether the logon is
anonymous, and the registry entry of the protocol. -/
theorem FormatServer_congr (a b : CServer) (f : Bool)
    (hh : a.m_host = b.m_host) (hp : a.m_port = b.m_port) (hu : a.m_user = b.m_user)
    (hla : a.m_logonType ≠ .ANONYMOUS) (hlb : b.m_logonType ≠ .ANONYMOUS)
    (h1 : (GetProtocolInfo a.m_protocol).pfx = (GetProtocolInfo b.m_protocol).pfx)
    (h2 : (GetProtocolInfo a.m_protocol).alwaysShowPrefix
      = (GetProtocolInfo b.m_protocol).alwaysShowPrefix)
    (h3 : (GetProtocolInfo a.m_protocol).defaultPort
      = (GetProtocolInfo b.m_protocol).defaultPort) :
    FormatServer a f = FormatServer b f := by
  unfold FormatServer FormatHost GetUser GetDefaultPort
  simp only [hh, hp, hu, hla, hlb, h1, h2, h3, ne_eq, not_false_eq_true, if_true]

/-- The string `FormatServer` writes when the prefix is not forced, not
always shown, and the port is the default one. -/
theorem FormatServer_bare (a : CServer) (hl : a.m_logonType ≠ .ANONYMOUS)
    (h2 : (GetProtocolInfo a.m_protocol).alwaysShowPrefix = false)
    (h3 : a.m_port = (GetProtocolInfo a.m_protocol).defaultPort) :
    FormatServer a false = a.m_user ++ "@".toList ++
      (if Find a.m_host ':' ≠ -1 then "[".toList ++ a.m_host ++ "]".toList else a.m_host) := by
  unfold FormatServer FormatHost GetUser GetDefaultPort
  simp only [hl, h2, h3, if_false, ne_eq, not_true_eq_false, and_false, Bool.false_eq_true,
    or_self, not_false_eq_true, if_true, ite_self]

/-- C5, as amended: let `d` be a descriptor whose logon type is not Anonymous,
whose protocol is not UNKNOWN (or whose port is 21), with a port between 1 and
65535, a non-empty host free of at sign, slash and white space that has no
closing bracket if it contains a colon and does not start with an opening
bracket otherwise, and a non-empty user other than `anonymous` free of colon,
at sign, slash and white space. Then parsing `FormatServer(d)` with empty
port, user and password fields into a default-constructed descriptor succeeds,
and `FormatServer` of the result is `FormatServer(d)`. -/
theorem FormatServer_parse_format (env : Env) (d : CServer) (error : wxString)
    (path : CServerPath)
    (hP : d.m_protocol ≠ .UNKNOWN ∨ d.m_port = 21)
    (hL : d.m_logonType ≠ .ANONYMOUS)
    (hport : 1 ≤ d.m_port ∧ d.m_port ≤ 65535)
    (hh_ne : d.m_host ≠ []) (hh_at : '@' ∉ d.m_host) (hh_sl : '/' ∉ d.m_host)
    (hh_ws : ∀ c ∈ d.m_host, wxSafeIsspace c = false)
    (hbr1 : ':' ∈ d.m_host → ']' ∉ d.m_host)
    (hbr2 : ':' ∉ d.m_host → charAt d.m_host 0 ≠ '[')
    (hu_ne : d.m_user ≠ []) (_hu_anon : d.m_user ≠ anonymousUser)
    (hu_col : ':' ∉ d.m_user) (_hu_at : '@' ∉ d.m_user) (hu_sl : '/' ∉ d.m_user)
    (hu_ws : ∀ c ∈ d.m_user, wxSafeIsspace c = false) :
    (ParseUrlPortField env (defaultCServer env) (FormatServer d false) [] [] [] error path).ret
      = true ∧
    FormatServer
      (ParseUrlPortField env (defaultCServer env) (FormatServer d false) [] [] [] error
        path).self false = FormatServer d false := by
  rw [ParseUrlPortField_empty]
  have hform := fun self' => ParseUrlCredentials_formatted env self' d.m_user d.m_host error path
    hu_ne hu_col hu_sl hu_ws hh_ne hh_at hh_sl hh_ws hbr1 hbr2
  -- facts about the registry entry of the protocol
  have hdef_unknown : d.m_protocol = .UNKNOWN → d.m_port = (GetProtocolInfo d.m_protocol).defaultPort := by
    intro h
    rcases hP with hP | hP
    · exact absurd h hP
    · rw [hP, h]; rfl
  by_cases hpd : d.m_port = (GetProtocolInfo d.m_protocol).defaultPort
  · by_cases hshow : (GetProtocolInfo d.m_protocol).alwaysShowPrefix = true
    · -- the prefix is always shown, the port is the default one
      have hPk : d.m_protocol ≠ .UNKNOWN := by
        intro h; rw [h] at hshow; exact absurd hshow (by decide)
      obtain ⟨hreg, r1, r2, r3, _⟩ := registry_roundtrip d.m_protocol hPk
      obtain ⟨_, hpfx_ne, _, hknown⟩ := registered_facts _ hreg
      have hstr : FormatServer d false = (GetProtocolInfo d.m_protocol).pfx ++ schemeSeparator ++
          (d.m_user ++ "@".toList ++
            (if Find d.m_host ':' ≠ -1 then "[".toList ++ d.m_host ++ "]".toList
              else d.m_host)) := by
        unfold FormatServer FormatHost GetUser GetDefaultPort
        simp only [hL, hshow, hpd, hpfx_ne, ne_eq, not_false_eq_true, if_true, not_true_eq_false,
          and_false, if_false, or_true]
      obtain ⟨⟨hb, hparse, hhost⟩, _⟩ := hform
        { defaultCServer env with
          m_type := .DEFAULT, m_protocol := GetProtocolFromPrefix (GetProtocolInfo d.m_protocol).pfx }
      rw [hstr, ParseUrl_scheme _ _ _ _ _ _ _ _ _ hreg, hparse]
      refine ⟨rfl, ?_⟩
      rw [← hstr]
      apply FormatServer_congr
      · exact hhost _
      · show GetDefaultPort (GetProtocolFromPrefix (GetProtocolInfo d.m_protocol).pfx) = d.m_port
        rw [hpd]; exact r3
      · rfl
      · rw [ParseUrlAssign_logon_of_anonymous _ _ _ _ _ _ rfl hu_ne]; decide
      · exact hL
      · rw [ParseUrlAssign_protocol]; simp only [hknown, if_false]; exact r1
      · rw [ParseUrlAssign_protocol]; simp only [hknown, if_false]; exact r2
      · rw [ParseUrlAssign_protocol]; simp only [hknown, if_false]; exact r3
    · -- no prefix, no port
      have hshow' : (GetProtocolInfo d.m_protocol).alwaysShowPrefix = false := by
        simpa using hshow
      have hstr := FormatServer_bare d hL hshow' hpd
      have hnosl : '/' ∉ d.m_user ++ "@".toList ++
          (if Find d.m_host ':' ≠ -1 then "[".toList ++ d.m_host ++ "]".toList
            else d.m_host) := by
        rcases bracketed_cases d.m_host with ⟨_, hb⟩ | ⟨_, hb⟩ <;> rw [hb] <;>
          simp [hu_sl, hh_sl]
      obtain ⟨⟨hb, hparse, hhost⟩, _⟩ := hform { defaultCServer env with m_type := .DEFAULT }
      rw [hstr, ParseUrl_noscheme _ _ _ _ _ _ _ _ (by simp [hu_ne])
        (FindStr_of_not_mem (by decide) hnosl), hparse]
      refine ⟨rfl, ?_⟩
      rw [FormatServer_bare _ (by rw [ParseUrlAssign_logon_of_anonymous _ _ _ _ _ _ rfl hu_ne]; decide)
        registry_unknown.2.2.1 registry_unknown.2.2.2.symm]
      rw [hhost]
      rfl
  · -- the port is written out, behind the prefix
    have hPk : d.m_protocol ≠ .UNKNOWN := fun h => hpd (hdef_unknown h)
    obtain ⟨hreg, r1, r2, r3, _⟩ := registry_roundtrip d.m_protocol hPk
    obtain ⟨_, hpfx_ne, _, hknown⟩ := registered_facts _ hreg
    have hstr : FormatServer d false = (GetProtocolInfo d.m_protocol).pfx ++ schemeSeparator ++
        (d.m_user ++ "@".toList ++
          ((if Find d.m_host ':' ≠ -1 then "[".toList ++ d.m_host ++ "]".toList
            else d.m_host) ++ (":".toList ++ FormatD d.m_port))) := by
      unfold FormatServer FormatHost GetUser GetDefaultPort
      simp only [hL, hpd, hpfx_ne, ne_eq, not_false_eq_true, if_true, and_self,
        Bool.false_eq_true, false_or, ite_self, if_false]
    obtain ⟨_, hwith⟩ := hform
      { defaultCServer env with
        m_type := .DEFAULT, m_protocol := GetProtocolFromPrefix (GetProtocolInfo d.m_protocol).pfx }
    obtain ⟨hb, hparse, hhost⟩ := hwith d.m_port hport.1 hport.2
    rw [hstr, ParseUrl_scheme _ _ _ _ _ _ _ _ _ hreg, hparse]
    refine ⟨rfl, ?_⟩
    rw [← hstr]
    apply FormatServer_congr
    · exact hhost _
    · rfl
    · rfl
    · rw [ParseUrlAssign_logon_of_anonymous _ _ _ _ _ _ rfl hu_ne]; decide
    · exact hL
    · rw [ParseUrlAssign_protocol]; simp only [hknown, if_false]; exact r1
    · rw [ParseUrlAssign_protocol]; simp only [hknown, if_false]; exact r2
    · rw [ParseUrlAssign_protocol]; simp only [hknown, if_false]; exact r3

/-- C5, as amended, at an SFTP descriptor on port 2222: `FormatServer` gives
`sftp://user@example.com:2222`, which parses and formats to itself. -/
theorem FormatServer_parse_format_witness :
    FormatServer (mkCServerLogin (markerEnv true) .SFTP .DEFAULT "example.com".toList 2222
        "user".toList "pw".toList []) false = "sftp://user@example.com:2222".toList ∧
    (ParseUrlPortField (markerEnv true) (defaultCServer (markerEnv true))
        (FormatServer (mkCServerLogin (markerEnv true) .SFTP .DEFAULT "example.com".toList 2222
          "user".toList "pw".toList []) false) [] [] [] [] ⟨[]⟩).ret = true ∧
    FormatServer
      (ParseUrlPortField (markerEnv true) (defaultCServer (markerEnv true))
        (FormatServer (mkCServerLogin (markerEnv true) .SFTP .DEFAULT "example.com".toList 2222
          "user".toList "pw".toList []) false) [] [] [] [] ⟨[]⟩).self false
      = FormatServer (mkCServerLogin (markerEnv true) .SFTP .DEFAULT "example.com".toList 2222
          "user".toList "pw".toList []) false :=
  ⟨by decide,
   FormatServer_parse_format (markerEnv true)
     (mkCServerLogin (markerEnv true) .SFTP .DEFAULT "example.com".toList 2222
        "user".toList "pw".toList []) [] ⟨[]⟩
     (by decide) (by decide) (by decide) (by decide) (by decide) (by decide) (by decide)
     (by decide) (by decide) (by decide) (by decide) (by decide) (by decide) (by decide)
     (by decide)⟩

/-- C5, as stated, fails: the FTP descriptor with host `[x`, port 21, logon
type Normal and user `u` meets the conditions of the claim (port in range; host
non-empty without at sign, slash, scheme separator or white space; user
non-empty without colon, at sign, slash or white space), `FormatServer` gives
`u@[x`, and parsing that fails. -/
theorem FormatServer_parse_fails_on_bracket :
    (mkCServerLogin (markerEnv false) .FTP .DEFAULT "[x".toList 21 "u".toList "pw".toList
        []).m_logonType = .NORMAL ∧
    ('@' ∉ "[x".toList ∧ '/' ∉ "[x".toList ∧ FindStr "[x".toList schemeSeparator = -1 ∧
      ∀ c ∈ "[x".toList, wxSafeIsspace c = false) ∧
    (':' ∉ "u".toList ∧ '@' ∉ "u".toList ∧ '/' ∉ "u".toList ∧
      ∀ c ∈ "u".toList, wxSafeIsspace c = false) ∧
    FormatServer (mkCServerLogin (markerEnv false) .FTP .DEFAULT "[x".toList 21 "u".toList
        "pw".toList []) false = "u@[x".toList ∧
    (ParseUrlPortField (markerEnv false) (defaultCServer (markerEnv false))
        (FormatServer (mkCServerLogin (markerEnv false) .FTP .DEFAULT "[x".toList 21 "u".toList
          "pw".toList []) false) [] [] [] [] ⟨[]⟩).ret = false := by
  decide

/-- The round trip on an anonymous descriptor: `FormatServer` of the
default FTP descriptor for `example.com` is `example.com`; parsed back into a
default-constructed descriptor it formats as `anonymous@example.com`, the
logon type having become Normal. -/
theorem FormatServer_anonymous_roundtrip :
    FormatServer (mkCServer (markerEnv false) .FTP .DEFAULT "example.com".toList 21) false
      = "example.com".toList ∧
    FormatServer
      (ParseUrlPortField (markerEnv false) (defaultCServer (markerEnv false))
        (FormatServer (mkCServer (markerEnv false) .FTP .DEFAULT "example.com".toList 21) false)
        [] [] [] [] ⟨[]⟩).self false = "anonymous@example.com".toList := by
  decide

/-- The round trip on a descriptor of unknown protocol: with port 22 it
formats as `u@example.com:22` and, parsed back, as `sftp://u@example.com`. -/
theorem FormatServer_unknown_roundtrip :
    FormatServer (mkCServerLogin (markerEnv false) .UNKNOWN .DEFAULT "example.com".toList 22
        "u".toList [] []) false = "u@example.com:22".toList ∧
    FormatServer
      (ParseUrlPortField (markerEnv false) (defaultCServer (markerEnv false))
        (FormatServer (mkCServerLogin (markerEnv false) .UNKNOWN .DEFAULT "example.com".toList 22
          "u".toList [] []) false)
        [] [] [] [] ⟨[]⟩).self false = "sftp://u@example.com".toList := by
  decide

/-! ## The comparisons -/

theorem ite_false_eq_true_iff {c : Prop} [Decidable c] {x : Bool} :
    (if c then false else x) = true ↔ ¬ c ∧ x = true := by
  by_cases h : c <;> simp [h]

/-- The conditions under which `operator==` returns true, in the order the
code tests them. -/
theorem operatorEq_iff (env : Env) (a b : CServer) :
    operatorEq env a b = true ↔
      (a.m_protocol = b.m_protocol ∧ a.m_type = b.m_type ∧ a.m_host = b.m_host ∧
       a.m_port = b.m_port ∧ a.m_logonType = b.m_logonType ∧
       (a.m_logonType ≠ .ANONYMOUS → a.m_user = b.m_user) ∧
       (a.m_logonType = .NORMAL → GetPass env a true = b.m_pass) ∧
       (a.m_logonType = .ACCOUNT → GetPass env a true = b.m_pass) ∧
       (a.m_logonType = .ACCOUNT → a.m_account = b.m_account) ∧
       a.m_timezoneOffset = b.m_timezoneOffset ∧ a.m_pasvMode = b.m_pasvMode ∧
       a.m_encodingType = b.m_encodingType ∧
       (a.m_encodingType = .ENCODING_CUSTOM → a.m_customEncoding = b.m_customEncoding) ∧
       a.m_postLoginCommands = b.m_postLoginCommands ∧ a.m_bypassProxy = b.m_bypassProxy) := by
  unfold operatorEq
  simp only [ite_false_eq_true_iff, not_and, not_not, and_true, ne_eq]

/-- The conditions under which `EqualsNoPass` returns true, in the order the
code tests them. -/
theorem EqualsNoPass_iff (a b : CServer) :
    EqualsNoPass a b = true ↔
      (a.m_protocol = b.m_protocol ∧ a.m_type = b.m_type ∧ a.m_host = b.m_host ∧
       a.m_port = b.m_port ∧
       (a.m_logonType = .ANONYMOUS ↔ b.m_logonType = .ANONYMOUS) ∧
       (a.m_logonType = .ACCOUNT ↔ b.m_logonType = .ACCOUNT) ∧
       (a.m_logonType ≠ .ANONYMOUS → a.m_user = b.m_user) ∧
       (a.m_logonType ≠ .ANONYMOUS → a.m_logonType = .ACCOUNT → a.m_account = b.m_account) ∧
       a.m_timezoneOffset = b.m_timezoneOffset ∧ a.m_pasvMode = b.m_pasvMode ∧
       a.m_encodingType = b.m_encodingType ∧
       (a.m_encodingType = .ENCODING_CUSTOM → a.m_customEncoding = b.m_customEncoding) ∧
       a.m_postLoginCommands = b.m_postLoginCommands ∧ a.m_bypassProxy = b.m_bypassProxy) := by
  unfold EqualsNoPass
  simp only [ite_false_eq_true_iff, not_and, not_not, and_true, ne_eq, decide_eq_decide]


/-- C6 at its failing input: with encryption enabled and a codec whose
encoding differs from the plain text, a descriptor of logon type Normal is not
equal to itself, although its password decodes to what was set. -/
theorem operatorEq_not_reflexive :
    GetPass (markerEnv true)
        (mkCServerLogin (markerEnv true) .FTP .DEFAULT "example.com".toList 21 "u".toList
          "pw".toList []) true = "pw".toList ∧
    operatorEq (markerEnv true)
        (mkCServerLogin (markerEnv true) .FTP .DEFAULT "example.com".toList 21 "u".toList
          "pw".toList [])
        (mkCServerLogin (markerEnv true) .FTP .DEFAULT "example.com".toList 21 "u".toList
          "pw".toList []) = false := by
  decide

/-- With encryption disabled `GetPass` returns the stored password of a
descriptor that is not anonymous. -/
theorem GetPass_plain (env : Env) (a : CServer) (henc : env.encryptPasswords = false)
    (hl : a.m_logonType ≠ .ANONYMOUS) : GetPass env a true = a.m_pass := by
  unfold GetPass
  simp [henc, hl]

/-- With encryption disabled `operator==` is reflexive, symmetric and
transitive. -/
theorem operatorEq_equivalence_plain (env : Env) (henc : env.encryptPasswords = false) :
    (∀ a, operatorEq env a a = true) ∧
    (∀ a b, operatorEq env a b = true → operatorEq env b a = true) ∧
    (∀ a b c, operatorEq env a b = true → operatorEq env b c = true →
      operatorEq env a c = true) := by
  have hN : ∀ a : CServer, a.m_logonType = .NORMAL → GetPass env a true = a.m_pass :=
    fun a h => GetPass_plain env a henc (by rw [h]; decide)
  have hA : ∀ a : CServer, a.m_logonType = .ACCOUNT → GetPass env a true = a.m_pass :=
    fun a h => GetPass_plain env a henc (by rw [h]; decide)
  refine ⟨?_, ?_, ?_⟩
  · intro a
    rw [operatorEq_iff]
    exact ⟨rfl, rfl, rfl, rfl, rfl, fun _ => rfl, hN a, hA a, fun _ => rfl, rfl, rfl, rfl,
      fun _ => rfl, rfl, rfl⟩
  · intro a b h
    rw [operatorEq_iff] at h ⊢
    obtain ⟨h1, h2, h3, h4, h5, h6, h7, h8, h9, h10, h11, h12, h13, h14, h15⟩ := h
    refine ⟨h1.symm, h2.symm, h3.symm, h4.symm, h5.symm, ?_, ?_, ?_, ?_, h10.symm, h11.symm,
      h12.symm, ?_, h14.symm, h15.symm⟩
    · intro hb; exact (h6 (by rw [h5]; exact hb)).symm
    · intro hb
      have ha : a.m_logonType = .NORMAL := by rw [h5]; exact hb
      rw [hN b hb, ← h7 ha, hN a ha]
    · intro hb
      have ha : a.m_logonType = .ACCOUNT := by rw [h5]; exact hb
      rw [hA b hb, ← h8 ha, hA a ha]
    · intro hb; exact (h9 (by rw [h5]; exact hb)).symm
    · intro hb; exact (h13 (by rw [h12]; exact hb)).symm
  · intro a b c hab hbc
    rw [operatorEq_iff] at hab hbc ⊢
    obtain ⟨h1, h2, h3, h4, h5, h6, h7, h8, h9, h10, h11, h12, h13, h14, h15⟩ := hab
    obtain ⟨k1, k2, k3, k4, k5, k6, k7, k8, k9, k10, k11, k12, k13, k14, k15⟩ := hbc
    refine ⟨h1.trans k1, h2.trans k2, h3.trans k3, h4.trans k4, h5.trans k5, ?_, ?_, ?_, ?_,
      h10.trans k10, h11.trans k11, h12.trans k12, ?_, h14.trans k14, h15.trans k15⟩
    · intro ha; exact (h6 ha).trans (k6 (by rw [← h5]; exact ha))
    · intro ha
      have hb : b.m_logonType = .NORMAL := by rw [← h5]; exact ha
      rw [h7 ha, ← hN b hb, k7 hb]
    · intro ha
      have hb : b.m_logonType = .ACCOUNT := by rw [← h5]; exact ha
      rw [h8 ha, ← hA b hb, k8 hb]
    · intro ha; exact (h9 ha).trans (k9 (by rw [← h5]; exact ha))
    · intro ha; exact (h13 ha).trans (k13 (by rw [← h12]; exact ha))


/-- C7 at its failing input: two FTP descriptors that differ only in their
post-login commands are not `==`, and neither is `<` the other. -/
theorem operatorLt_not_total :
    (SetPostLoginCommands (mkCServer (markerEnv false) .FTP .DEFAULT "example.com".toList 21)
        ["SITE UMASK 022".toList]).1 = true ∧
    operatorEq (markerEnv false)
        (SetPostLoginCommands (mkCServer (markerEnv false) .FTP .DEFAULT "example.com".toList 21)
          ["SITE UMASK 022".toList]).2
        (mkCServer (markerEnv false) .FTP .DEFAULT "example.com".toList 21) = false ∧
    operatorLt (markerEnv false)
        (SetPostLoginCommands (mkCServer (markerEnv false) .FTP .DEFAULT "example.com".toList 21)
          ["SITE UMASK 022".toList]).2
        (mkCServer (markerEnv false) .FTP .DEFAULT "example.com".toList 21) = false ∧
    operatorLt (markerEnv false)
        (mkCServer (markerEnv false) .FTP .DEFAULT "example.com".toList 21)
        (SetPostLoginCommands (mkCServer (markerEnv false) .FTP .DEFAULT "example.com".toList 21)
          ["SITE UMASK 022".toList]).2 = false := by
  decide


/-- C8: whenever `a == b` holds, `a.EqualsNoPass(b)` holds, for every codec
and either state of the encryption flag; and `EqualsNoPass` does not read the
stored password: putting any other values in place of the stored passwords of
`a` and `b` leaves its result the same. -/
theorem EqualsNoPass_of_eq_and_pass_blind (env : Env) (a b : CServer) :
    (operatorEq env a b = true → EqualsNoPass a b = true) ∧
    (∀ p q : wxString,
      EqualsNoPass { a with m_pass := p } { b with m_pass := q } = EqualsNoPass a b) := by
  constructor
  · intro h
    rw [operatorEq_iff] at h
    rw [EqualsNoPass_iff]
    obtain ⟨h1, h2, h3, h4, h5, h6, _, _, h9, h10, h11, h12, h13, h14, h15⟩ := h
    exact ⟨h1, h2, h3, h4, by rw [h5], by rw [h5], h6, fun _ => h9, h10, h11, h12, h13, h14,
      h15⟩
  · intro p q
    unfold EqualsNoPass
    rfl

/-- C8 at two equal FTP descriptors of logon type Normal: they are `==`, hence
equal without password. -/
theorem EqualsNoPass_of_eq_and_pass_blind_witness :
    operatorEq (markerEnv false)
        (mkCServerLogin (markerEnv false) .FTP .DEFAULT "example.com".toList 21 "u".toList
          "pw".toList [])
        (mkCServerLogin (markerEnv false) .FTP .DEFAULT "example.com".toList 21 "u".toList
          "pw".toList []) = true ∧
    EqualsNoPass
        (mkCServerLogin (markerEnv false) .FTP .DEFAULT "example.com".toList 21 "u".toList
          "pw".toList [])
        (mkCServerLogin (markerEnv false) .FTP .DEFAULT "example.com".toList 21 "u".toList
          "pw".toList []) = true :=
  ⟨by decide,
   (EqualsNoPass_of_eq_and_pass_blind (markerEnv false)
      (mkCServerLogin (markerEnv false) .FTP .DEFAULT "example.com".toList 21 "u".toList
        "pw".toList [])
      (mkCServerLogin (markerEnv false) .FTP .DEFAULT "example.com".toList 21 "u".toList
        "pw".toList [])).1 (by decide)⟩


/-! ## Changing the protocol -/

/-- C9 at its failing input: an FTP descriptor with one post-login command
keeps it through `SetProtocol(HTTP)`, a protocol for which
`SetPostLoginCommands` refuses to store any. -/
theorem SetProtocol_http_keeps_commands :
    (SetPostLoginCommands (mkCServer (markerEnv false) .FTP .DEFAULT "example.com".toList 21)
        ["SITE UMASK 022".toList]).1 = true ∧
    (SetProtocol
        (SetPostLoginCommands (mkCServer (markerEnv false) .FTP .DEFAULT "example.com".toList 21)
          ["SITE UMASK 022".toList]).2 .HTTP).m_postLoginCommands
      = ["SITE UMASK 022".toList] ∧
    (SetPostLoginCommands
        (SetProtocol
          (SetPostLoginCommands
            (mkCServer (markerEnv false) .FTP .DEFAULT "example.com".toList 21)
            ["SITE UMASK 022".toList]).2 .HTTP)
        ["SITE UMASK 022".toList]).1 = false := by
  decide

/-- What `SetProtocol` does to the post-login commands: they are emptied
exactly for the protocols the registry marks as not supporting them, SFTP and
UNKNOWN, and kept for every other protocol; no call adds any. -/
theorem SetProtocol_commands (self : CServer) (p : ServerProtocol) :
    (SetProtocol self p).m_postLoginCommands =
      if p = .SFTP ∨ p = .UNKNOWN then [] else self.m_postLoginCommands := by
  cases p <;> rfl

/-! ## Failure of a parse -/

/-- C10, as amended: when `ParseUrl` returns failure, the descriptor is the
caller's except for two members: the server type has been reset to DEFAULT and,
if the host string contains the scheme separator, the protocol has been
replaced by the lookup of the scheme (UNKNOWN for an unregistered one). Host,
port, logon type, user, stored password, account and the option members are
as before the call. -/
theorem ParseUrl_failure_frame (env : Env) (self : CServer) (host : wxString) (port : Nat)
    (user pass error : wxString) (path : CServerPath)
    (hfail : (ParseUrl env self host port user pass error path).ret = false) :
    (ParseUrl env self host port user pass error path).self =
      { self with m_type := .DEFAULT, m_protocol := protocolAfterScheme self host } := by
  rcases ParseUrl_outcome env self host port user pass error path with ⟨_, h⟩ | ⟨_, _, _, _, _, _, _, h, _⟩
  · exact h
  · rw [h] at hfail; exact absurd hfail (by decide)

/-- C10, as amended, at `gopher://example.com` parsed into an SFTP descriptor of
server type UNIX: the parse fails; the descriptor keeps every member except
the server type, now DEFAULT, and the protocol, now UNKNOWN. -/
theorem ParseUrl_failure_frame_witness :
    (ParseUrl (markerEnv false)
        (mkCServerLogin (markerEnv false) .SFTP .UNIX "example.org".toList 22 "u".toList
          "pw".toList [])
        "gopher://example.com".toList 0 [] [] [] ⟨[]⟩).ret = false ∧
    (ParseUrl (markerEnv false)
        (mkCServerLogin (markerEnv false) .SFTP .UNIX "example.org".toList 22 "u".toList
          "pw".toList [])
        "gopher://example.com".toList 0 [] [] [] ⟨[]⟩).self =
      { mkCServerLogin (markerEnv false) .SFTP .UNIX "example.org".toList 22 "u".toList
          "pw".toList [] with m_type := .DEFAULT, m_protocol := .UNKNOWN } :=
  ⟨by decide,
   ParseUrl_failure_frame (markerEnv false)
     (mkCServerLogin (markerEnv false) .SFTP .UNIX "example.org".toList 22 "u".toList
        "pw".toList [])
     "gopher://example.com".toList 0 [] [] [] ⟨[]⟩ (by decide)⟩

/-- C10, as stated, fails: parsing the empty string into a descriptor of
server type UNIX returns failure and leaves the server type DEFAULT; parsing
`gopher://example.com` into an SFTP descriptor returns failure and leaves the
protocol UNKNOWN. -/
theorem ParseUrl_failure_not_atomic :
    (ParseUrl (markerEnv false) (SetType (defaultCServer (markerEnv false)) .UNIX)
        [] 0 [] [] [] ⟨[]⟩).ret = false ∧
    (SetType (defaultCServer (markerEnv false)) .UNIX).m_type = .UNIX ∧
    (ParseUrl (markerEnv false) (SetType (defaultCServer (markerEnv false)) .UNIX)
        [] 0 [] [] [] ⟨[]⟩).self.m_type = .DEFAULT ∧
    (ParseUrl (markerEnv false)
        (mkCServer (markerEnv false) .SFTP .DEFAULT "example.org".toList 22)
        "gopher://example.com".toList 0 [] [] [] ⟨[]⟩).ret = false ∧
    (ParseUrl (markerEnv false)
        (mkCServer (markerEnv false) .SFTP .DEFAULT "example.org".toList 22)
        "gopher://example.com".toList 0 [] [] [] ⟨[]⟩).self.m_protocol = .UNKNOWN := by
  decide

/-- The string-port overload on failure: either the port field was refused
and the descriptor is untouched, or the numeric overload failed and left the
descriptor as `ParseUrl_outcome` says. -/
theorem ParseUrlPortField_failure (env : Env) (self : CServer)
    (host port user pass error : wxString) (path : CServerPath)
    (hfail : (ParseUrlPortField env self host port user pass error path).ret = false) :
    (ParseUrlPortField env self host port user pass error path).self = self ∨
    (ParseUrlPortField env self host port user pass error path).self =
      { self with m_type := .DEFAULT, m_protocol := protocolAfterScheme self host } := by
  have key : ∀ n, (ParseUrl env self host n user pass error path).ret = false →
      (ParseUrl env self host n user pass error path).self =
        { self with m_type := .DEFAULT, m_protocol := protocolAfterScheme self host } := by
    intro n hf
    rcases ParseUrl_outcome env self host n user pass error path with
      ⟨_, h⟩ | ⟨_, _, _, _, _, _, _, h, _⟩
    · exact h
    · rw [h] at hf; exact absurd hf (by decide)
  unfold ParseUrlPortField at hfail ⊢
  by_cases h1 : port ≠ []
  · rw [if_pos h1] at hfail ⊢
    by_cases h2 : port.length > 5
    · rw [if_pos h2]; exact Or.inl rfl
    · rw [if_neg h2] at hfail ⊢
      cases hu : ToULong env.localeSpace port with
      | none => exact Or.inl rfl
      | some n =>
        rw [hu] at hfail
        simp only [] at hfail ⊢
        by_cases h3 : n = 0 ∨ n > 65535
        · rw [if_pos h3]; exact Or.inl rfl
        · rw [if_neg h3] at hfail ⊢
          exact Or.inr (key n hfail)
  · rw [if_neg h1] at hfail ⊢
    exact Or.inr (key 0 hfail)

/-! ## The boundary between credentials and host -/

/-- C11 at its failing input: in `example.com/dir/file@2x` a slash comes before
the only at sign, yet the parse takes `example.com/dir/file` as the user and
`2x` as the host, and sets no path; the caller's user is not the one stored. -/
theorem ParseUrl_slash_before_at :
    Find "example.com/dir/file@2x".toList '/' = 11 ∧
    Find "example.com/dir/file@2x".toList '@' = 20 ∧
    (ParseUrl (markerEnv false) (defaultCServer (markerEnv false))
        "example.com/dir/file@2x".toList 0 "caller".toList "secret".toList [] ⟨[]⟩).ret = true ∧
    (ParseUrl (markerEnv false) (defaultCServer (markerEnv false))
        "example.com/dir/file@2x".toList 0 "caller".toList "secret".toList [] ⟨[]⟩).self.m_user
      = "example.com/dir/file".toList ∧
    (ParseUrl (markerEnv false) (defaultCServer (markerEnv false))
        "example.com/dir/file@2x".toList 0 "caller".toList "secret".toList [] ⟨[]⟩).self.m_host
      = "2x".toList ∧
    (ParseUrl (markerEnv false) (defaultCServer (markerEnv false))
        "example.com/dir/file@2x".toList 0 "caller".toList "secret".toList [] ⟨[]⟩).path
      = ⟨[]⟩ := by
  decide


/-- C12: let the text after the scheme be `cred@rest`, where `cred` has no
slash and `rest` has no at sign up to its first slash (or no slash and no at
sign at all), so that the at sign between them is the last one before the
first slash. Then the credentials are `cred`: if `cred` is `u:pw` with no colon
in `u`, the user is `u` trimmed and the password `pw`, which may hold at signs
and colons; if `cred` has no colon, the user is `cred` trimmed and the
password the caller's. The parse goes on with `rest` as `host[:port]/path`,
or fails with the invalid-username error when the trimmed user is empty. -/
theorem ParseUrlCredentials_last_at (env : Env) (self : CServer) (cred hp q : wxString)
    (port : Nat) (user pass error : wxString) (path : CServerPath)
    (hcred : '/' ∉ cred) (hat : '@' ∉ hp) (hsl : '/' ∉ hp)
    (hq : q = [] ∨ q.head? = some '/') :
    (∀ u pw, cred = u ++ ":".toList ++ pw → ':' ∉ u →
      ParseUrlCredentials env self (cred ++ "@".toList ++ hp ++ q) port user pass error path =
        if Trim (Trim u true) false = [] then ⟨false, self, errInvalidUsername, path⟩
        else ParseUrlPath env self (hp ++ q) port (Trim (Trim u true) false) pw error path) ∧
    (':' ∉ cred →
      ParseUrlCredentials env self (cred ++ "@".toList ++ hp ++ q) port user pass error path =
        if Trim (Trim cred true) false = [] then ⟨false, self, errInvalidUsername, path⟩
        else ParseUrlPath env self (hp ++ q) port (Trim (Trim cred true) false) pass error
          path) := by
  have hq' : q = [] ∨ ∃ q', q = '/' :: q' := by
    rcases hq with h | h
    · exact Or.inl h
    · right
      cases q with
      | nil => simp at h
      | cons c t => simp at h; exact ⟨t, by rw [h]⟩
  have e : cred ++ "@".toList ++ hp ++ q = cred ++ '@' :: (hp ++ q) := by simp
  have key := ParseUrlCredentials_embedded env self cred hp q port user pass error path hcred hat
    hsl hq'
  constructor
  · intro u pw hc hu
    have hf : Find cred ':' = u.length := by
      rw [hc]
      have : u ++ ":".toList ++ pw = u ++ ':' :: pw := by simp
      rw [this]; exact Find_append_cons _ hu
    have hne : ¬ ((u.length : Int) = -1) := by omega
    have hl : Left cred (u.length : Int) = u := by
      rw [hc]
      have : u ++ ":".toList ++ pw = u ++ ':' :: pw := by simp
      rw [this]; exact Left_append_length _ _
    have hm : Mid cred ((u.length : Int) + 1) = pw := by
      rw [hc]
      have := Mid_append_length_add u (':' :: pw) 1
      simpa using this
    rw [e, key]
    simp only [hf, ne_eq, hne, not_false_eq_true, if_true, hl, hm]
  · intro hc
    rw [e, key]
    simp only [Find_of_not_mem hc, ne_eq, not_true_eq_false, if_false]

/-- C12 at `user:p@ss@host:21/x`: the credentials are `user:p@ss`, the parse goes
on with `host:21/x`, user `user` and password `p@ss`; the whole parse stores
user `user`, password `p@ss`, host `host` and port 21. -/
theorem ParseUrlCredentials_last_at_witness :
    ParseUrlCredentials (markerEnv false) (defaultCServer (markerEnv false))
        "user:p@ss@host:21/x".toList 0 [] [] [] ⟨[]⟩ =
      ParseUrlPath (markerEnv false) (defaultCServer (markerEnv false))
        "host:21/x".toList 0 "user".toList "p@ss".toList [] ⟨[]⟩ ∧
    (ParseUrl (markerEnv false) (defaultCServer (markerEnv false))
        "user:p@ss@host:21/x".toList 0 [] [] [] ⟨[]⟩).ret = true ∧
    GetUser (ParseUrl (markerEnv false) (defaultCServer (markerEnv false))
        "user:p@ss@host:21/x".toList 0 [] [] [] ⟨[]⟩).self = "user".toList ∧
    GetPass (markerEnv false) (ParseUrl (markerEnv false) (defaultCServer (markerEnv false))
        "user:p@ss@host:21/x".toList 0 [] [] [] ⟨[]⟩).self true = "p@ss".toList ∧
    (ParseUrl (markerEnv false) (defaultCServer (markerEnv false))
        "user:p@ss@host:21/x".toList 0 [] [] [] ⟨[]⟩).self.m_host = "host".toList ∧
    (ParseUrl (markerEnv false) (defaultCServer (markerEnv false))
        "user:p@ss@host:21/x".toList 0 [] [] [] ⟨[]⟩).self.m_port = 21 :=
  ⟨((ParseUrlCredentials_last_at (markerEnv false) (defaultCServer (markerEnv false))
      "user:p@ss".toList "host:21".toList "/x".toList 0 [] [] [] ⟨[]⟩
      (by decide) (by decide) (by decide) (by decide)).1 "user".toList "p@ss".toList
      (by decide) (by decide)),
   by decide, by decide, by decide, by decide, by decide⟩

/-! ## The port a successful parse stores -/

/-- Every successful parse through the string-port overload stores a port
between 1 and 65535. -/
theorem ParseUrlPortField_port_range (env : Env) (self : CServer)
    (host portField user pass error : wxString) (path : CServerPath)
    (hok : (ParseUrlPortField env self host portField user pass error path).ret = true) :
    1 ≤ (ParseUrlPortField env self host portField user pass error path).self.m_port ∧
    (ParseUrlPortField env self host portField user pass error path).self.m_port ≤ 65535 := by
  have key : ∀ port, (ParseUrl env self host port user pass error path).ret = true →
      1 ≤ (ParseUrl env self host port user pass error path).self.m_port ∧
      (ParseUrl env self host port user pass error path).self.m_port ≤ 65535 := by
    intro port hp
    rcases ParseUrl_outcome env self host port user pass error path with
      ⟨h, _⟩ | ⟨_, p, _, _, _, hp2, _, _, hs⟩
    · rw [h] at hp; exact absurd hp Bool.false_ne_true
    · rw [hs]; exact hp2
  unfold ParseUrlPortField at hok ⊢
  by_cases h1 : portField ≠ []
  · rw [if_pos h1] at hok ⊢
    by_cases h2 : portField.length > 5
    · rw [if_pos h2] at hok; exact absurd hok Bool.false_ne_true
    · rw [if_neg h2] at hok ⊢
      cases hu : ToULong env.localeSpace portField with
      | none => rw [hu] at hok; exact absurd hok Bool.false_ne_true
      | some n =>
        rw [hu] at hok
        simp only [] at hok ⊢
        by_cases h3 : n = 0 ∨ n > 65535
        · rw [if_pos h3] at hok; exact absurd hok Bool.false_ne_true
        · rw [if_neg h3] at hok ⊢
          exact key n hok
  · rw [if_neg h1] at hok ⊢
    exact key 0 hok

/-- C13 at its failing input: `sftp://example.com:2222/dir/file@2x` with port
field `990` parses successfully into a default-constructed descriptor and
stores port 990, not the 2222 the string carries in front of its path: the
text in front of the at sign is taken as user `example.com` with password
`2222/dir/file`, and `2x` as the host. With an empty port field the same
string stores 22, the default port of the scheme. -/
theorem ParseUrlPortField_port_lost_behind_path :
    (ParseUrlPortField (markerEnv false) (defaultCServer (markerEnv false))
        "sftp://example.com:2222/dir/file@2x".toList "990".toList [] [] [] ⟨[]⟩).ret = true ∧
    (ParseUrlPortField (markerEnv false) (defaultCServer (markerEnv false))
        "sftp://example.com:2222/dir/file@2x".toList "990".toList [] [] [] ⟨[]⟩).self.m_port
      = 990 ∧
    (ParseUrlPortField (markerEnv false) (defaultCServer (markerEnv false))
        "sftp://example.com:2222/dir/file@2x".toList "990".toList [] [] [] ⟨[]⟩).self.m_host
      = "2x".toList ∧
    (ParseUrlPortField (markerEnv false) (defaultCServer (markerEnv false))
        "sftp://example.com:2222/dir/file@2x".toList "990".toList [] [] [] ⟨[]⟩).self.m_user
      = "example.com".toList ∧
    (ParseUrlPortField (markerEnv false) (defaultCServer (markerEnv false))
        "sftp://example.com:2222/dir/file@2x".toList "990".toList [] [] [] ⟨[]⟩).self.m_pass
      = "2222/dir/file".toList ∧
    (ParseUrlPortField (markerEnv false) (defaultCServer (markerEnv false))
        "sftp://example.com:2222/dir/file@2x".toList [] [] [] [] ⟨[]⟩).ret = true ∧
    (ParseUrlPortField (markerEnv false) (defaultCServer (markerEnv false))
        "sftp://example.com:2222/dir/file@2x".toList [] [] [] [] ⟨[]⟩).self.m_port = 22 := by
  decide

/-! ## A port suffix that is not a port -/

/-- A host that does not start with a bracket, followed by a colon and text
that `ToLong` does not read as a number between 1 and 65535. -/
theorem ParseUrlHost_bad_port (env : Env) (self : CServer) (h s : wxString)
    (port : Nat) (user pass error : wxString) (path : CServerPath)
    (hne : h ≠ []) (hbr : charAt h 0 ≠ '[') (hcol : ':' ∉ h)
    (hbad : ∀ v, ToLong env.localeSpace s = some v → v < 1 ∨ v > 65535) :
    ParseUrlHost env self (h ++ ':' :: s) port user pass error path =
      ⟨false, self, errInvalidPort, path⟩ := by
  have h0 : charAt (h ++ ':' :: s) 0 ≠ '[' := by
    cases h with
    | nil => exact absurd rfl hne
    | cons c t => simpa [charAt] using hbr
  have h1 : Find (h ++ ':' :: s) ':' = h.length := Find_append_cons _ hcol
  have hl : 0 < h.length := List.length_pos.mpr hne
  have h2 : ¬ ((h.length : Int) = -1) := by omega
  have h3 : ¬ ((h.length : Int) = 0) := by omega
  have h4 : Mid (h ++ ':' :: s) ((h.length : Int) + 1) = s := by
    have := Mid_append_length_add h (':' :: s) 1
    simpa using this
  unfold ParseUrlHost
  rw [if_neg h0, h1]
  unfold ParseUrlPort
  rw [if_pos h2, if_neg h3, h4]
  cases hl : ToLong env.localeSpace s with
  | none => rfl
  | some v =>
    simp only []
    rw [if_pos (hbad v hl)]

/-- A string is its text in front of the first slash, followed by nothing or
by a slash and the rest. -/
theorem takeWhile_slash (s : wxString) :
    '/' ∉ s.takeWhile (fun c => c != '/') ∧
    (s = s.takeWhile (fun c => c != '/') ∨
      ∃ q, s = s.takeWhile (fun c => c != '/') ++ '/' :: q) := by
  constructor
  · intro hm
    have := List.mem_takeWhile_imp hm
    simp at this
  · have hsplit := List.takeWhile_append_dropWhile (fun c => c != '/') s
    cases hd : s.dropWhile (fun c => c != '/') with
    | nil =>
      left
      rw [hd, List.append_nil] at hsplit
      exact hsplit.symm
    | cons c q =>
      right
      have hc : (c != '/') = false := by
        have := List.head_dropWhile_not (fun c => c != '/') s (by rw [hd]; simp)
        simpa [hd] using this
      have hc2 : c = '/' := by simpa using hc
      refine ⟨q, ?_⟩
      rw [hd, hc2] at hsplit
      exact hsplit.symm

/-- C14, as amended: for every non-empty host `h` without colon, slash, at sign
or opening bracket, and every text `s` without at sign such that `h:s` holds
no `://`, when `ToLong` does not read the port text, which is `s` up to its
first slash, as a number between 1 and 65535 (the text is empty, not a
number, 0, negative, or above 65535), parsing `h:s` fails with the
invalid-port error, whatever the descriptor, the locale, the port argument,
the user and the password. Through the string-port overload the parse fails
as well, with the same error or, when the port field is itself refused, with
the invalid-port error of the port field. -/
theorem ParseUrl_bad_port_suffix (env : Env) (self : CServer) (h s : wxString)
    (port : Nat) (user pass error : wxString) (path : CServerPath)
    (hne : h ≠ []) (hcol : ':' ∉ h) (hsl : '/' ∉ h) (hat : '@' ∉ h) (hbr : '[' ∉ h)
    (hs_at : '@' ∉ s) (hsep : FindStr (h ++ ":".toList ++ s) schemeSeparator = -1)
    (hbad : ∀ v, ToLong env.localeSpace (s.takeWhile (fun c => c != '/')) = some v →
      v < 1 ∨ v > 65535) :
    ((ParseUrl env self (h ++ ":".toList ++ s) port user pass error path).ret = false ∧
      (ParseUrl env self (h ++ ":".toList ++ s) port user pass error path).error
        = errInvalidPort) ∧
    ∀ portField : wxString,
      (ParseUrlPortField env self (h ++ ":".toList ++ s) portField user pass error
        path).ret = false ∧
      ((ParseUrlPortField env self (h ++ ":".toList ++ s) portField user pass error
          path).error = errInvalidPort ∨
        (ParseUrlPortField env self (h ++ ":".toList ++ s) portField user pass error
          path).error = errInvalidPortField) := by
  have main : ∀ port : Nat,
      (ParseUrl env self (h ++ ":".toList ++ s) port user pass error path).ret = false ∧
      (ParseUrl env self (h ++ ":".toList ++ s) port user pass error path).error
        = errInvalidPort := by
    intro port
    have e : h ++ ":".toList ++ s = h ++ ':' :: s := by simp
    have hnoat : '@' ∉ h ++ ':' :: s := by simp [hat, hs_at]
    have hb0 : charAt h 0 ≠ '[' := charAt_zero_ne_of_not_mem hbr (by decide)
    rw [e] at hsep ⊢
    rw [ParseUrl_noscheme _ _ _ _ _ _ _ _ (by simp) hsep]
    obtain ⟨u, pw, hc⟩ := ParseUrlCredentials_plain_exists env
      { self with m_type := .DEFAULT } (h ++ ':' :: s) port user pass error path hnoat
    rw [hc]
    obtain ⟨ht, hs | ⟨q, hs⟩⟩ := takeWhile_slash s
    · rw [← hs] at ht hbad
      have hnosl : '/' ∉ h ++ ':' :: s := by simp [hsl, ht]
      rw [ParseUrlPath_noslash _ _ _ _ _ _ _ _ hnosl,
        ParseUrlHost_bad_port _ _ _ _ _ _ _ _ _ hne hb0 hcol hbad]
      exact ⟨rfl, rfl⟩
    · have hnosl : '/' ∉ h ++ ':' :: s.takeWhile (fun c => c != '/') := by
        simp [hsl, ht]
      have e2 : h ++ ':' :: s
          = (h ++ ':' :: s.takeWhile (fun c => c != '/')) ++ '/' :: q := by
        rw [List.append_assoc, List.cons_append, ← hs]
      rw [e2, ParseUrlPath_slash _ _ _ _ _ _ _ _ _ hnosl,
        ParseUrlHost_bad_port _ _ _ _ _ _ _ _ _ hne hb0 hcol hbad]
      exact ⟨rfl, rfl⟩
  refine ⟨main port, fun portField => ?_⟩
  unfold ParseUrlPortField
  by_cases h1 : portField ≠ []
  · rw [if_pos h1]
    by_cases h2 : portField.length > 5
    · rw [if_pos h2]; exact ⟨rfl, Or.inr rfl⟩
    · rw [if_neg h2]
      cases hu : ToULong env.localeSpace portField with
      | none => exact ⟨rfl, Or.inr rfl⟩
      | some n =>
        simp only []
        by_cases h3 : n = 0 ∨ n > 65535
        · rw [if_pos h3]; exact ⟨rfl, Or.inr rfl⟩
        · rw [if_neg h3]; exact ⟨(main n).1, Or.inl (main n).2⟩
  · rw [if_neg h1]; exact ⟨(main 0).1, Or.inl (main 0).2⟩

/-- C14, as amended, at `host:99999` and at `host:99999/pub`: both parses fail
with the invalid-port error, here with 2121 as the port argument and, through
the string-port overload, with `2121` as the port field. -/
theorem ParseUrl_bad_port_suffix_witness :
    ((ParseUrl (markerEnv false) (defaultCServer (markerEnv false)) "host:99999".toList 2121
        [] [] [] ⟨[]⟩).ret = false ∧
      (ParseUrl (markerEnv false) (defaultCServer (markerEnv false)) "host:99999".toList 2121
        [] [] [] ⟨[]⟩).error = errInvalidPort) ∧
    ((ParseUrl (markerEnv false) (defaultCServer (markerEnv false)) "host:99999/pub".toList
        2121 [] [] [] ⟨[]⟩).ret = false ∧
      (ParseUrl (markerEnv false) (defaultCServer (markerEnv false)) "host:99999/pub".toList
        2121 [] [] [] ⟨[]⟩).error = errInvalidPort) ∧
    (ParseUrlPortField (markerEnv false) (defaultCServer (markerEnv false))
        "host:99999/pub".toList "2121".toList [] [] [] ⟨[]⟩).ret = false ∧
    (ParseUrlPortField (markerEnv false) (defaultCServer (markerEnv false))
        "host:99999/pub".toList "2121".toList [] [] [] ⟨[]⟩).error = errInvalidPort :=
  ⟨(ParseUrl_bad_port_suffix (markerEnv false) (defaultCServer (markerEnv false))
      "host".toList "99999".toList 2121 [] [] [] ⟨[]⟩ (by decide) (by decide) (by decide)
      (by decide) (by decide) (by decide) (by decide)
      (by
        intro v hv
        have h2 : ToLong (markerEnv false).localeSpace
            ("99999".toList.takeWhile (fun c => c != '/')) = some (99999 : Int) := by decide
        rw [h2] at hv
        have : v = 99999 := (Option.some.inj hv).symm
        omega)).1,
   (ParseUrl_bad_port_suffix (markerEnv false) (defaultCServer (markerEnv false))
      "host".toList "99999/pub".toList 2121 [] [] [] ⟨[]⟩ (by decide) (by decide) (by decide)
      (by decide) (by decide) (by decide) (by decide)
      (by
        intro v hv
        have h2 : ToLong (markerEnv false).localeSpace
            ("99999/pub".toList.takeWhile (fun c => c != '/')) = some (99999 : Int) := by
          decide
        rw [h2] at hv
        have : v = 99999 := (Option.some.inj hv).symm
        omega)).1,
   by decide, by decide⟩

/-- C14, as stated, fails: `ftp` and `host` are non-empty hosts without colon,
slash, at sign or bracket, and none of `//example.com`, `pw@example.com`,
`21/pub` and `+21` is a decimal number, and yet `ftp://example.com` parses
successfully as a scheme and a host, `host:pw@example.com` as user `host`
with password `pw` at `example.com`, `host:21/pub` as host and port 21 with
a path, and `host:+21` as host and port 21. Under a locale that counts
U+2003 as white space, `host:` followed by U+2003 and `21` parses with port
21 as well. -/
theorem ParseUrl_non_numeric_suffix_succeeds :
    ToLong (markerEnv false).localeSpace "//example.com".toList = none ∧
    (ParseUrl (markerEnv false) (defaultCServer (markerEnv false)) "ftp://example.com".toList 0
        [] [] [] ⟨[]⟩).ret = true ∧
    ToLong (markerEnv false).localeSpace "pw@example.com".toList = none ∧
    (ParseUrl (markerEnv false) (defaultCServer (markerEnv false))
        "host:pw@example.com".toList 0 [] [] [] ⟨[]⟩).ret = true ∧
    (ParseUrl (markerEnv false) (defaultCServer (markerEnv false))
        "host:pw@example.com".toList 0 [] [] [] ⟨[]⟩).self.m_user = "host".toList ∧
    (ParseUrl (markerEnv false) (defaultCServer (markerEnv false))
        "host:pw@example.com".toList 0 [] [] [] ⟨[]⟩).self.m_host = "example.com".toList ∧
    ToLong (markerEnv false).localeSpace "21/pub".toList = none ∧
    (ParseUrl (markerEnv false) (defaultCServer (markerEnv false))
        "host:21/pub".toList 0 [] [] [] ⟨[]⟩).ret = true ∧
    (ParseUrl (markerEnv false) (defaultCServer (markerEnv false))
        "host:21/pub".toList 0 [] [] [] ⟨[]⟩).self.m_port = 21 ∧
    (ParseUrl (markerEnv false) (defaultCServer (markerEnv false))
        "host:+21".toList 0 [] [] [] ⟨[]⟩).ret = true ∧
    (ParseUrl (markerEnv false) (defaultCServer (markerEnv false))
        "host:+21".toList 0 [] [] [] ⟨[]⟩).self.m_port = 21 ∧
    (ParseUrl { markerEnv false with localeSpace := fun c => c.toNat == 8195 }
        (defaultCServer (markerEnv false))
        ("host:".toList ++ [Char.ofNat 8195] ++ "21".toList) 0 [] [] [] ⟨[]⟩).ret = true ∧
    (ParseUrl { markerEnv false with localeSpace := fun c => c.toNat == 8195 }
        (defaultCServer (markerEnv false))
        ("host:".toList ++ [Char.ofNat 8195] ++ "21".toList) 0 [] [] [] ⟨[]⟩).self.m_port
      = 21 ∧
    (ParseUrl (markerEnv false) (defaultCServer (markerEnv false))
        ("host:".toList ++ [Char.ofNat 8195] ++ "21".toList) 0 [] [] [] ⟨[]⟩).ret = false := by
  decide

/-! ## Password and user accessors -/

/-- C15: on a descriptor whose logon type is not Anonymous, with the encryption
flag in either state, after `SetPass(v, false)` the call `GetPass(true)`
returns `v`, given that decoding undoes the encoding of `v`; and when the flag
is disabled or `alreadyEncrypted` is true, `SetPass` stores `v` as it is. -/
theorem GetPass_SetPass (env : Env) (d : CServer) (v : wxString)
    (hl : d.m_logonType ≠ .ANONYMOUS)
    (hcodec : env.encryptPasswords = true → env.Decrypt (env.Encrypt v) = v) :
    GetPass env (SetPass env d v false) true = v ∧
    (env.encryptPasswords = false → ∀ ae, (SetPass env d v ae).m_pass = v) ∧
    (SetPass env d v true).m_pass = v := by
  refine ⟨?_, ?_, ?_⟩
  · have hl' : (SetPass env d v false).m_logonType ≠ .ANONYMOUS := hl
    unfold GetPass
    rw [if_neg hl']
    show (if env.encryptPasswords = true ∧ true = true then
        env.Decrypt (if env.encryptPasswords = true ∧ ¬ false = true then env.Encrypt v else v)
      else (if env.encryptPasswords = true ∧ ¬ false = true then env.Encrypt v else v)) = v
    cases henc : env.encryptPasswords
    · simp
    · simp [hcodec henc]
  · intro henc ae
    show (if env.encryptPasswords = true ∧ ¬ ae = true then env.Encrypt v else v) = v
    simp [henc]
  · show (if env.encryptPasswords = true ∧ ¬ true = true then env.Encrypt v else v) = v
    simp

/-- C15 with encryption enabled, on a Normal descriptor: the password set is
stored encoded and read back as it was set. -/
theorem GetPass_SetPass_witness :
    (SetPass (markerEnv true)
        (mkCServerLogin (markerEnv true) .FTP .DEFAULT "example.com".toList 21 "u".toList []
          [])
        "secret".toList false).m_pass = "#secret".toList ∧
    GetPass (markerEnv true)
      (SetPass (markerEnv true)
        (mkCServerLogin (markerEnv true) .FTP .DEFAULT "example.com".toList 21 "u".toList []
          [])
        "secret".toList false) true = "secret".toList :=
  ⟨by decide,
   (GetPass_SetPass (markerEnv true)
      (mkCServerLogin (markerEnv true) .FTP .DEFAULT "example.com".toList 21 "u".toList [] [])
      "secret".toList (by decide) (by decide)).1⟩


/-- C16: on a descriptor whose logon type is Anonymous, `GetPass` returns
`anon@localhost` and `GetUser` returns `anonymous`, whatever is stored,
whatever the decrypt argument and the encryption flag, and also after any
call of `SetPass` or `SetUser`. -/
theorem anonymous_accessors (env : Env) (d : CServer) (decrypt : Bool)
    (hl : d.m_logonType = .ANONYMOUS) :
    (GetPass env d decrypt = anonLocalPass ∧ GetUser d = anonymousUser) ∧
    (∀ v ae, GetPass env (SetPass env d v ae) decrypt = anonLocalPass ∧
      GetUser (SetPass env d v ae) = anonymousUser) ∧
    (∀ u p ae, GetPass env (SetUser env d u p ae).2 decrypt = anonLocalPass ∧
      GetUser (SetUser env d u p ae).2 = anonymousUser) := by
  have base : ∀ x : CServer, x.m_logonType = .ANONYMOUS →
      GetPass env x decrypt = anonLocalPass ∧ GetUser x = anonymousUser := by
    intro x hx
    unfold GetPass GetUser
    rw [if_pos hx, if_pos hx]
    exact ⟨rfl, rfl⟩
  refine ⟨base d hl, fun v ae => base _ hl, fun u p ae => ?_⟩
  have : (SetUser env d u p ae).2 = d := by
    unfold SetUser
    rw [if_pos hl]
  rw [this]
  exact base d hl

/-- C16 on a default-constructed descriptor, after `SetPass("secret")`. -/
theorem anonymous_accessors_witness :
    GetPass (markerEnv true)
      (SetPass (markerEnv true) (defaultCServer (markerEnv true)) "secret".toList false) true
      = "anon@localhost".toList ∧
    GetUser (SetPass (markerEnv true) (defaultCServer (markerEnv true)) "secret".toList false)
      = "anonymous".toList :=
  ((anonymous_accessors (markerEnv true) (defaultCServer (markerEnv true)) true
    (by decide)).2.1 "secret".toList false)


/-! ## Assignment -/

/-- C17 at its failing input: with encryption enabled, a Normal descriptor `a`
whose password was set to `pw` and a descriptor `b` assigned from it:
`a.GetPass()` is `pw`, `b.GetPass()` is the encoded password, and `a == b` is
false. The codec decodes what it encodes. -/
theorem assign_changes_password :
    (markerEnv true).Decrypt ((markerEnv true).Encrypt "pw".toList) = "pw".toList ∧
    GetPass (markerEnv true)
      (mkCServerLogin (markerEnv true) .FTP .DEFAULT "example.com".toList 21 "u".toList
        "pw".toList []) true = "pw".toList ∧
    GetPass (markerEnv true)
      (assign (markerEnv true) (defaultCServer (markerEnv true))
        (mkCServerLogin (markerEnv true) .FTP .DEFAULT "example.com".toList 21 "u".toList
          "pw".toList [])) true = "#pw".toList ∧
    operatorEq (markerEnv true)
      (mkCServerLogin (markerEnv true) .FTP .DEFAULT "example.com".toList 21 "u".toList
        "pw".toList [])
      (assign (markerEnv true) (defaultCServer (markerEnv true))
        (mkCServerLogin (markerEnv true) .FTP .DEFAULT "example.com".toList 21 "u".toList
          "pw".toList [])) = false := by
  decide

/-- With encryption disabled the assignment copies every member. -/
theorem assign_plain (env : Env) (self op : CServer) (henc : env.encryptPasswords = false) :
    assign env self op = op := by
  unfold assign SetPass
  simp [henc]


/-! ## Setters that refuse -/

/-- C18: `SetPostLoginCommands(cmds)` returns true and stores `cmds`, changing
nothing else, when the protocol is FTP, FTPS or FTPES; for every other
protocol it returns false and leaves the descriptor as it was. `SetAccount`
returns false and leaves the descriptor as it was when the logon type is not
Account. -/
theorem setters_refuse (d : CServer) (cmds : List wxString) (account : wxString) :
    (d.m_protocol = .FTP ∨ d.m_protocol = .FTPS ∨ d.m_protocol = .FTPES →
      SetPostLoginCommands d cmds = (true, { d with m_postLoginCommands := cmds })) ∧
    (¬ (d.m_protocol = .FTP ∨ d.m_protocol = .FTPS ∨ d.m_protocol = .FTPES) →
      SetPostLoginCommands d cmds = (false, d)) ∧
    (d.m_logonType ≠ .ACCOUNT → SetAccount d account = (false, d)) := by
  refine ⟨?_, ?_, ?_⟩
  · intro h
    unfold SetPostLoginCommands
    rw [if_neg (by
      rintro ⟨h1, h2, h3⟩
      rcases h with h | h | h
      · exact h1 h
      · exact h2 h
      · exact h3 h)]
  · intro h
    unfold SetPostLoginCommands
    rw [if_pos ⟨fun e => h (Or.inl e), fun e => h (Or.inr (Or.inl e)),
      fun e => h (Or.inr (Or.inr e))⟩]
  · intro h
    unfold SetAccount
    rw [if_pos h]

/-- C18 on an FTPS descriptor, an SFTP descriptor, and a Normal descriptor. -/
theorem setters_refuse_witness :
    SetPostLoginCommands (mkCServer (markerEnv false) .FTPS .DEFAULT "example.com".toList 990)
        ["SITE UMASK 022".toList]
      = (true, { mkCServer (markerEnv false) .FTPS .DEFAULT "example.com".toList 990 with
          m_postLoginCommands := ["SITE UMASK 022".toList] }) ∧
    SetPostLoginCommands (mkCServer (markerEnv false) .SFTP .DEFAULT "example.com".toList 22)
        ["SITE UMASK 022".toList]
      = (false, mkCServer (markerEnv false) .SFTP .DEFAULT "example.com".toList 22) ∧
    SetAccount
        (mkCServerLogin (markerEnv false) .FTP .DEFAULT "example.com".toList 21 "u".toList
          "pw".toList [])
        "acct".toList
      = (false, mkCServerLogin (markerEnv false) .FTP .DEFAULT "example.com".toList 21
          "u".toList "pw".toList []) :=
  ⟨(setters_refuse (mkCServer (markerEnv false) .FTPS .DEFAULT "example.com".toList 990)
      ["SITE UMASK 022".toList] []).1 (by decide),
   (setters_refuse (mkCServer (markerEnv false) .SFTP .DEFAULT "example.com".toList 22)
      ["SITE UMASK 022".toList] []).2.1 (by decide),
   (setters_refuse
      (mkCServerLogin (markerEnv false) .FTP .DEFAULT "example.com".toList 21 "u".toList
        "pw".toList [])
      [] "acct".toList).2.2 (by decide)⟩

/-! ## The shape of the formatted string -/

/-- C19, as amended: for every descriptor `d` and flag `forcePrefix`,
`FormatServer(d, forcePrefix)` is `P ++ U ++ FormatHost(d, false)`. `U` is
`GetUser()` followed by an at sign unless the logon type is Anonymous, when
it is empty. `P` is the registry prefix of the protocol followed by `://`
when that prefix is not empty and the registry entry always shows it, or
`forcePrefix` is set, or the port differs from the protocol's default port;
otherwise `P` is empty. `FormatHost(d, omitPort)` is the host, in brackets
exactly when it contains a colon, followed by a colon and the port as `%d`
prints it exactly when the port differs from the protocol's default port and
`omitPort` is false; for a port below `2^31` that print is the decimal
port. -/
theorem FormatServer_shape (d : CServer) (forcePrefix omitPort : Bool) :
    FormatServer d forcePrefix =
      (if GetPrefixFromProtocol d.m_protocol ≠ [] ∧
          ((GetProtocolInfo d.m_protocol).alwaysShowPrefix = true ∨ forcePrefix = true ∨
            d.m_port ≠ GetDefaultPort d.m_protocol) then
        GetPrefixFromProtocol d.m_protocol ++ "://".toList else []) ++
      (if d.m_logonType ≠ .ANONYMOUS then GetUser d ++ "@".toList else []) ++
      FormatHost d false ∧
    FormatHost d omitPort =
      (if ':' ∈ d.m_host then "[".toList ++ d.m_host ++ "]".toList else d.m_host) ++
      (if d.m_port ≠ GetDefaultPort d.m_protocol ∧ omitPort = false then
        ":".toList ++ FormatD d.m_port else []) ∧
    (d.m_port < 2 ^ 31 → FormatD d.m_port = Nat.toDigits 10 d.m_port) := by
  refine ⟨?_, ?_, fun h => FormatD_of_lt h⟩
  · unfold FormatServer GetPrefixFromProtocol GetDefaultPort
    have hsep : schemeSeparator = "://".toList := rfl
    rw [hsep]
    by_cases hp : (GetProtocolInfo d.m_protocol).pfx ≠ []
    · by_cases hl : d.m_logonType ≠ .ANONYMOUS
      · by_cases hf : forcePrefix = true ∨ (GetProtocolInfo d.m_protocol).alwaysShowPrefix = true
        · have hc : (GetProtocolInfo d.m_protocol).alwaysShowPrefix = true ∨ forcePrefix = true ∨
              d.m_port ≠ (GetProtocolInfo d.m_protocol).defaultPort := by
            rcases hf with h | h
            · exact Or.inr (Or.inl h)
            · exact Or.inl h
          simp only [if_pos hp, if_pos hl, if_pos hf, if_pos (And.intro hp hc),
            List.append_assoc]
        · have hf1 : ¬ forcePrefix = true := fun h => hf (Or.inl h)
          have hf2 : ¬ (GetProtocolInfo d.m_protocol).alwaysShowPrefix = true :=
            fun h => hf (Or.inr h)
          by_cases hd : d.m_port ≠ (GetProtocolInfo d.m_protocol).defaultPort
          · simp only [if_pos hp, if_pos hl, if_neg hf, if_pos hd,
              if_pos (And.intro hp (Or.inr (Or.inr hd))), List.append_assoc]
          · have hc : ¬ ((GetProtocolInfo d.m_protocol).pfx ≠ [] ∧
                ((GetProtocolInfo d.m_protocol).alwaysShowPrefix = true ∨ forcePrefix = true ∨
                  d.m_port ≠ (GetProtocolInfo d.m_protocol).defaultPort)) := by
              rintro ⟨_, h | h | h⟩
              · exact hf2 h
              · exact hf1 h
              · exact hd h
            simp only [if_pos hp, if_pos hl, if_neg hf, if_neg hd, if_neg hc, List.nil_append]
      · by_cases hf : forcePrefix = true ∨ (GetProtocolInfo d.m_protocol).alwaysShowPrefix = true
        · have hc : (GetProtocolInfo d.m_protocol).alwaysShowPrefix = true ∨ forcePrefix = true ∨
              d.m_port ≠ (GetProtocolInfo d.m_protocol).defaultPort := by
            rcases hf with h | h
            · exact Or.inr (Or.inl h)
            · exact Or.inl h
          simp only [if_pos hp, if_neg hl, if_pos hf, if_pos (And.intro hp hc),
            List.append_assoc, List.append_nil]
        · have hf1 : ¬ forcePrefix = true := fun h => hf (Or.inl h)
          have hf2 : ¬ (GetProtocolInfo d.m_protocol).alwaysShowPrefix = true :=
            fun h => hf (Or.inr h)
          by_cases hd : d.m_port ≠ (GetProtocolInfo d.m_protocol).defaultPort
          · simp only [if_pos hp, if_neg hl, if_neg hf, if_pos hd,
              if_pos (And.intro hp (Or.inr (Or.inr hd))), List.append_assoc, List.append_nil]
          · have hc : ¬ ((GetProtocolInfo d.m_protocol).pfx ≠ [] ∧
                ((GetProtocolInfo d.m_protocol).alwaysShowPrefix = true ∨ forcePrefix = true ∨
                  d.m_port ≠ (GetProtocolInfo d.m_protocol).defaultPort)) := by
              rintro ⟨_, h | h | h⟩
              · exact hf2 h
              · exact hf1 h
              · exact hd h
            simp only [if_pos hp, if_neg hl, if_neg hf, if_neg hd, if_neg hc, List.nil_append,
              List.append_nil]
    · have hc : ¬ ((GetProtocolInfo d.m_protocol).pfx ≠ [] ∧
          ((GetProtocolInfo d.m_protocol).alwaysShowPrefix = true ∨ forcePrefix = true ∨
            d.m_port ≠ (GetProtocolInfo d.m_protocol).defaultPort)) := fun h => hp h.1
      by_cases hl : d.m_logonType ≠ .ANONYMOUS
      · simp only [if_neg hp, if_pos hl, if_neg hc, List.nil_append]
      · simp only [if_neg hp, if_neg hl, if_neg hc, List.nil_append]
  · unfold FormatHost
    have hfind : Find d.m_host ':' ≠ -1 ↔ ':' ∈ d.m_host := by
      rw [Ne, Find_eq_neg_one_iff]; exact not_not
    by_cases hc : ':' ∈ d.m_host
    · by_cases hd : d.m_port ≠ GetDefaultPort d.m_protocol
      · cases omitPort <;> simp [hfind.mpr hc, hc, hd]
      · cases omitPort <;> simp [hfind.mpr hc, hc, hd]
    · have hn : ¬ (Find d.m_host ':' ≠ -1) := fun h => hc (hfind.mp h)
      by_cases hd : d.m_port ≠ GetDefaultPort d.m_protocol
      · cases omitPort <;> simp [hn, hc, hd]
      · cases omitPort <;> simp [hn, hc, hd]

/-- C19, as stated, fails: for a descriptor of protocol UNKNOWN, whose registry
prefix is empty, `FormatServer` with `forcePrefix` set gives `example.com`,
where the claim's `P ++ U ++ FormatHost` is `://example.com`. -/
theorem FormatServer_unknown_no_separator :
    GetPrefixFromProtocol (mkCServer (markerEnv false) .UNKNOWN .DEFAULT
        "example.com".toList 21).m_protocol = [] ∧
    (mkCServer (markerEnv false) .UNKNOWN .DEFAULT "example.com".toList 21).m_logonType
      = .ANONYMOUS ∧
    FormatHost (mkCServer (markerEnv false) .UNKNOWN .DEFAULT "example.com".toList 21) false
      = "example.com".toList ∧
    FormatServer (mkCServer (markerEnv false) .UNKNOWN .DEFAULT "example.com".toList 21) true
      = "example.com".toList ∧
    FormatServer (mkCServer (markerEnv false) .UNKNOWN .DEFAULT "example.com".toList 21) true
      ≠ GetPrefixFromProtocol (mkCServer (markerEnv false) .UNKNOWN .DEFAULT
          "example.com".toList 21).m_protocol ++ "://".toList ++ [] ++
        FormatHost (mkCServer (markerEnv false) .UNKNOWN .DEFAULT "example.com".toList 21)
          false := by
  decide

/-- C19, as amended, at an SFTP login on port 2222: the prefix is shown because
the port is not 22, and the port is printed in decimal. -/
theorem FormatServer_shape_witness :
    FormatServer (mkCServerLogin (markerEnv false) .SFTP .DEFAULT "example.com".toList 2222
        "user".toList "pw".toList []) false = "sftp://user@example.com:2222".toList ∧
    FormatD (mkCServerLogin (markerEnv false) .SFTP .DEFAULT "example.com".toList 2222
        "user".toList "pw".toList []).m_port = Nat.toDigits 10 2222 :=
  ⟨by decide,
   (FormatServer_shape (mkCServerLogin (markerEnv false) .SFTP .DEFAULT "example.com".toList
      2222 "user".toList "pw".toList []) false false).2.2 (by decide)⟩

/-- A port from `2^31` on, which the constructors accept, is printed by `%d`
as a negative number. -/
theorem FormatHost_port_above_int_max :
    FormatHost (mkCServer (markerEnv false) .FTP .DEFAULT "example.com".toList 3000000000)
      false = "example.com:-1294967296".toList := by
  decide

/-! ## The host a successful parse stores -/

/-- C20 at its failing inputs: `[]`, `[]:21` and ` [a` each parse successfully
into a default-constructed descriptor and leave the stored host empty. -/
theorem ParseUrl_empty_host_on_success :
    ((ParseUrl (markerEnv false) (defaultCServer (markerEnv false)) "[]".toList 0
        [] [] [] ⟨[]⟩).ret = true ∧
      (ParseUrl (markerEnv false) (defaultCServer (markerEnv false)) "[]".toList 0
        [] [] [] ⟨[]⟩).self.m_host = []) ∧
    ((ParseUrl (markerEnv false) (defaultCServer (markerEnv false)) "[]:21".toList 0
        [] [] [] ⟨[]⟩).ret = true ∧
      (ParseUrl (markerEnv false) (defaultCServer (markerEnv false)) "[]:21".toList 0
        [] [] [] ⟨[]⟩).self.m_host = []) ∧
    ((ParseUrl (markerEnv false) (defaultCServer (markerEnv false)) " [a".toList 0
        [] [] [] ⟨[]⟩).ret = true ∧
      (ParseUrl (markerEnv false) (defaultCServer (markerEnv false)) " [a".toList 0
        [] [] [] ⟨[]⟩).self.m_host = []) := by
  decide

/-! ## The order of operator< with encryption off -/

theorem Cmp_self (s : wxString) : Cmp s s = 0 := by
  induction s with
  | nil => rfl
  | cons x xs ih => simp [Cmp, ih]

theorem Cmp_pos_iff (s t : wxString) : 0 < Cmp s t ↔ Cmp t s < 0 := by
  induction s generalizing t with
  | nil => cases t <;> simp [Cmp]
  | cons x xs ih =>
    cases t with
    | nil => simp [Cmp]
    | cons y ys =>
      simp only [Cmp]
      by_cases h1 : x.toNat < y.toNat
      · have h2 : ¬ y.toNat < x.toNat := by omega
        simp [h1, h2]
      · by_cases h2 : y.toNat < x.toNat
        · simp [h1, h2]
        · simp only [h1, h2, if_false]
          exact ih ys

theorem Cmp_trichotomy (s t : wxString) (h1 : ¬ Cmp s t < 0) (h2 : ¬ Cmp t s < 0) : s = t := by
  induction s generalizing t with
  | nil =>
    cases t with
    | nil => rfl
    | cons y ys => exact absurd (by simp [Cmp]) h1
  | cons x xs ih =>
    cases t with
    | nil => exact absurd (by simp [Cmp]) h2
    | cons y ys =>
      simp only [Cmp] at h1 h2
      by_cases c1 : x.toNat < y.toNat
      · simp [c1] at h1
      · by_cases c2 : y.toNat < x.toNat
        · simp [c2] at h2
        · simp only [c1, c2, if_false] at h1 h2
          have hxy : x = y := by
            have : x.toNat = y.toNat := by omega
            rw [← Char.ofNat_toNat x, ← Char.ofNat_toNat y, this]
          rw [hxy, ih ys h1 h2]

theorem Cmp_trans (s t u : wxString) (h1 : Cmp s t < 0) (h2 : Cmp t u < 0) : Cmp s u < 0 := by
  induction s generalizing t u with
  | nil =>
    cases u with
    | nil => cases t <;> simp [Cmp] at h2
    | cons z zs => simp [Cmp]
  | cons x xs ih =>
    cases t with
    | nil => simp [Cmp] at h1
    | cons y ys =>
      cases u with
      | nil => simp [Cmp] at h2
      | cons z zs =>
        simp only [Cmp] at h1 h2 ⊢
        by_cases a1 : x.toNat < y.toNat
        · by_cases b1 : y.toNat < z.toNat
          · have : x.toNat < z.toNat := by omega
            simp [this]
          · by_cases b2 : z.toNat < y.toNat
            · simp [b1, b2] at h2
            · have : x.toNat < z.toNat := by omega
              simp [this]
        · by_cases a2 : y.toNat < x.toNat
          · simp [a1, a2] at h1
          · simp only [a1, a2, if_false] at h1
            by_cases b1 : y.toNat < z.toNat
            · have : x.toNat < z.toNat := by omega
              simp [this]
            · by_cases b2 : z.toNat < y.toNat
              · simp [b1, b2] at h2
              · simp only [b1, b2, if_false] at h2
                have c1 : ¬ x.toNat < z.toNat := by omega
                have c2 : ¬ z.toNat < x.toNat := by omega
                simp only [c1, c2, if_false]
                exact ih ys zs h1 h2

theorem LexStep_irrefl {K : Type} (k : CServer → K) (lt : K → K → Prop)
    (R : CServer → CServer → Prop) (hlt : ∀ x, ¬ lt x x) (hR : ∀ a, ¬ R a a) :
    ∀ a, ¬ LexStep k lt R a a := by
  intro a h
  rcases h with h | ⟨_, h⟩
  · exact hlt _ h
  · exact hR _ h

theorem LexStep_trans {K : Type} (k : CServer → K) (lt : K → K → Prop)
    (R : CServer → CServer → Prop) (hlt : ∀ x y z, lt x y → lt y z → lt x z)
    (hR : ∀ a b c, R a b → R b c → R a c) :
    ∀ a b c, LexStep k lt R a b → LexStep k lt R b c → LexStep k lt R a c := by
  intro a b c hab hbc
  rcases hab with h1 | ⟨e1, r1⟩
  · rcases hbc with h2 | ⟨e2, _⟩
    · exact Or.inl (hlt _ _ _ h1 h2)
    · exact Or.inl (e2 ▸ h1)
  · rcases hbc with h2 | ⟨e2, r2⟩
    · exact Or.inl (e1 ▸ h2)
    · exact Or.inr ⟨e1.trans e2, hR _ _ _ r1 r2⟩

theorem LexStep_of_key_eq {K : Type} (k : CServer → K) (lt : K → K → Prop)
    (R : CServer → CServer → Prop) (hlt : ∀ x, ¬ lt x x) (a b : CServer) (h : k a = k b) :
    LexStep k lt R a b ↔ R a b := by
  constructor
  · intro h1
    rcases h1 with h1 | ⟨_, h1⟩
    · rw [h] at h1; exact absurd h1 (hlt _)
    · exact h1
  · intro h1; exact Or.inr ⟨h, h1⟩

/-- The shape of every comparison in `operator<`: return true when smaller,
false when greater, and go on to the next member otherwise. -/
theorem step_iff_of {K : Type} (k : CServer → K) (lt : K → K → Prop)
    (R : CServer → CServer → Prop) (hirr : ∀ x, ¬ lt x x)
    (htri : ∀ x y, ¬ lt x y → ¬ lt y x → x = y) (a b : CServer) (rest : Bool)
    (P Q : Prop) [Decidable P] [Decidable Q]
    (hP : P ↔ lt (k a) (k b)) (hQ : Q ↔ lt (k b) (k a))
    (hR : k a = k b → (rest = true ↔ R a b)) :
    (if P then true else if Q then false else rest) = true ↔ LexStep k lt R a b := by
  by_cases h1 : P
  · rw [if_pos h1]; exact ⟨fun _ => Or.inl (hP.1 h1), fun _ => rfl⟩
  · rw [if_neg h1]
    by_cases h2 : Q
    · rw [if_pos h2]
      constructor
      · intro h; exact absurd h Bool.false_ne_true
      · intro h
        rcases h with h | ⟨e, _⟩
        · exact absurd (hP.2 h) h1
        · have h3 := hQ.1 h2
          rw [e] at h3; exact absurd h3 (hirr _)
    · rw [if_neg h2]
      have e := htri _ _ (fun h => h1 (hP.2 h)) (fun h => h2 (hQ.2 h))
      rw [hR e]
      exact ⟨fun h => Or.inr ⟨e, h⟩,
        fun h => h.elim (fun h => absurd (hP.2 h) h1) (fun h => h.2)⟩

theorem StrLt_irrefl (s : wxString) : ¬ StrLt s s := by
  unfold StrLt; rw [Cmp_self]; decide

theorem StrLt_trichotomy (s t : wxString) (h1 : ¬ StrLt s t) (h2 : ¬ StrLt t s) : s = t :=
  Cmp_trichotomy s t h1 h2

theorem StrLt_trans (s t u : wxString) (h1 : StrLt s t) (h2 : StrLt t u) : StrLt s u :=
  Cmp_trans s t u h1 h2

theorem Bool_lt_trichotomy (x y : Bool) (h1 : ¬ x < y) (h2 : ¬ y < x) : x = y := by
  cases x <;> cases y <;> first | rfl | exact absurd (by decide) h1 | exact absurd (by decide) h2

theorem Bool_lt_trans (x y z : Bool) (h1 : x < y) (h2 : y < z) : x < z := by
  cases x <;> cases y <;> cases z <;> first | exact h1 | exact h2

theorem LogonType_code_inj (x y : LogonType) (h : x.code = y.code) : x = y := by
  cases x <;> cases y <;> first | rfl | exact absurd h (by decide)

theorem CharsetEncoding_code_inj (x y : CharsetEncoding) (h : x.code = y.code) : x = y := by
  cases x <;> cases y <;> first | rfl | exact absurd h (by decide)

theorem operatorLtOptions_iff (a b : CServer) : operatorLtOptions a b = true ↔ optionsLt a b := by
  unfold operatorLtOptions optionsLt
  refine step_iff_of (fun x => x.m_timezoneOffset) (fun x y => x < y) _ (fun x => lt_irrefl x)
    (fun x y h1 h2 => by omega) a b _ _ _ Iff.rfl Iff.rfl (fun _ => ?_)
  refine step_iff_of (fun x => x.m_pasvMode.code) (fun x y => x < y) _ (fun x => lt_irrefl x)
    (fun x y h1 h2 => by omega) a b _ _ _ Iff.rfl Iff.rfl (fun _ => ?_)
  refine step_iff_of (fun x => x.m_encodingType.code) (fun x y => x < y) _ (fun x => lt_irrefl x)
    (fun x y h1 h2 => by omega) a b _ _ _ Iff.rfl Iff.rfl (fun he => ?_)
  have he2 : b.m_encodingType = a.m_encodingType :=
    (CharsetEncoding_code_inj _ _ he).symm
  refine step_iff_of encodingKey StrLt _ StrLt_irrefl StrLt_trichotomy a b _ _ _ ?_ ?_ (fun _ => ?_)
  · unfold StrLt encodingKey
    rw [he2]
    by_cases hc : a.m_encodingType = .ENCODING_CUSTOM
    · rw [if_pos hc, if_pos hc]; exact ⟨fun h => h.2, fun h => ⟨hc, h⟩⟩
    · rw [if_neg hc, if_neg hc]
      exact ⟨fun h => absurd h.1 hc, fun h => absurd h (StrLt_irrefl [])⟩
  · unfold StrLt encodingKey
    rw [he2]
    by_cases hc : a.m_encodingType = .ENCODING_CUSTOM
    · rw [if_pos hc, if_pos hc]
      exact ⟨fun h => (Cmp_pos_iff _ _).1 h.2, fun h => ⟨hc, (Cmp_pos_iff _ _).2 h⟩⟩
    · rw [if_neg hc, if_neg hc]
      exact ⟨fun h => absurd h.1 hc, fun h => absurd h (StrLt_irrefl [])⟩
  refine step_iff_of (fun x => x.m_bypassProxy) (fun x y => x < y) _ (fun x => lt_irrefl x)
    Bool_lt_trichotomy a b _ _ _ Iff.rfl Iff.rfl (fun _ => ?_)
  exact ⟨fun h => absurd h Bool.false_ne_true, fun h => h.elim⟩

theorem strStep_iff (k : CServer → wxString) (R : CServer → CServer → Prop) (a b : CServer)
    (rest : Bool) (s t : wxString) (hs : k a = s) (ht : k b = t)
    (hR : k a = k b → (rest = true ↔ R a b)) :
    (if Cmp s t < 0 then true else if Cmp s t > 0 then false else rest) = true ↔
      LexStep k StrLt R a b := by
  subst hs; subst ht
  exact step_iff_of k StrLt R StrLt_irrefl StrLt_trichotomy a b rest _ _ Iff.rfl
    (Cmp_pos_iff _ _) hR

theorem operatorLtCredentials_iff (env : Env) (henc : env.encryptPasswords = false)
    (a b : CServer) (hl : a.m_logonType = b.m_logonType) :
    operatorLtCredentials env a b = true ↔ credentialsLt a b := by
  have hcases : a.m_logonType = .ANONYMOUS ∨ a.m_logonType = .NORMAL ∨ a.m_logonType = .ASK ∨
      a.m_logonType = .INTERACTIVE ∨ a.m_logonType = .ACCOUNT := by
    cases a.m_logonType <;> simp
  unfold operatorLtCredentials credentialsLt
  rcases hcases with h | h | h | h | h
  · have hb : b.m_logonType = .ANONYMOUS := hl ▸ h
    rw [if_neg (not_not.2 h)]
    rw [LexStep_of_key_eq userKey StrLt _ StrLt_irrefl a b (by simp [userKey, h, hb]),
      LexStep_of_key_eq passKey StrLt _ StrLt_irrefl a b (by simp [passKey, h, hb]),
      LexStep_of_key_eq accountKey StrLt _ StrLt_irrefl a b (by simp [accountKey, h, hb])]
    exact operatorLtOptions_iff a b
  · have hb : b.m_logonType = .NORMAL := hl ▸ h
    rw [if_pos (show a.m_logonType ≠ .ANONYMOUS by rw [h]; decide), if_pos h, GetPass_plain env a henc (by rw [h]; decide)]
    refine strStep_iff userKey _ a b _ _ _ (by simp [userKey, h]) (by simp [userKey, hb])
      (fun _ => ?_)
    refine strStep_iff passKey _ a b _ _ _ (by simp [passKey, h]) (by simp [passKey, hb])
      (fun _ => ?_)
    rw [LexStep_of_key_eq accountKey StrLt _ StrLt_irrefl a b (by simp [accountKey, h, hb])]
    exact operatorLtOptions_iff a b
  · have hb : b.m_logonType = .ASK := hl ▸ h
    rw [if_pos (show a.m_logonType ≠ .ANONYMOUS by rw [h]; decide),
      if_neg (show ¬ a.m_logonType = .NORMAL by rw [h]; decide),
      if_neg (show ¬ a.m_logonType = .ACCOUNT by rw [h]; decide)]
    refine strStep_iff userKey _ a b _ _ _ (by simp [userKey, h]) (by simp [userKey, hb])
      (fun _ => ?_)
    rw [LexStep_of_key_eq passKey StrLt _ StrLt_irrefl a b (by simp [passKey, h, hb]),
      LexStep_of_key_eq accountKey StrLt _ StrLt_irrefl a b (by simp [accountKey, h, hb])]
    exact operatorLtOptions_iff a b
  · have hb : b.m_logonType = .INTERACTIVE := hl ▸ h
    rw [if_pos (show a.m_logonType ≠ .ANONYMOUS by rw [h]; decide),
      if_neg (show ¬ a.m_logonType = .NORMAL by rw [h]; decide),
      if_neg (show ¬ a.m_logonType = .ACCOUNT by rw [h]; decide)]
    refine strStep_iff userKey _ a b _ _ _ (by simp [userKey, h]) (by simp [userKey, hb])
      (fun _ => ?_)
    rw [LexStep_of_key_eq passKey StrLt _ StrLt_irrefl a b (by simp [passKey, h, hb]),
      LexStep_of_key_eq accountKey StrLt _ StrLt_irrefl a b (by simp [accountKey, h, hb])]
    exact operatorLtOptions_iff a b
  · have hb : b.m_logonType = .ACCOUNT := hl ▸ h
    rw [if_pos (show a.m_logonType ≠ .ANONYMOUS by rw [h]; decide),
      if_neg (show ¬ a.m_logonType = .NORMAL by rw [h]; decide), if_pos h,
      GetPass_plain env a henc (by rw [h]; decide)]
    refine strStep_iff userKey _ a b _ _ _ (by simp [userKey, h]) (by simp [userKey, hb])
      (fun _ => ?_)
    refine strStep_iff passKey _ a b _ _ _ (by simp [passKey, h]) (by simp [passKey, hb])
      (fun _ => ?_)
    refine strStep_iff accountKey _ a b _ _ _ (by simp [accountKey, h])
      (by simp [accountKey, hb]) (fun _ => ?_)
    exact operatorLtOptions_iff a b

theorem operatorLt_iff (env : Env) (henc : env.encryptPasswords = false) (a b : CServer) :
    operatorLt env a b = true ↔ orderLt a b := by
  unfold operatorLt orderLt
  refine step_iff_of (fun x => x.m_protocol.code) (fun x y => x < y) _ (fun x => lt_irrefl x)
    (fun x y h1 h2 => by omega) a b _ _ _ Iff.rfl Iff.rfl (fun _ => ?_)
  refine step_iff_of (fun x => x.m_type.code) (fun x y => x < y) _ (fun x => lt_irrefl x)
    (fun x y h1 h2 => by omega) a b _ _ _ Iff.rfl Iff.rfl (fun _ => ?_)
  refine step_iff_of (fun x => x.m_host) StrLt _ StrLt_irrefl StrLt_trichotomy a b _ _ _
    Iff.rfl (Cmp_pos_iff _ _) (fun _ => ?_)
  refine step_iff_of (fun x => x.m_port) (fun x y => x < y) _ (fun x => lt_irrefl x)
    (fun x y h1 h2 => by omega) a b _ _ _ Iff.rfl Iff.rfl (fun _ => ?_)
  exact step_iff_of (fun x => x.m_logonType.code) (fun x y => x < y) _ (fun x => lt_irrefl x)
    (fun x y h1 h2 => by omega) a b _ _ _ Iff.rfl Iff.rfl
    (fun h => operatorLtCredentials_iff env henc a b (LogonType_code_inj _ _ h))

theorem optionsLt_irrefl (a : CServer) : ¬ optionsLt a a := by
  unfold optionsLt
  refine LexStep_irrefl _ (fun x y : Int => x < y) _ (fun x => lt_irrefl x) ?_ a
  refine LexStep_irrefl _ _ _ (fun x : Int => lt_irrefl x) ?_
  refine LexStep_irrefl _ _ _ (fun x : Int => lt_irrefl x) ?_
  refine LexStep_irrefl _ _ _ StrLt_irrefl ?_
  refine LexStep_irrefl _ _ _ (fun x : Bool => lt_irrefl x) ?_
  exact fun _ h => h

theorem optionsLt_trans (a b c : CServer) : optionsLt a b → optionsLt b c → optionsLt a c := by
  unfold optionsLt
  refine LexStep_trans _ (fun x y : Int => x < y) _ (fun x y z h1 h2 => lt_trans h1 h2) ?_ a b c
  refine LexStep_trans _ _ _ (fun (x y z : Int) h1 h2 => lt_trans h1 h2) ?_
  refine LexStep_trans _ _ _ (fun (x y z : Int) h1 h2 => lt_trans h1 h2) ?_
  refine LexStep_trans _ _ _ StrLt_trans ?_
  refine LexStep_trans _ _ _ Bool_lt_trans ?_
  exact fun _ _ _ h _ => h

theorem orderLt_irrefl (a : CServer) : ¬ orderLt a a := by
  unfold orderLt credentialsLt
  refine LexStep_irrefl _ (fun x y : Int => x < y) _ (fun x => lt_irrefl x) ?_ a
  refine LexStep_irrefl _ _ _ (fun x : Int => lt_irrefl x) ?_
  refine LexStep_irrefl _ _ _ StrLt_irrefl ?_
  refine LexStep_irrefl _ _ _ (fun x : Nat => lt_irrefl x) ?_
  refine LexStep_irrefl _ _ _ (fun x : Int => lt_irrefl x) ?_
  refine LexStep_irrefl _ _ _ StrLt_irrefl ?_
  refine LexStep_irrefl _ _ _ StrLt_irrefl ?_
  refine LexStep_irrefl _ _ _ StrLt_irrefl ?_
  exact optionsLt_irrefl

theorem orderLt_trans (a b c : CServer) : orderLt a b → orderLt b c → orderLt a c := by
  unfold orderLt credentialsLt
  refine LexStep_trans _ (fun x y : Int => x < y) _ (fun x y z h1 h2 => lt_trans h1 h2) ?_ a b c
  refine LexStep_trans _ _ _ (fun (x y z : Int) h1 h2 => lt_trans h1 h2) ?_
  refine LexStep_trans _ _ _ StrLt_trans ?_
  refine LexStep_trans _ _ _ (fun (x y z : Nat) h1 h2 => lt_trans h1 h2) ?_
  refine LexStep_trans _ _ _ (fun (x y z : Int) h1 h2 => lt_trans h1 h2) ?_
  refine LexStep_trans _ _ _ StrLt_trans ?_
  refine LexStep_trans _ _ _ StrLt_trans ?_
  refine LexStep_trans _ _ _ StrLt_trans ?_
  exact optionsLt_trans

/-- Descriptors that agree on every key `operator<` compares are not
ordered by it. -/
theorem orderLt_false_of_keys (a b : CServer)
    (h : a.m_protocol.code = b.m_protocol.code ∧ a.m_type.code = b.m_type.code ∧
      a.m_host = b.m_host ∧ a.m_port = b.m_port ∧ a.m_logonType.code = b.m_logonType.code ∧
      userKey a = userKey b ∧ passKey a = passKey b ∧ accountKey a = accountKey b ∧
      a.m_timezoneOffset = b.m_timezoneOffset ∧ a.m_pasvMode.code = b.m_pasvMode.code ∧
      a.m_encodingType.code = b.m_encodingType.code ∧ encodingKey a = encodingKey b ∧
      a.m_bypassProxy = b.m_bypassProxy) : ¬ orderLt a b := by
  obtain ⟨h1, h2, h3, h4, h5, h6, h7, h8, h9, h10, h11, h12, h13⟩ := h
  unfold orderLt credentialsLt optionsLt
  rw [LexStep_of_key_eq (fun x => x.m_protocol.code) _ _ (fun x : Int => lt_irrefl x) a b h1,
    LexStep_of_key_eq (fun x => x.m_type.code) _ _ (fun x : Int => lt_irrefl x) a b h2,
    LexStep_of_key_eq (fun x => x.m_host) _ _ StrLt_irrefl a b h3,
    LexStep_of_key_eq (fun x => x.m_port) _ _ (fun x : Nat => lt_irrefl x) a b h4,
    LexStep_of_key_eq (fun x => x.m_logonType.code) _ _ (fun x : Int => lt_irrefl x) a b h5,
    LexStep_of_key_eq userKey _ _ StrLt_irrefl a b h6,
    LexStep_of_key_eq passKey _ _ StrLt_irrefl a b h7,
    LexStep_of_key_eq accountKey _ _ StrLt_irrefl a b h8,
    LexStep_of_key_eq (fun x => x.m_timezoneOffset) _ _ (fun x : Int => lt_irrefl x) a b h9,
    LexStep_of_key_eq (fun x => x.m_pasvMode.code) _ _ (fun x : Int => lt_irrefl x) a b h10,
    LexStep_of_key_eq (fun x => x.m_encodingType.code) _ _ (fun x : Int => lt_irrefl x) a b h11,
    LexStep_of_key_eq encodingKey _ _ StrLt_irrefl a b h12,
    LexStep_of_key_eq (fun x => x.m_bypassProxy) _ _ (fun x : Bool => lt_irrefl x) a b h13]
  exact id

/-- With encryption disabled, descriptors that `operator==` accepts agree on
every key `operator<` compares, so neither is ordered before the other. -/
theorem operatorEq_not_orderLt (env : Env) (henc : env.encryptPasswords = false)
    (a b : CServer) (h : operatorEq env a b = true) : ¬ orderLt a b ∧ ¬ orderLt b a := by
  rw [operatorEq_iff] at h
  obtain ⟨h1, h2, h3, h4, h5, h6, h7, h8, h9, h10, h11, h12, h13, _, h15⟩ := h
  have hu : userKey a = userKey b := by
    unfold userKey
    rw [← h5]
    by_cases c : a.m_logonType ≠ .ANONYMOUS
    · rw [if_pos c, if_pos c]; exact h6 c
    · rw [if_neg c, if_neg c]
  have hp : passKey a = passKey b := by
    unfold passKey
    rw [← h5]
    by_cases c : a.m_logonType = .NORMAL ∨ a.m_logonType = .ACCOUNT
    · rw [if_pos c, if_pos c]
      rcases c with c | c
      · rw [← h7 c]; exact (GetPass_plain env a henc (by rw [c]; decide)).symm
      · rw [← h8 c]; exact (GetPass_plain env a henc (by rw [c]; decide)).symm
    · rw [if_neg c, if_neg c]
  have hac : accountKey a = accountKey b := by
    unfold accountKey
    rw [← h5]
    by_cases c : a.m_logonType = .ACCOUNT
    · rw [if_pos c, if_pos c]; exact h9 c
    · rw [if_neg c, if_neg c]
  have he : encodingKey a = encodingKey b := by
    unfold encodingKey
    rw [← h12]
    by_cases c : a.m_encodingType = .ENCODING_CUSTOM
    · rw [if_pos c, if_pos c]; exact h13 c
    · rw [if_neg c, if_neg c]
  constructor
  · exact orderLt_false_of_keys a b
      ⟨by rw [h1], by rw [h2], h3, h4, by rw [h5], hu, hp, hac, h10, by rw [h11], by rw [h12],
        he, h15⟩
  · exact orderLt_false_of_keys b a
      ⟨by rw [h1], by rw [h2], h3.symm, h4.symm, by rw [h5], hu.symm, hp.symm, hac.symm,
        h10.symm, by rw [h11], by rw [h12], he.symm, h15.symm⟩

/-- C21: with password encryption switched off, `operator<` is a strict
order on descriptors: no descriptor is smaller than itself, `a < b` excludes
`b < a`, `a < b` and `b < c` give `a < c`, and descriptors that `operator==`
accepts are not ordered either way. -/
theorem operatorLt_strict_order_plain (env : Env) (henc : env.encryptPasswords = false) :
    (∀ a, operatorLt env a a = false) ∧
    (∀ a b, operatorLt env a b = true → operatorLt env b a = false) ∧
    (∀ a b c, operatorLt env a b = true → operatorLt env b c = true →
      operatorLt env a c = true) ∧
    (∀ a b, operatorEq env a b = true →
      operatorLt env a b = false ∧ operatorLt env b a = false) := by
  have hfalse : ∀ a b, ¬ orderLt a b → operatorLt env a b = false := by
    intro a b h
    cases hv : operatorLt env a b with
    | false => rfl
    | true => exact absurd ((operatorLt_iff env henc a b).1 hv) h
  refine ⟨?_, ?_, ?_, ?_⟩
  · intro a
    exact hfalse a a (orderLt_irrefl a)
  · intro a b h
    apply hfalse
    intro h2
    exact orderLt_irrefl a (orderLt_trans a b a ((operatorLt_iff env henc a b).1 h) h2)
  · intro a b c h1 h2
    exact (operatorLt_iff env henc a c).2
      (orderLt_trans a b c ((operatorLt_iff env henc a b).1 h1)
        ((operatorLt_iff env henc b c).1 h2))
  · intro a b h
    have hk := operatorEq_not_orderLt env henc a b h
    exact ⟨hfalse a b hk.1, hfalse b a hk.2⟩

/-- C21 at concrete descriptors: with encryption off, three logins on one
host that differ in user name or password are ordered transitively and
asymmetrically, and a descriptor equal to itself is not below itself. -/
theorem operatorLt_strict_order_plain_witness :
    (markerEnv false).encryptPasswords = false ∧
    operatorLt (markerEnv false)
      (mkCServerLogin (markerEnv false) .FTP .DEFAULT "example.com".toList 21
        "alice".toList "pw".toList [])
      (mkCServerLogin (markerEnv false) .FTP .DEFAULT "example.com".toList 21
        "alice".toList "px".toList []) = true ∧
    operatorLt (markerEnv false)
      (mkCServerLogin (markerEnv false) .FTP .DEFAULT "example.com".toList 21
        "alice".toList "px".toList [])
      (mkCServerLogin (markerEnv false) .FTP .DEFAULT "example.com".toList 21
        "bob".toList "a".toList []) = true ∧
    operatorLt (markerEnv false)
      (mkCServerLogin (markerEnv false) .FTP .DEFAULT "example.com".toList 21
        "alice".toList "pw".toList [])
      (mkCServerLogin (markerEnv false) .FTP .DEFAULT "example.com".toList 21
        "bob".toList "a".toList []) = true ∧
    operatorLt (markerEnv false)
      (mkCServerLogin (markerEnv false) .FTP .DEFAULT "example.com".toList 21
        "alice".toList "px".toList [])
      (mkCServerLogin (markerEnv false) .FTP .DEFAULT "example.com".toList 21
        "alice".toList "pw".toList []) = false ∧
    operatorEq (markerEnv false)
      (mkCServerLogin (markerEnv false) .FTP .DEFAULT "example.com".toList 21
        "alice".toList "pw".toList [])
      (mkCServerLogin (markerEnv false) .FTP .DEFAULT "example.com".toList 21
        "alice".toList "pw".toList []) = true ∧
    operatorLt (markerEnv false)
      (mkCServerLogin (markerEnv false) .FTP .DEFAULT "example.com".toList 21
        "alice".toList "pw".toList [])
      (mkCServerLogin (markerEnv false) .FTP .DEFAULT "example.com".toList 21
        "alice".toList "pw".toList []) = false :=
  ⟨rfl, by decide, by decide,
    (operatorLt_strict_order_plain (markerEnv false) rfl).2.2.1 _
      (mkCServerLogin (markerEnv false) .FTP .DEFAULT "example.com".toList 21
        "alice".toList "px".toList []) _ (by decide) (by decide),
    (operatorLt_strict_order_plain (markerEnv false) rfl).2.1 _ _ (by decide),
    by decide,
    ((operatorLt_strict_order_plain (markerEnv false) rfl).2.2.2 _ _ (by decide)).1⟩

end FileZilla
